import Mathlib

/-! # rsvisa: Tcl commands over the VISA instrument library

A shallow embedding of the command functions of `src/generic/rsvisa.cpp`.
`src/tclrsvisa.cpp` is the older string-argument variant of the same
commands: it makes the same VISA calls with the same status tests, converts
its arguments with `atol`, does not test the result of `malloc`, and leaves
`bp` at the old block after `realloc`.  Its read loop is embedded separately
(`Tclrsvisa._WriteRead_while`, `Tclrsvisa.Read_while`), as is its conversion
of attribute values (`atolInt`).

* The VISA library and the C allocator are the environment: a record of
  primitives `Env σ` over an arbitrary state `σ`.  Every call a command makes
  is appended to a log, so that "which primitives were invoked, with which
  arguments, in which order" is part of a command's result.
* A command is modelled for a call whose Tcl arguments convert (`objc` is
  right and `Tcl_GetLongFromObj` / `Tcl_GetIntFromObj` succeed); its
  parameters are the values of the C variables after the conversion.  The
  `malloc` that `_WriteRead` and `Read` make before looking at their
  arguments is part of the model.  For the attribute commands the
  conversion of the integer arguments to `int` is modelled too
  (`SetAttribute_objv`, `GetAttribute_objv`), and for the writing commands
  the conversion of the command argument by `Tcl_GetString` (`Write_objv`,
  `_WriteRead_objv`).
* `while (1)` loops take a fuel argument and return `none` when it runs out.
* Memory: a buffer is the list of its bytes.  Fresh memory (`malloc`, a local
  array, the tail added by `realloc`) is modelled zero-filled; no result
  depends on that content.  Sizes (`size_t`) are natural numbers; the length
  handed to `Tcl_NewByteArrayObj` is converted to `int`.
* `long` is 64 bits wide (LP64) and `ViAttrState` is the 64-bit unsigned type
  of a 64-bit VISA environment.
-/

namespace Rsvisa

/-! ## Types and constants of `visa.h` -/

abbrev Byte := UInt8

/-- Signed 32-bit completion and error codes (`ViStatus`). -/
abbrev ViStatus := Int

/-- Unsigned 32-bit handle (`ViSession`). -/
abbrev ViSession := Nat

/-- Unsigned 32-bit attribute identifier (`ViAttr`). -/
abbrev ViAttr := Nat

/-- Unsigned 64-bit attribute value (`ViAttrState`). -/
abbrev ViAttrState := Nat

/-- Completion code of `visa.h`: operation completed successfully. -/
def VI_SUCCESS : ViStatus := 0

/-- Completion code of `visa.h` (0x3FFF0006): the number of bytes read equals
the requested count. -/
def VI_SUCCESS_MAX_CNT : ViStatus := 1073676294

/-- Error code of `visa.h` (0xBFFF0015 as a signed 32-bit value): timeout. -/
def VI_ERROR_TMO : ViStatus := -1073807339

/-- Error code of `visa.h` (0xBFFF001D): attribute not supported. -/
def VI_ERROR_NSUP_ATTR : ViStatus := -1073807331

/-- Attribute identifier of `visa.h` (0x3FFF001A): the I/O timeout in ms. -/
def VI_ATTR_TMO_VALUE : ViAttr := 1073676314

/-- Size of the status text buffer: `#define STATUS_TXT_LEN 100`. -/
def STATUS_TXT_LEN : Nat := 100

/-! ## C conversions -/

/-- Conversion to an unsigned 32-bit type, as in `(ViSession)scopeHandleLong`,
`(ViUInt32)strlen(cmd)`, `(ViAttr) attr`. -/
def toViUInt32 (x : Int) : Nat := (x % 4294967296).toNat

/-- Conversion to the unsigned 64-bit `ViAttrState`, as in
`(ViAttrState) timeout`. -/
def toViAttrState (x : Int) : Nat := (x % 18446744073709551616).toNat

/-- The value of an `int64_t` whose 64 bits are those of `x`. -/
def toInt64 (x : Int) : Int :=
  (x + 9223372036854775808) % 18446744073709551616 - 9223372036854775808

/-- Conversion `(long) value`; `long` has 64 bits. -/
def toLong (x : Int) : Int := toInt64 x

/-- Conversion to a C `int` (32 bits), as in `*intPtr = (int) l`, in
`value = atol(argv[3])` with `int value`, and where the `size_t sum` is
passed for the `int length` of `Tcl_NewByteArrayObj`. -/
def toInt (x : Int) : Int := (x + 2147483648) % 4294967296 - 2147483648

/-- C `strlen` on the memory at a `char*`: the number of bytes before the
first zero byte.  The list holds the bytes stored at the pointer; the
terminating zero that ends the allocation follows the end of the list. -/
def strlen (s : List Byte) : Nat := (s.takeWhile (fun b => b != 0)).length

/-- The text `snprintf(statusTxt, size, ...)` leaves in `statusTxt`: at most
`size - 1` characters of the formatted text. -/
def snprintf (size : Nat) (text : String) : String := String.mk (text.data.take (size - 1))

/-- Storing `data` into the memory `buf` from offset `off` on: what a read
primitive given the pointer `buf + off` does with the bytes it delivers. -/
def writeAt (buf : List Byte) (off : Nat) (data : List Byte) : List Byte :=
  buf.take off ++ data ++ buf.drop (off + data.length)

/-! ## Tcl results -/

/-- The interpreter result a command leaves behind. -/
inductive TclObj where
  | unset
  | newLongObj (v : Int)
  | newIntObj (v : Int)
  | newStringObj (s : String)
  | newByteArrayObj (bytes : List Byte)
  deriving DecidableEq, Repr

inductive TclCode where
  | TCL_OK
  | TCL_ERROR
  deriving DecidableEq, Repr

/-- Return code of a command function together with the interpreter result. -/
structure Ret where
  code : TclCode
  result : TclObj
  deriving DecidableEq, Repr

/-- The function `Tcl_NewByteArrayObj(bytes, length)` of the Tcl library, whose
`length` is an `int`: the array holds the first `length` bytes stored at
`bytes`, and no byte when `length` is negative. -/
def Tcl_NewByteArrayObj (bytes : List Byte) (length : Int) : TclObj :=
  TclObj.newByteArrayObj (bytes.take length.toNat)

/-- The number of bytes of the array made by
`Tcl_NewByteArrayObj((const unsigned char*)buf, sum)` for a `size_t sum`:
`sum` converted to `int`, and 0 when that is negative. -/
def byteArrayLength (sum : Nat) : Nat := (toInt (Int.ofNat sum)).toNat

/-- The bytes of the array `Tcl_NewByteArrayObj` makes from the stored bytes
`b` when their number is passed as the length. -/
def cutToInt (b : List Byte) : List Byte := b.take (byteArrayLength b.length)

/-- The error exit used after a failed VISA call:
`snprintf(statusTxt, STATUS_TXT_LEN, "<label>%d", status);`
`Tcl_SetObjResult(interp, Tcl_NewStringObj(statusTxt, -1)); return TCL_ERROR;`. -/
def statusError (label : String) (status : ViStatus) : Ret :=
  ⟨TclCode.TCL_ERROR, TclObj.newStringObj (snprintf STATUS_TXT_LEN (label ++ toString status))⟩

/-- The error exit after a failed allocation. -/
def outOfMemory : Ret := ⟨TclCode.TCL_ERROR, TclObj.newStringObj "Out of memory"⟩

/-! ## The environment: VISA primitives and the allocator -/

/-- One call of a command into the environment, with its input arguments. -/
inductive Call where
  | viOpenDefaultRM
  | viOpen (rm : ViSession) (uri : List Byte)
  | viClear (vi : ViSession)
  | viClose (vi : ViSession)
  | viWrite (vi : ViSession) (buf : List Byte) (count : Nat)
  | viRead (vi : ViSession) (count : Nat)
  | viReadSTB (vi : ViSession)
  | viSetAttribute (vi : ViSession) (attr : ViAttr) (value : ViAttrState)
  | viGetAttribute (vi : ViSession) (attr : ViAttr)
  | malloc (size : Nat)
  | realloc (size : Nat)
  deriving DecidableEq, Repr

/-- The primitives the commands call.  Each takes the environment state and
the input arguments and gives its outputs and the next state.
`viWrite` receives the `count` bytes stored at `buf`; `viRead` gives the
bytes it stored at `buf` (their number is `retCount`); `viGetAttribute` gives
the 64 bits found in `value` after the call; `malloc` and `realloc` tell
whether they returned a non-null pointer. -/
structure Env (σ : Type) where
  viOpenDefaultRM : σ → (ViStatus × ViSession) × σ
  viOpen : σ → ViSession → List Byte → (ViStatus × ViSession) × σ
  viClear : σ → ViSession → ViStatus × σ
  viClose : σ → ViSession → ViStatus × σ
  viWrite : σ → ViSession → List Byte → Nat → ViStatus × σ
  viRead : σ → ViSession → Nat → (ViStatus × List Byte) × σ
  viReadSTB : σ → ViSession → (ViStatus × Nat) × σ
  viSetAttribute : σ → ViSession → ViAttr → ViAttrState → ViStatus × σ
  viGetAttribute : σ → ViSession → ViAttr → (ViStatus × Nat) × σ
  malloc : σ → Nat → Bool × σ
  realloc : σ → Nat → Bool × σ

/-- Environment state together with the log of the calls made so far. -/
structure World (σ : Type) where
  st : σ
  log : List Call

variable {σ : Type}

/-- The world after a call: the next environment state, the call logged. -/
def World.after (w : World σ) (c : Call) (s : σ) : World σ := ⟨s, w.log ++ [c]⟩

/-! ## The commands of `src/generic/rsvisa.cpp` -/

/-- Command `GetResourceManager`. -/
def GetResourceManager (E : Env σ) (w : World σ) : Ret × World σ :=
  let r := E.viOpenDefaultRM w.st
  let status := r.1.1
  let rmHandle := r.1.2
  let w1 := w.after Call.viOpenDefaultRM r.2
  if status = VI_SUCCESS then
    (⟨TclCode.TCL_OK, TclObj.newLongObj (Int.ofNat rmHandle)⟩, w1)
  else
    (statusError "VISA Error: " status, w1)

/-- Command `OpenResource`: `viOpen`, then `viClear` on the opened session. -/
def OpenResource (E : Env σ) (w : World σ) (rmHandleLong : Int) (resourceUri : List Byte) :
    Ret × World σ :=
  let rmHandle := toViUInt32 rmHandleLong
  let r := E.viOpen w.st rmHandle resourceUri
  let status := r.1.1
  let scopeHandle := r.1.2
  let w1 := w.after (Call.viOpen rmHandle resourceUri) r.2
  if status ≠ VI_SUCCESS then
    (statusError "VISA Error: " status, w1)
  else
    let c := E.viClear w1.st scopeHandle
    let status := c.1
    let w2 := w1.after (Call.viClear scopeHandle) c.2
    if status = VI_SUCCESS then
      (⟨TclCode.TCL_OK, TclObj.newLongObj (Int.ofNat scopeHandle)⟩, w2)
    else
      (statusError "VISA Error: " status, w2)

/-- Command `CloseResource`; on success the interpreter result is left alone. -/
def CloseResource (E : Env σ) (w : World σ) (scopeHandleLong : Int) : Ret × World σ :=
  let scopeHandle := toViUInt32 scopeHandleLong
  let r := E.viClose w.st scopeHandle
  let status := r.1
  let w1 := w.after (Call.viClose scopeHandle) r.2
  if status = VI_SUCCESS then
    (⟨TclCode.TCL_OK, TclObj.unset⟩, w1)
  else
    (statusError "VISA Error: " status, w1)

/-- The query `char idnQuery[] = "*IDN?\n"` as bytes. -/
def idnQuery : List Byte := [42, 73, 68, 78, 63, 10]

/-- The `while (1)` loop of `Idn`: every read stores at the start of the same
array `response`. -/
def Idn_while (E : Env σ) (scopeHandle : ViSession) (buflen : Nat) :
    Nat → World σ → List Byte → Option (Ret × World σ)
  | 0, _, _ => none
  | fuel + 1, w, response =>
    let r := E.viRead w.st scopeHandle buflen
    let status := r.1.1
    let returnCount := r.1.2.length
    let response1 := writeAt response 0 r.1.2
    let w1 := w.after (Call.viRead scopeHandle buflen) r.2
    if status ≠ VI_SUCCESS then
      some (statusError "VISA read error: " status, w1)
    else if returnCount < buflen then
      let response2 := response1.set returnCount 0
      some (⟨TclCode.TCL_OK, TclObj.newByteArrayObj (response2.take returnCount)⟩, w1)
    else
      Idn_while E scopeHandle buflen fuel w1 response1

/-- Command `Idn`. -/
def Idn (E : Env σ) (fuel : Nat) (w : World σ) (scopeHandleLong : Int) :
    Option (Ret × World σ) :=
  let buflen := 1024
  let response : List Byte := List.replicate buflen 0
  let scopeHandle := toViUInt32 scopeHandleLong
  let count := toViUInt32 (Int.ofNat (strlen idnQuery))
  let r := E.viWrite w.st scopeHandle (idnQuery.take count) count
  let status := r.1
  let w1 := w.after (Call.viWrite scopeHandle (idnQuery.take count) count) r.2
  if status ≠ VI_SUCCESS then
    some (statusError "VISA write error: " status, w1)
  else
    Idn_while E scopeHandle buflen fuel w1 response

/-- Command `Stb`. -/
def Stb (E : Env σ) (w : World σ) (scopeHandleLong : Int) : Ret × World σ :=
  let scopeHandle := toViUInt32 scopeHandleLong
  let r := E.viReadSTB w.st scopeHandle
  let status := r.1.1
  let stb := r.1.2
  let w1 := w.after (Call.viReadSTB scopeHandle) r.2
  if status = VI_SUCCESS then
    (⟨TclCode.TCL_OK, TclObj.newIntObj (Int.ofNat stb)⟩, w1)
  else
    (statusError "VISA Error: " status, w1)

/-- The `while (1)` loop of `_WriteRead` with the code that follows it.
`buf` is the allocated block (`total` bytes), `bp` the offset of the read
pointer in it, `sum` the number of bytes received.  The result is made by
`Tcl_NewByteArrayObj(buf, sum)`, whose length parameter is an `int`.  When
the loop is left with `sum = total`, the store `buf[sum] = 0;` is outside
the block (undefined behaviour in C, see `_WriteRead_while_exit`); the model
then leaves the block as it is and goes on to build the result. -/
def _WriteRead_while (E : Env σ) (scopeHandle : ViSession) (buflen : Nat) :
    Nat → World σ → List Byte → Nat → Nat → Nat → Option (Ret × World σ)
  | 0, _, _, _, _, _ => none
  | fuel + 1, w, buf, bp, total, sum =>
    let r := E.viRead w.st scopeHandle buflen
    let status := r.1.1
    let returnCount := r.1.2.length
    let buf1 := writeAt buf bp r.1.2
    let w1 := w.after (Call.viRead scopeHandle buflen) r.2
    let sum1 := sum + returnCount
    if status ≠ VI_SUCCESS ∧ status ≠ VI_SUCCESS_MAX_CNT then
      some (statusError "VISA read error: " status, w1)
    else
      -- `bp += returnCount;` has no effect: `bp` is next read after `bp = buf + sum;`
      if returnCount < buflen ∨ status = VI_SUCCESS_MAX_CNT then
        let buf2 := buf1.set sum1 0
        some (⟨TclCode.TCL_OK, Tcl_NewByteArrayObj buf2 (toInt (Int.ofNat sum1))⟩, w1)
      else
        let total1 := total + buflen
        let a := E.realloc w1.st total1
        let w2 := w1.after (Call.realloc total1) a.2
        if a.1 = false then
          some (outOfMemory, w2)
        else
          let newbuf := buf1 ++ List.replicate buflen 0
          let bp2 := sum1
          _WriteRead_while E scopeHandle buflen fuel w2 newbuf bp2 total1 sum1

/-- Function `_WriteRead(buflen, ...)`: allocate, write the command, read the
answer in pieces of `buflen` bytes. -/
def _WriteRead (E : Env σ) (buflen : Nat) (fuel : Nat) (w : World σ) (scopeHandleLong : Int)
    (cmd : List Byte) : Option (Ret × World σ) :=
  let total := buflen
  let a := E.malloc w.st buflen
  let w0 := w.after (Call.malloc buflen) a.2
  if a.1 = false then
    some (outOfMemory, w0)
  else
    let buf : List Byte := List.replicate buflen 0
    let bp := 0
    let scopeHandle := toViUInt32 scopeHandleLong
    let count := toViUInt32 (Int.ofNat (strlen cmd))
    let r := E.viWrite w0.st scopeHandle (cmd.take count) count
    let status := r.1
    let w1 := w0.after (Call.viWrite scopeHandle (cmd.take count) count) r.2
    if status ≠ VI_SUCCESS then
      some (statusError "VISA write error: " status, w1)
    else
      _WriteRead_while E scopeHandle buflen fuel w1 buf bp total 0

/-- Command `WriteRead`. -/
def WriteRead (E : Env σ) (fuel : Nat) (w : World σ) (scopeHandleLong : Int)
    (cmd : List Byte) : Option (Ret × World σ) :=
  _WriteRead E 1024 fuel w scopeHandleLong cmd

/-- Command `WriteReadBin`. -/
def WriteReadBin (E : Env σ) (fuel : Nat) (w : World σ) (scopeHandleLong : Int)
    (cmd : List Byte) : Option (Ret × World σ) :=
  _WriteRead E 1000000 fuel w scopeHandleLong cmd

/-- Command `Write`. -/
def Write (E : Env σ) (w : World σ) (scopeHandleLong : Int) (cmd : List Byte) :
    Ret × World σ :=
  let scopeHandle := toViUInt32 scopeHandleLong
  let count := toViUInt32 (Int.ofNat (strlen cmd))
  let r := E.viWrite w.st scopeHandle (cmd.take count) count
  let status := r.1
  let w1 := w.after (Call.viWrite scopeHandle (cmd.take count) count) r.2
  if status = VI_SUCCESS then
    (⟨TclCode.TCL_OK, TclObj.unset⟩, w1)
  else
    (statusError "VISA Error: " status, w1)

/-- The `while (1)` loop of `Read` with the code that follows it; the
remarks at `_WriteRead_while` on the `int` length of the result and on the
store `buf[sum] = 0;` apply. -/
def Read_while (E : Env σ) (scopeHandle : ViSession) (buflen : Nat) :
    Nat → World σ → List Byte → Nat → Nat → Nat → Option (Ret × World σ)
  | 0, _, _, _, _, _ => none
  | fuel + 1, w, buf, bp, total, sum =>
    let r := E.viRead w.st scopeHandle buflen
    let status := r.1.1
    let returnCount := r.1.2.length
    let buf1 := writeAt buf bp r.1.2
    let w1 := w.after (Call.viRead scopeHandle buflen) r.2
    let sum1 := sum + returnCount
    if status ≠ VI_SUCCESS ∧ status ≠ VI_SUCCESS_MAX_CNT then
      some (statusError "VISA read error: " status, w1)
    else
      -- `bp += returnCount;` has no effect: `bp` is next read after `bp = buf + sum;`
      if returnCount < buflen ∨ status = VI_SUCCESS_MAX_CNT then
        let buf2 := buf1.set sum1 0
        some (⟨TclCode.TCL_OK, Tcl_NewByteArrayObj buf2 (toInt (Int.ofNat sum1))⟩, w1)
      else
        let total1 := total + buflen
        let a := E.realloc w1.st total1
        let w2 := w1.after (Call.realloc total1) a.2
        if a.1 = false then
          some (outOfMemory, w2)
        else
          let newbuf := buf1 ++ List.replicate buflen 0
          let bp2 := sum1
          Read_while E scopeHandle buflen fuel w2 newbuf bp2 total1 sum1

/-- Command `Read`. -/
def Read (E : Env σ) (fuel : Nat) (w : World σ) (scopeHandleLong : Int) :
    Option (Ret × World σ) :=
  let buflen := 1024
  let total := buflen
  let a := E.malloc w.st buflen
  let w0 := w.after (Call.malloc buflen) a.2
  if a.1 = false then
    some (outOfMemory, w0)
  else
    let buf : List Byte := List.replicate buflen 0
    let bp := 0
    let scopeHandle := toViUInt32 scopeHandleLong
    Read_while E scopeHandle buflen fuel w0 buf bp total 0

/-- Command `SetAttribute`; `attr` and `value` are the C `int` variables. -/
def SetAttribute (E : Env σ) (w : World σ) (scopeHandleLong : Int) (attr value : Int) :
    Ret × World σ :=
  let scopeHandle := toViUInt32 scopeHandleLong
  let r := E.viSetAttribute w.st scopeHandle (toViUInt32 attr) (toViAttrState value)
  let status := r.1
  let w1 := w.after (Call.viSetAttribute scopeHandle (toViUInt32 attr) (toViAttrState value)) r.2
  if status ≠ VI_SUCCESS then
    (statusError "VISA set attribute error: " status, w1)
  else
    (⟨TclCode.TCL_OK, TclObj.unset⟩, w1)

/-- Command `GetAttribute`; the primitive stores into `int64_t value`. -/
def GetAttribute (E : Env σ) (w : World σ) (scopeHandleLong : Int) (attr : Int) :
    Ret × World σ :=
  let scopeHandle := toViUInt32 scopeHandleLong
  let r := E.viGetAttribute w.st scopeHandle (toViUInt32 attr)
  let status := r.1.1
  let value := toInt64 (Int.ofNat r.1.2)
  let w1 := w.after (Call.viGetAttribute scopeHandle (toViUInt32 attr)) r.2
  if status ≠ VI_SUCCESS then
    (statusError "VISA get attribute error: " status, w1)
  else
    (⟨TclCode.TCL_OK, TclObj.newLongObj (toLong value)⟩, w1)

/-- Command `SetTimeout`; `timeout` is the C `int` variable. -/
def SetTimeout (E : Env σ) (w : World σ) (scopeHandleLong : Int) (timeout : Int) :
    Ret × World σ :=
  let scopeHandle := toViUInt32 scopeHandleLong
  let r := E.viSetAttribute w.st scopeHandle VI_ATTR_TMO_VALUE (toViAttrState timeout)
  let status := r.1
  let w1 := w.after (Call.viSetAttribute scopeHandle VI_ATTR_TMO_VALUE (toViAttrState timeout)) r.2
  if status ≠ VI_SUCCESS then
    (statusError "VISA set timeout error: " status, w1)
  else
    (⟨TclCode.TCL_OK, TclObj.unset⟩, w1)

/-- Command `GetTimeout`; the primitive stores into `int64_t timeout`. -/
def GetTimeout (E : Env σ) (w : World σ) (scopeHandleLong : Int) : Ret × World σ :=
  let scopeHandle := toViUInt32 scopeHandleLong
  let r := E.viGetAttribute w.st scopeHandle VI_ATTR_TMO_VALUE
  let status := r.1.1
  let timeout := toInt64 (Int.ofNat r.1.2)
  let w1 := w.after (Call.viGetAttribute scopeHandle VI_ATTR_TMO_VALUE) r.2
  if status ≠ VI_SUCCESS then
    (statusError "VISA get timeout error: " status, w1)
  else
    (⟨TclCode.TCL_OK, TclObj.newLongObj (toLong timeout)⟩, w1)

/-! ## A scripted environment

The mock transport of the test scenarios: `viRead` delivers the scripted
results in order (and times out once the script is used up), the allocator
follows a script of outcomes (and succeeds once it is used up), attributes
are stored and retrieved, every other primitive gives a fixed result. -/

structure Mock where
  rm : ViStatus × ViSession
  opened : ViStatus × ViSession
  clear : ViStatus
  close : ViStatus
  write : ViStatus
  reads : List (ViStatus × List Byte)
  stb : ViStatus × Nat
  allocs : List Bool
  attrs : List ((ViSession × ViAttr) × ViAttrState)
  deriving DecidableEq, Repr

/-- Next outcome of the scripted allocator. -/
def Mock.alloc (m : Mock) : Bool × Mock :=
  match m.allocs with
  | [] => (true, m)
  | b :: rest => (b, { m with allocs := rest })

/-- Next result of the scripted `viRead`. -/
def Mock.read (m : Mock) : (ViStatus × List Byte) × Mock :=
  match m.reads with
  | [] => ((VI_ERROR_TMO, []), m)
  | r :: rest => (r, { m with reads := rest })

/-- Retrieval of a stored attribute value. -/
def Mock.getAttr (m : Mock) (vi : ViSession) (attr : ViAttr) : (ViStatus × Nat) × Mock :=
  match m.attrs.lookup (vi, attr) with
  | some v => ((VI_SUCCESS, v), m)
  | none => ((VI_ERROR_NSUP_ATTR, 0), m)

def mockEnv : Env Mock where
  viOpenDefaultRM m := (m.rm, m)
  viOpen m _ _ := (m.opened, m)
  viClear m _ := (m.clear, m)
  viClose m _ := (m.close, m)
  viWrite m _ _ _ := (m.write, m)
  viRead m _ _ := m.read
  viReadSTB m _ := (m.stb, m)
  viSetAttribute m vi attr v := (VI_SUCCESS, { m with attrs := ((vi, attr), v) :: m.attrs })
  viGetAttribute m vi attr := m.getAttr vi attr
  malloc m _ := m.alloc
  realloc m _ := m.alloc

/-- A mock whose reads and allocations follow the given scripts, whose write
gives `wr`, and whose other primitives succeed. -/
def scripted (wr : ViStatus) (reads : List (ViStatus × List Byte)) (allocs : List Bool) : Mock :=
  { rm := (VI_SUCCESS, 1), opened := (VI_SUCCESS, 2), clear := VI_SUCCESS, close := VI_SUCCESS,
    write := wr, reads := reads, stb := (VI_SUCCESS, 0), allocs := allocs, attrs := [] }

/-- The return value of a command run, without the final world. -/
def retOf (r : Option (Ret × World σ)) : Option Ret := r.map Prod.fst

/-- The calls a command run made. -/
def logOf (r : Option (Ret × World σ)) : Option (List Call) := r.map (fun x => x.2.log)

/-- Successful return of a byte array. -/
def okBytes (b : List Byte) : Ret := ⟨TclCode.TCL_OK, TclObj.newByteArrayObj b⟩

/-- The calls of `k` rounds of the read loop that go on to a further round,
starting with a buffer of `total` bytes: a read, then the growth of the
buffer by `buflen`. -/
def roundsLog (vi : ViSession) (buflen : Nat) : Nat → Nat → List Call
  | 0, _ => []
  | k + 1, total =>
    Call.viRead vi buflen :: Call.realloc (total + buflen) :: roundsLog vi buflen k (total + buflen)

/-- Whether a call is a `viRead`. -/
def Call.isRead : Call → Bool
  | Call.viRead _ _ => true
  | _ => false

/-- Whether a call is a `realloc`. -/
def Call.isRealloc : Call → Bool
  | Call.realloc _ => true
  | _ => false

/-- Number of `viRead` calls in a log. -/
def readsIn (l : List Call) : Nat := l.countP Call.isRead

/-- Number of `realloc` calls in a log. -/
def reallocsIn (l : List Call) : Nat := l.countP Call.isRealloc

/-- The script of `viRead` results that delivers the given chunks with
status `VI_SUCCESS`. -/
def successReads (chunks : List (List Byte)) : List (ViStatus × List Byte) :=
  chunks.map (fun c => (VI_SUCCESS, c))

/-! ## The integer arguments of the attribute commands -/

/-- The function `Tcl_GetIntFromObj` of the Tcl 8.6 library (not part of the
repository) on an argument that holds the integer `v`, with a 64-bit `long`:
a value beyond the range of `unsigned int`, in either direction, is refused
with an error message; any other value is stored converted to `int`. -/
def Tcl_GetIntFromObj (v : Int) : Except String Int :=
  if v > 4294967295 ∨ v < -4294967295 then
    Except.error "integer value too large to represent"
  else
    Except.ok (toInt v)

/-- The function `atol` of the C library on a string that spells the integer
`v`: the value as a `long`, `LONG_MAX` or `LONG_MIN` when `v` is beyond the
range of `long`. -/
def atol (v : Int) : Int :=
  if v > 9223372036854775807 then 9223372036854775807
  else if v < -9223372036854775808 then -9223372036854775808
  else v

/-- The conversion of `src/tclrsvisa.cpp`, `value = atol(argv[3])` with
`int value`, on an argument that spells the integer `v`. -/
def atolInt (v : Int) : Except String Int := Except.ok (toInt (atol v))

/-- Command `SetAttribute` from its integer arguments: `attrObj` and
`valueObj` are converted to the `int` variables `attr` and `value` by
`getInt`; a refused conversion ends the command with `TCL_ERROR` before any
VISA call. -/
def SetAttribute_objv (getInt : Int → Except String Int) (E : Env σ) (w : World σ)
    (scopeHandleLong : Int) (attrObj valueObj : Int) : Ret × World σ :=
  match getInt attrObj with
  | Except.error msg => (⟨TclCode.TCL_ERROR, TclObj.newStringObj msg⟩, w)
  | Except.ok attr =>
    match getInt valueObj with
    | Except.error msg => (⟨TclCode.TCL_ERROR, TclObj.newStringObj msg⟩, w)
    | Except.ok value => SetAttribute E w scopeHandleLong attr value

/-- Command `GetAttribute` from its integer argument `attrObj`. -/
def GetAttribute_objv (getInt : Int → Except String Int) (E : Env σ) (w : World σ)
    (scopeHandleLong : Int) (attrObj : Int) : Ret × World σ :=
  match getInt attrObj with
  | Except.error msg => (⟨TclCode.TCL_ERROR, TclObj.newStringObj msg⟩, w)
  | Except.ok attr => GetAttribute E w scopeHandleLong attr

/-! ## The command argument of the writing commands

`cmd = Tcl_GetString(objv[2])` in `src/generic/rsvisa.cpp`, and
`cmd = argv[2]` in `src/tclrsvisa.cpp`, is the string representation of the
command argument, a zero-terminated string in the internal UTF-8 of Tcl. -/

/-- The bytes that stand, in the string representation of a Tcl value, for
the character whose code is the byte `b`: the byte itself for 1..127, the two
bytes of its UTF-8 encoding for 128..255, and the two bytes C0 80 for 0. -/
def utf8OfByte (b : Byte) : List Byte :=
  if b = 0 then [192, 128]
  else if b < 128 then [b]
  else [192 + b / 64, 128 + b % 64]

/-- The memory at the pointer `Tcl_GetString(objPtr)` returns (a function of
the Tcl library, not part of the repository) for an argument that holds the
byte sequence `bytes`, one character U+0000..U+00FF per byte. -/
def Tcl_GetString (bytes : List Byte) : List Byte := bytes.flatMap utf8OfByte

/-- Command `Write` from its command argument. -/
def Write_objv (E : Env σ) (w : World σ) (scopeHandleLong : Int) (command : List Byte) :
    Ret × World σ :=
  Write E w scopeHandleLong (Tcl_GetString command)

/-- Function `_WriteRead(buflen, ...)` from its command argument. -/
def _WriteRead_objv (E : Env σ) (buflen : Nat) (fuel : Nat) (w : World σ)
    (scopeHandleLong : Int) (command : List Byte) : Option (Ret × World σ) :=
  _WriteRead E buflen fuel w scopeHandleLong (Tcl_GetString command)

/-! ## The read loop of `src/tclrsvisa.cpp`

The loop of `_WriteRead` in `src/tclrsvisa.cpp` differs from the one in
`src/generic/rsvisa.cpp`: after `buf = newbuf;` there is no `bp = buf + sum;`,
so `bp` goes on from `bp += returnCount;` and points into the old block.
When `realloc` has returned another address, the old block is released and
the next `viRead` stores through a dangling pointer. -/

/-- How a run of the loop of `src/tclrsvisa.cpp` ends: the function returns,
or the run reaches an access outside the allocated block, from where the C
program has no defined behaviour. -/
inductive Outcome (σ : Type) where
  | returned (ret : Ret) (w : World σ)
  | undefinedBehaviour (w : World σ)

/-- The return value of a run that returned. -/
def Outcome.ret : Outcome σ → Option Ret
  | Outcome.returned r _ => some r
  | Outcome.undefinedBehaviour _ => none

/-- The calls made up to the end of the run. -/
def Outcome.log : Outcome σ → List Call
  | Outcome.returned _ w => w.log
  | Outcome.undefinedBehaviour w => w.log

/-- The error exit of `src/tclrsvisa.cpp` after a failed VISA call:
`snprintf(statusTxt, STATUS_TXT_LEN, "%d", status);`
`Tcl_AppendResult(interp, "<label>", &statusTxt, NULL); return TCL_ERROR;`. -/
def Tclrsvisa.statusError (label : String) (status : ViStatus) : Ret :=
  ⟨TclCode.TCL_ERROR, TclObj.newStringObj (label ++ snprintf STATUS_TXT_LEN (toString status))⟩

/-- The `while (1)` loop of `_WriteRead` in `src/tclrsvisa.cpp` with the code
that follows it.  `buf` is the allocated block (`total` bytes), `sum` the
number of bytes received; `bp` is `some off` while the pointer `bp` points to
offset `off` of the block, and `none` once `realloc` has moved the block and
left `bp` behind.  `moved n` tells whether the `realloc` to `n` bytes returns
another address than it was given. -/
def Tclrsvisa._WriteRead_while (E : Env σ) (moved : Nat → Bool) (scopeHandle : ViSession)
    (buflen : Nat) :
    Nat → World σ → List Byte → Option Nat → Nat → Nat → Option (Outcome σ)
  | 0, _, _, _, _, _ => none
  | _ + 1, w, _, none, _, _ =>
    -- `viRead(scopeHandle, (ViBuf)bp, ...)` stores through the dangling `bp`
    some (Outcome.undefinedBehaviour w)
  | fuel + 1, w, buf, some off, total, sum =>
    let r := E.viRead w.st scopeHandle buflen
    let status := r.1.1
    let returnCount := r.1.2.length
    let buf1 := writeAt buf off r.1.2
    let w1 := w.after (Call.viRead scopeHandle buflen) r.2
    let sum1 := sum + returnCount
    if status ≠ VI_SUCCESS ∧ status ≠ VI_SUCCESS_MAX_CNT then
      some (Outcome.returned (Tclrsvisa.statusError "VISA read error: " status) w1)
    else
      let off1 := off + returnCount
      if returnCount < buflen ∨ status = VI_SUCCESS_MAX_CNT then
        if sum1 < total then
          let buf2 := buf1.set sum1 0
          some (Outcome.returned
            ⟨TclCode.TCL_OK, Tcl_NewByteArrayObj buf2 (toInt (Int.ofNat sum1))⟩ w1)
        else
          -- `buf[sum] = 0;` stores outside the block
          some (Outcome.undefinedBehaviour w1)
      else
        let total1 := total + buflen
        let a := E.realloc w1.st total1
        let w2 := w1.after (Call.realloc total1) a.2
        if a.1 = false then
          some (Outcome.returned ⟨TclCode.TCL_ERROR, TclObj.newStringObj "Out of memory"⟩ w2)
        else
          let newbuf := buf1 ++ List.replicate buflen 0
          let bp2 := if moved total1 then none else some off1
          Tclrsvisa._WriteRead_while E moved scopeHandle buflen fuel w2 newbuf bp2 total1 sum1

/-- The `while (1)` loop of `Read` in `src/tclrsvisa.cpp` with the code that
follows it: the same statements as in `_WriteRead` of that file. -/
def Tclrsvisa.Read_while (E : Env σ) (moved : Nat → Bool) (scopeHandle : ViSession)
    (buflen : Nat) :
    Nat → World σ → List Byte → Option Nat → Nat → Nat → Option (Outcome σ)
  | 0, _, _, _, _, _ => none
  | _ + 1, w, _, none, _, _ =>
    -- `viRead(scopeHandle, (ViBuf)bp, ...)` stores through the dangling `bp`
    some (Outcome.undefinedBehaviour w)
  | fuel + 1, w, buf, some off, total, sum =>
    let r := E.viRead w.st scopeHandle buflen
    let status := r.1.1
    let returnCount := r.1.2.length
    let buf1 := writeAt buf off r.1.2
    let w1 := w.after (Call.viRead scopeHandle buflen) r.2
    let sum1 := sum + returnCount
    if status ≠ VI_SUCCESS ∧ status ≠ VI_SUCCESS_MAX_CNT then
      some (Outcome.returned (Tclrsvisa.statusError "VISA read error: " status) w1)
    else
      let off1 := off + returnCount
      if returnCount < buflen ∨ status = VI_SUCCESS_MAX_CNT then
        if sum1 < total then
          let buf2 := buf1.set sum1 0
          some (Outcome.returned
            ⟨TclCode.TCL_OK, Tcl_NewByteArrayObj buf2 (toInt (Int.ofNat sum1))⟩ w1)
        else
          -- `buf[sum] = 0;` stores outside the block
          some (Outcome.undefinedBehaviour w1)
      else
        let total1 := total + buflen
        let a := E.realloc w1.st total1
        let w2 := w1.after (Call.realloc total1) a.2
        if a.1 = false then
          some (Outcome.returned ⟨TclCode.TCL_ERROR, TclObj.newStringObj "Out of memory"⟩ w2)
        else
          let newbuf := buf1 ++ List.replicate buflen 0
          let bp2 := if moved total1 then none else some off1
          Tclrsvisa.Read_while E moved scopeHandle buflen fuel w2 newbuf bp2 total1 sum1

/-! ## The block and the read pointer at each read

The loop of `_WriteRead` and of `Read` once more, observed at each
`viRead(scopeHandle, (ViBuf)bp, buflen, &returnCount)`: the offset of `bp` in
the block and the size `total` of the block at that call. -/

/-- The pairs (offset of `bp`, `total`) at the reads of a run of the loop, in
order; `none` when the fuel runs out. -/
def _WriteRead_while_reads (E : Env σ) (scopeHandle : ViSession) (buflen : Nat) :
    Nat → World σ → Nat → Nat → Nat → Option (List (Nat × Nat))
  | 0, _, _, _, _ => none
  | fuel + 1, w, bp, total, sum =>
    let r := E.viRead w.st scopeHandle buflen
    let status := r.1.1
    let returnCount := r.1.2.length
    let w1 := w.after (Call.viRead scopeHandle buflen) r.2
    let sum1 := sum + returnCount
    if status ≠ VI_SUCCESS ∧ status ≠ VI_SUCCESS_MAX_CNT then
      some [(bp, total)]
    else
      if returnCount < buflen ∨ status = VI_SUCCESS_MAX_CNT then
        some [(bp, total)]
      else
        let total1 := total + buflen
        let a := E.realloc w1.st total1
        let w2 := w1.after (Call.realloc total1) a.2
        if a.1 = false then
          some [(bp, total)]
        else
          let bp2 := sum1
          (_WriteRead_while_reads E scopeHandle buflen fuel w2 bp2 total1 sum1).map
            (fun l => (bp, total) :: l)

/-! ## The index of the terminating zero

The statement `buf[sum] = 0;` after the read loop stores one byte at index
`sum` of a block of `total` bytes; `response[returnCount] = 0;` in `Idn`
stores at index `returnCount` of an array of `buflen` bytes. The functions
below run the same loops and give that index together with the size of the
block, when the loop is left by `break`. -/

/-- The loop of `_WriteRead` and of `Read`, observed at `buf[sum] = 0;`: the
index `sum` and the size `total` of the block; `none` when the command
returns from inside the loop or the fuel runs out. -/
def _WriteRead_while_exit (E : Env σ) (scopeHandle : ViSession) (buflen : Nat) :
    Nat → World σ → Nat → Nat → Option (Nat × Nat)
  | 0, _, _, _ => none
  | fuel + 1, w, total, sum =>
    let r := E.viRead w.st scopeHandle buflen
    let status := r.1.1
    let returnCount := r.1.2.length
    let w1 := w.after (Call.viRead scopeHandle buflen) r.2
    let sum1 := sum + returnCount
    if status ≠ VI_SUCCESS ∧ status ≠ VI_SUCCESS_MAX_CNT then
      none
    else
      if returnCount < buflen ∨ status = VI_SUCCESS_MAX_CNT then
        some (sum1, total)
      else
        let total1 := total + buflen
        let a := E.realloc w1.st total1
        let w2 := w1.after (Call.realloc total1) a.2
        if a.1 = false then
          none
        else
          _WriteRead_while_exit E scopeHandle buflen fuel w2 total1 sum1

/-- The loop of `Idn`, observed at `response[returnCount] = 0;`: the index
`returnCount` and the size `buflen` of the array. -/
def Idn_while_exit (E : Env σ) (scopeHandle : ViSession) (buflen : Nat) :
    Nat → World σ → Option (Nat × Nat)
  | 0, _ => none
  | fuel + 1, w =>
    let r := E.viRead w.st scopeHandle buflen
    let status := r.1.1
    let returnCount := r.1.2.length
    let w1 := w.after (Call.viRead scopeHandle buflen) r.2
    if status ≠ VI_SUCCESS then
      none
    else if returnCount < buflen then
      some (returnCount, buflen)
    else
      Idn_while_exit E scopeHandle buflen fuel w1

end Rsvisa

namespace Rsvisa

/-! ## Lemmas on buffers -/

theorem writeAt_length (buf data : List Byte) (off : Nat) (h : off + data.length ≤ buf.length) :
    (writeAt buf off data).length = buf.length := by
  simp [writeAt]
  omega

theorem writeAt_take (buf data : List Byte) (off : Nat) (h : off ≤ buf.length) :
    (writeAt buf off data).take (off + data.length) = buf.take off ++ data := by
  have h1 : (buf.take off ++ data).length = off + data.length := by
    simp [Nat.min_eq_left h]
  unfold writeAt
  rw [← h1, List.take_left]

theorem take_set_self (l : List Byte) (n : Nat) (a : Byte) : (l.set n a).take n = l.take n := by
  induction l generalizing n with
  | nil => simp
  | cons x xs ih =>
    cases n with
    | zero => simp
    | succ k => simp [ih]

/-- The bytes returned when the loop is left: the first `off + data.length`
bytes of the buffer, the terminating zero stored behind them. -/
theorem result_bytes (buf data : List Byte) (off : Nat) (h : off ≤ buf.length) :
    ((writeAt buf off data).set (off + data.length) 0).take (off + data.length)
      = buf.take off ++ data := by
  rw [take_set_self, writeAt_take buf data off h]

theorem byteArrayLength_le (n : Nat) : byteArrayLength n ≤ n := by
  unfold byteArrayLength toInt
  show (((n : Int) + 2147483648) % 4294967296 - 2147483648).toNat ≤ n
  omega

theorem byteArrayLength_of_lt (n : Nat) (h : n < 2147483648) : byteArrayLength n = n := by
  unfold byteArrayLength toInt
  show (((n : Int) + 2147483648) % 4294967296 - 2147483648).toNat = n
  omega

theorem cutToInt_of_lt (b : List Byte) (h : b.length < 2147483648) : cutToInt b = b := by
  unfold cutToInt
  rw [byteArrayLength_of_lt _ h, List.take_length]

theorem take_set_of_le (l : List Byte) (m n : Nat) (a : Byte) (h : m ≤ n) :
    (l.set n a).take m = l.take m := by
  induction l generalizing m n with
  | nil => simp
  | cons x xs ih =>
    cases n with
    | zero =>
      have : m = 0 := by omega
      subst this
      simp
    | succ k =>
      cases m with
      | zero => simp
      | succ j => simp [ih j k (by omega)]

/-- The bytes of the result when the loop is left: the stored bytes, cut to
the `int` length. -/
theorem result_bytes_cut (buf data : List Byte) (off : Nat) (h : off ≤ buf.length) :
    ((writeAt buf off data).set (off + data.length) 0).take
        (byteArrayLength (off + data.length))
      = cutToInt (buf.take off ++ data) := by
  have hle := byteArrayLength_le (off + data.length)
  have hlen : (buf.take off ++ data).length = off + data.length := by
    simp [Nat.min_eq_left h]
  rw [take_set_of_le _ _ _ _ hle]
  unfold cutToInt
  rw [hlen, ← writeAt_take buf data off h, List.take_take, Nat.min_eq_left hle]

theorem flatten_length_of_full (n : Nat) :
    ∀ fulls : List (List Byte), (∀ c ∈ fulls, c.length = n) →
      fulls.flatten.length = fulls.length * n := by
  intro fulls
  induction fulls with
  | nil => intro _; simp
  | cons c cs ih =>
    intro hfull
    have hc : c.length = n := hfull c (by simp)
    have hcs := ih (fun d hd => hfull d (by simp [hd]))
    rw [List.flatten_cons, List.length_append, hc, hcs, List.length_cons]
    ring


/-- The two copies of the read loop, in `Read` and in `_WriteRead`, compute
the same function. -/
theorem Read_while_eq (E : Env σ) (vi : ViSession) (buflen : Nat) :
    ∀ (fuel : Nat) (w : World σ) (buf : List Byte) (bp total sum : Nat),
      Read_while E vi buflen fuel w buf bp total sum
        = _WriteRead_while E vi buflen fuel w buf bp total sum := by
  intro fuel
  induction fuel with
  | zero => intros; rfl
  | succ n ih =>
    intro w buf bp total sum
    simp only [Read_while, _WriteRead_while, ih]

theorem okBytes_inj {a b : List Byte} (h : okBytes a = okBytes b) : a = b := by
  unfold okBytes at h
  injection h with _ h2
  injection h2

/-! ## One round of the read loop -/

/-- A round whose read reports a status other than `VI_SUCCESS` and
`VI_SUCCESS_MAX_CNT` ends the command with the read error. -/
theorem while_fail (E : Env σ) (vi : ViSession) (buflen fuel : Nat) (w : World σ)
    (buf : List Byte) (bp total sum : Nat)
    (h1 : (E.viRead w.st vi buflen).1.1 ≠ VI_SUCCESS)
    (h2 : (E.viRead w.st vi buflen).1.1 ≠ VI_SUCCESS_MAX_CNT) :
    _WriteRead_while E vi buflen (fuel + 1) w buf bp total sum
      = some (statusError "VISA read error: " (E.viRead w.st vi buflen).1.1,
              w.after (Call.viRead vi buflen) (E.viRead w.st vi buflen).2) := by
  simp [_WriteRead_while, h1, h2]

/-- A round whose read is short, or reports `VI_SUCCESS_MAX_CNT`, leaves the
loop and returns the first bytes of the buffer, as many as `sum` gives when
converted to `int`. -/
theorem while_break (E : Env σ) (vi : ViSession) (buflen fuel : Nat) (w : World σ)
    (buf : List Byte) (bp total sum : Nat)
    (hst : (E.viRead w.st vi buflen).1.1 = VI_SUCCESS
      ∨ (E.viRead w.st vi buflen).1.1 = VI_SUCCESS_MAX_CNT)
    (hbr : (E.viRead w.st vi buflen).1.2.length < buflen
      ∨ (E.viRead w.st vi buflen).1.1 = VI_SUCCESS_MAX_CNT) :
    _WriteRead_while E vi buflen (fuel + 1) w buf bp total sum
      = some (okBytes (((writeAt buf bp (E.viRead w.st vi buflen).1.2).set
                (sum + (E.viRead w.st vi buflen).1.2.length) 0).take
                  (byteArrayLength (sum + (E.viRead w.st vi buflen).1.2.length))),
              w.after (Call.viRead vi buflen) (E.viRead w.st vi buflen).2) := by
  have hnf : ¬ ((E.viRead w.st vi buflen).1.1 ≠ VI_SUCCESS
      ∧ (E.viRead w.st vi buflen).1.1 ≠ VI_SUCCESS_MAX_CNT) := by
    rcases hst with h | h <;> simp [h]
  simp only [_WriteRead_while, if_neg hnf, if_pos hbr, okBytes, Tcl_NewByteArrayObj,
    byteArrayLength]

/-- A round whose read fills the chunk with status `VI_SUCCESS` grows the
buffer and, when that succeeds, goes on to the next round. -/
theorem while_continue (E : Env σ) (vi : ViSession) (buflen fuel : Nat) (w : World σ)
    (buf : List Byte) (bp total sum : Nat)
    (hst : (E.viRead w.st vi buflen).1.1 = VI_SUCCESS)
    (hlen : ¬ (E.viRead w.st vi buflen).1.2.length < buflen)
    (hal : (E.realloc (E.viRead w.st vi buflen).2 (total + buflen)).1 = true) :
    _WriteRead_while E vi buflen (fuel + 1) w buf bp total sum
      = _WriteRead_while E vi buflen fuel
          ((w.after (Call.viRead vi buflen) (E.viRead w.st vi buflen).2).after
            (Call.realloc (total + buflen))
            (E.realloc (E.viRead w.st vi buflen).2 (total + buflen)).2)
          (writeAt buf bp (E.viRead w.st vi buflen).1.2 ++ List.replicate buflen 0)
          (sum + (E.viRead w.st vi buflen).1.2.length) (total + buflen)
          (sum + (E.viRead w.st vi buflen).1.2.length) := by
  have hne : VI_SUCCESS ≠ VI_SUCCESS_MAX_CNT := by decide
  have hnf : ¬ ((E.viRead w.st vi buflen).1.1 ≠ VI_SUCCESS
      ∧ (E.viRead w.st vi buflen).1.1 ≠ VI_SUCCESS_MAX_CNT) := by simp [hst]
  have hnb : ¬ ((E.viRead w.st vi buflen).1.2.length < buflen
      ∨ (E.viRead w.st vi buflen).1.1 = VI_SUCCESS_MAX_CNT) := by
    rw [hst]; simp [hlen, hne]
  have hw : (w.after (Call.viRead vi buflen) (E.viRead w.st vi buflen).2).st
      = (E.viRead w.st vi buflen).2 := rfl
  simp only [_WriteRead_while, if_neg hnf, if_neg hnb, hw, hal]
  simp

/-- A round whose read fills the chunk with status `VI_SUCCESS` and whose
`realloc` fails ends the command with "Out of memory". -/
theorem while_nomem (E : Env σ) (vi : ViSession) (buflen fuel : Nat) (w : World σ)
    (buf : List Byte) (bp total sum : Nat)
    (hst : (E.viRead w.st vi buflen).1.1 = VI_SUCCESS)
    (hlen : ¬ (E.viRead w.st vi buflen).1.2.length < buflen)
    (hal : (E.realloc (E.viRead w.st vi buflen).2 (total + buflen)).1 = false) :
    _WriteRead_while E vi buflen (fuel + 1) w buf bp total sum
      = some (outOfMemory,
          (w.after (Call.viRead vi buflen) (E.viRead w.st vi buflen).2).after
            (Call.realloc (total + buflen))
            (E.realloc (E.viRead w.st vi buflen).2 (total + buflen)).2) := by
  have hne : VI_SUCCESS ≠ VI_SUCCESS_MAX_CNT := by decide
  have hnf : ¬ ((E.viRead w.st vi buflen).1.1 ≠ VI_SUCCESS
      ∧ (E.viRead w.st vi buflen).1.1 ≠ VI_SUCCESS_MAX_CNT) := by simp [hst]
  have hnb : ¬ ((E.viRead w.st vi buflen).1.2.length < buflen
      ∨ (E.viRead w.st vi buflen).1.1 = VI_SUCCESS_MAX_CNT) := by
    rw [hst]; simp [hlen, hne]
  have hw : (w.after (Call.viRead vi buflen) (E.viRead w.st vi buflen).2).st
      = (E.viRead w.st vi buflen).2 := rfl
  simp only [_WriteRead_while, if_neg hnf, if_neg hnb, hw, hal, if_true]

/-! ## The read loop against the scripted environment -/

theorem Mock.read_cons (m : Mock) (r : ViStatus × List Byte) (rest : List (ViStatus × List Byte))
    (h : m.reads = r :: rest) : m.read = (r, { m with reads := rest }) := by
  simp [Mock.read, h]

theorem Mock.alloc_ok (m : Mock) (k : Nat) (h : ∀ b ∈ m.allocs.take (k + 1), b = true) :
    m.alloc = (true, { m with allocs := m.allocs.drop 1 }) := by
  cases m with
  | mk rm opened clear close write reads stb allocs attrs =>
    cases allocs with
    | nil => simp [Mock.alloc]
    | cons b rest =>
      have hb : b = true := h b (by simp)
      simp [Mock.alloc, hb]

/-- After `fulls.length` rounds in which the scripted reads fill the chunk
with status `VI_SUCCESS` and the buffer can be grown, the loop stands before
the next scripted read with all chunks stored in order. -/
theorem mock_full_rounds (vi : ViSession) (buflen : Nat) (tail : List (ViStatus × List Byte))
    (fuel : Nat) :
    ∀ (fulls : List (List Byte)) (w : World Mock) (buf : List Byte) (total sum : Nat),
      (∀ c ∈ fulls, c.length = buflen) →
      w.st.reads = successReads fulls ++ tail →
      (∀ b ∈ w.st.allocs.take fulls.length, b = true) →
      buf.length = total → total = sum + buflen →
      ∃ buf1 : List Byte,
        buf1.length = total + fulls.length * buflen ∧
        buf1.take (sum + fulls.length * buflen) = buf.take sum ++ fulls.flatten ∧
        _WriteRead_while mockEnv vi buflen (fulls.length + fuel) w buf sum total sum
          = _WriteRead_while mockEnv vi buflen fuel
              ⟨{ w.st with reads := tail, allocs := w.st.allocs.drop fulls.length },
                w.log ++ roundsLog vi buflen fulls.length total⟩
              buf1 (sum + fulls.length * buflen) (total + fulls.length * buflen)
              (sum + fulls.length * buflen) := by
  intro fulls
  induction fulls with
  | nil =>
    intro w buf total sum _ hr _ hlen _
    refine ⟨buf, by simpa using hlen, by simp, ?_⟩
    have hw : w = ⟨{ w.st with reads := tail, allocs := w.st.allocs.drop 0 },
        w.log ++ roundsLog vi buflen 0 total⟩ := by
      cases w with
      | mk st log =>
        cases st
        simp [successReads] at hr
        simp [roundsLog, hr]
    simp only [List.length_nil, Nat.zero_mul, Nat.add_zero, Nat.zero_add]
    simp only [List.length_nil, Nat.zero_mul, Nat.add_zero, Nat.zero_add] at hw
    rw [← hw]
  | cons c cs ih =>
    intro w buf total sum hfull hr hal hlen htot
    have hc : c.length = buflen := hfull c (by simp)
    have hcs : ∀ d ∈ cs, d.length = buflen := fun d hd => hfull d (by simp [hd])
    have hread : mockEnv.viRead w.st vi buflen
        = ((VI_SUCCESS, c), { w.st with reads := successReads cs ++ tail }) :=
      Mock.read_cons w.st _ _ (by simpa [successReads] using hr)
    have halloc : mockEnv.realloc { w.st with reads := successReads cs ++ tail } (total + buflen)
        = (true, { w.st with reads := successReads cs ++ tail, allocs := w.st.allocs.drop 1 }) := by
      have := Mock.alloc_ok { w.st with reads := successReads cs ++ tail } cs.length
        (by simpa using hal)
      simpa [mockEnv] using this
    have hstep := while_continue mockEnv vi buflen (cs.length + fuel) w buf sum total sum
      (by rw [hread]) (by rw [hread]; simp [hc]) (by rw [hread, halloc])
    rw [hread, halloc] at hstep
    simp only [hc] at hstep
    have hwa : writeAt buf sum c = buf.take sum ++ c := by
      have := writeAt_take buf c sum (by omega)
      rw [← this, List.take_of_length_le]
      rw [writeAt_length buf c sum (by omega)]
      omega
    obtain ⟨buf1, hl1, ht1, hrun⟩ := ih
      ((w.after (Call.viRead vi buflen) { w.st with reads := successReads cs ++ tail }).after
        (Call.realloc (total + buflen))
        { w.st with reads := successReads cs ++ tail, allocs := w.st.allocs.drop 1 })
      (writeAt buf sum c ++ List.replicate buflen 0) (total + buflen) (sum + buflen)
      hcs (by simp [World.after])
      (by
        intro b hb
        apply hal b
        simp only [World.after, List.take_drop] at hb
        have := List.mem_of_mem_drop hb
        simpa [Nat.add_comm] using this)
      (by rw [List.length_append, writeAt_length buf c sum (by omega)]; simp [hlen])
      (by omega)
    refine ⟨buf1, ?_, ?_, ?_⟩
    · rw [hl1]; simp only [List.length_cons]; ring
    · have e1 : sum + (c :: cs).length * buflen = sum + buflen + cs.length * buflen := by
        simp only [List.length_cons]; ring
      rw [e1, ht1, hwa]
      have e2 : ((buf.take sum ++ c) ++ List.replicate buflen 0).take (sum + buflen)
          = buf.take sum ++ c := by
        have hl : (buf.take sum ++ c).length = sum + buflen := by
          simp [hc]; omega
        rw [← hl, List.take_left]
      rw [e2]
      simp
    · have e3 : (c :: cs).length + fuel = (cs.length + fuel) + 1 := by
        simp only [List.length_cons]; omega
      rw [e3, hstep, hrun]
      have e4 : sum + buflen + cs.length * buflen = sum + (c :: cs).length * buflen := by
        simp only [List.length_cons]; ring
      have e5 : total + buflen + cs.length * buflen = total + (c :: cs).length * buflen := by
        simp only [List.length_cons]; ring
      rw [e4, e5]
      congr 1
      simp [World.after, roundsLog, List.append_assoc]

/-- The scripted read of a final chunk, one that is short or reports
`VI_SUCCESS_MAX_CNT`, ends the loop with the stored bytes. -/
theorem mock_last_round (vi : ViSession) (buflen fuel : Nat) (w : World Mock) (buf : List Byte)
    (total sum : Nat) (st : ViStatus) (last : List Byte) (rest : List (ViStatus × List Byte))
    (hr : w.st.reads = (st, last) :: rest)
    (hst : st = VI_SUCCESS ∧ last.length < buflen ∨ st = VI_SUCCESS_MAX_CNT)
    (hsum : sum ≤ buf.length) :
    _WriteRead_while mockEnv vi buflen (fuel + 1) w buf sum total sum
      = some (okBytes (cutToInt (buf.take sum ++ last)),
              ⟨{ w.st with reads := rest }, w.log ++ [Call.viRead vi buflen]⟩) := by
  have hread : mockEnv.viRead w.st vi buflen = ((st, last), { w.st with reads := rest }) :=
    Mock.read_cons w.st _ _ hr
  have hstep := while_break mockEnv vi buflen fuel w buf sum total sum
    (by rw [hread]; rcases hst with h | h
        · exact Or.inl h.1
        · exact Or.inr h)
    (by rw [hread]; rcases hst with h | h
        · exact Or.inl h.2
        · exact Or.inr h)
  rw [hread] at hstep
  rw [hstep, result_bytes_cut buf last sum hsum]
  rfl

/-- Full chunks with status `VI_SUCCESS`, then a final chunk: the loop
returns all of them in order, after one read per chunk. -/
theorem mock_reassemble (vi : ViSession) (buflen fuel : Nat) (w : World Mock) (buf : List Byte)
    (total sum : Nat) (fulls : List (List Byte)) (st : ViStatus) (last : List Byte)
    (rest : List (ViStatus × List Byte))
    (hfull : ∀ c ∈ fulls, c.length = buflen)
    (hr : w.st.reads = successReads fulls ++ (st, last) :: rest)
    (hal : ∀ b ∈ w.st.allocs.take fulls.length, b = true)
    (hst : st = VI_SUCCESS ∧ last.length < buflen ∨ st = VI_SUCCESS_MAX_CNT)
    (hlen : buf.length = total) (htot : total = sum + buflen) :
    _WriteRead_while mockEnv vi buflen (fulls.length + (fuel + 1)) w buf sum total sum
      = some (okBytes (cutToInt (buf.take sum ++ fulls.flatten ++ last)),
              ⟨{ w.st with reads := rest, allocs := w.st.allocs.drop fulls.length },
                w.log ++ roundsLog vi buflen fulls.length total ++ [Call.viRead vi buflen]⟩) := by
  obtain ⟨buf1, hl1, ht1, hrun⟩ := mock_full_rounds vi buflen ((st, last) :: rest) (fuel + 1)
    fulls w buf total sum hfull hr hal hlen htot
  rw [hrun, mock_last_round vi buflen fuel _ buf1 _ _ st last rest rfl hst (by omega), ht1]

/-- The start of `_WriteRead` when the allocation and the write succeed. -/
theorem _WriteRead_start (E : Env σ) (buflen fuel : Nat) (w : World σ) (h : Int)
    (cmd : List Byte) (hm : (E.malloc w.st buflen).1 = true)
    (hw : (E.viWrite (E.malloc w.st buflen).2 (toViUInt32 h)
            (cmd.take (toViUInt32 (Int.ofNat (strlen cmd))))
            (toViUInt32 (Int.ofNat (strlen cmd)))).1 = VI_SUCCESS) :
    _WriteRead E buflen fuel w h cmd
      = _WriteRead_while E (toViUInt32 h) buflen fuel
          ((w.after (Call.malloc buflen) (E.malloc w.st buflen).2).after
            (Call.viWrite (toViUInt32 h) (cmd.take (toViUInt32 (Int.ofNat (strlen cmd))))
              (toViUInt32 (Int.ofNat (strlen cmd))))
            (E.viWrite (E.malloc w.st buflen).2 (toViUInt32 h)
              (cmd.take (toViUInt32 (Int.ofNat (strlen cmd))))
              (toViUInt32 (Int.ofNat (strlen cmd)))).2)
          (List.replicate buflen 0) 0 buflen 0 := by
  have hwst : (w.after (Call.malloc buflen) (E.malloc w.st buflen).2).st
      = (E.malloc w.st buflen).2 := rfl
  simp only [_WriteRead, hm, hwst, hw, Bool.true_eq_false, if_false, ne_eq, not_true_eq_false]

/-- The start of `Read` when the allocation succeeds. -/
theorem Read_start (E : Env σ) (fuel : Nat) (w : World σ) (h : Int)
    (hm : (E.malloc w.st 1024).1 = true) :
    Read E fuel w h
      = _WriteRead_while E (toViUInt32 h) 1024 fuel
          (w.after (Call.malloc 1024) (E.malloc w.st 1024).2)
          (List.replicate 1024 0) 0 1024 0 := by
  simp only [Read, hm, Read_while_eq, Bool.true_eq_false, if_false]

theorem fuel_split (k fuel : Nat) (h : k < fuel) : ∃ f, fuel = k + (f + 1) :=
  ⟨fuel - k - 1, by omega⟩

/-- Outcome and final world of `_WriteRead` against the scripted environment:
full chunks with status `VI_SUCCESS`, then a final chunk; the result is cut
to the `int` length. -/
theorem mock_WriteRead_reassemble_any (buflen fuel : Nat) (w : World Mock) (h : Int)
    (cmd : List Byte) (fulls : List (List Byte)) (st : ViStatus) (last : List Byte)
    (rest : List (ViStatus × List Byte))
    (hwr : w.st.write = VI_SUCCESS)
    (hfull : ∀ c ∈ fulls, c.length = buflen)
    (hr : w.st.reads = successReads fulls ++ (st, last) :: rest)
    (hal : ∀ b ∈ w.st.allocs.take (fulls.length + 1), b = true)
    (hst : st = VI_SUCCESS ∧ last.length < buflen ∨ st = VI_SUCCESS_MAX_CNT)
    (hfuel : fulls.length < fuel) :
    _WriteRead mockEnv buflen fuel w h cmd
      = some (okBytes (cutToInt (fulls.flatten ++ last)),
              ⟨{ w.st with reads := rest, allocs := w.st.allocs.drop (fulls.length + 1) },
                w.log ++ [Call.malloc buflen,
                  Call.viWrite (toViUInt32 h) (cmd.take (toViUInt32 (Int.ofNat (strlen cmd))))
                    (toViUInt32 (Int.ofNat (strlen cmd)))]
                ++ roundsLog (toViUInt32 h) buflen fulls.length buflen
                ++ [Call.viRead (toViUInt32 h) buflen]⟩) := by
  obtain ⟨f, rfl⟩ := fuel_split _ _ hfuel
  have hm : mockEnv.malloc w.st buflen = (true, { w.st with allocs := w.st.allocs.drop 1 }) :=
    Mock.alloc_ok w.st fulls.length hal
  rw [_WriteRead_start mockEnv buflen _ w h cmd (by rw [hm]) (by rw [hm]; exact hwr)]
  rw [hm]
  rw [mock_reassemble (toViUInt32 h) buflen f _ _ buflen 0 fulls st last rest hfull
    (by simpa [World.after, mockEnv] using hr)
    (by
      intro b hb
      apply hal b
      simp only [World.after, mockEnv, List.take_drop] at hb
      have := List.mem_of_mem_drop hb
      simpa [Nat.add_comm] using this)
    hst (by simp) (by simp)]
  simp [World.after, mockEnv, Nat.add_comm]

/-- Outcome and final world of `_WriteRead` against the scripted environment
when fewer than `2^31` bytes are received. -/
theorem mock_WriteRead_reassemble (buflen fuel : Nat) (w : World Mock) (h : Int)
    (cmd : List Byte) (fulls : List (List Byte)) (st : ViStatus) (last : List Byte)
    (rest : List (ViStatus × List Byte))
    (hwr : w.st.write = VI_SUCCESS)
    (hfull : ∀ c ∈ fulls, c.length = buflen)
    (hr : w.st.reads = successReads fulls ++ (st, last) :: rest)
    (hal : ∀ b ∈ w.st.allocs.take (fulls.length + 1), b = true)
    (hst : st = VI_SUCCESS ∧ last.length < buflen ∨ st = VI_SUCCESS_MAX_CNT)
    (hfuel : fulls.length < fuel)
    (hint : fulls.length * buflen + last.length < 2147483648) :
    _WriteRead mockEnv buflen fuel w h cmd
      = some (okBytes (fulls.flatten ++ last),
              ⟨{ w.st with reads := rest, allocs := w.st.allocs.drop (fulls.length + 1) },
                w.log ++ [Call.malloc buflen,
                  Call.viWrite (toViUInt32 h) (cmd.take (toViUInt32 (Int.ofNat (strlen cmd))))
                    (toViUInt32 (Int.ofNat (strlen cmd)))]
                ++ roundsLog (toViUInt32 h) buflen fulls.length buflen
                ++ [Call.viRead (toViUInt32 h) buflen]⟩) := by
  rw [mock_WriteRead_reassemble_any buflen fuel w h cmd fulls st last rest hwr hfull hr hal hst
    hfuel, cutToInt_of_lt _ (by
      rw [List.length_append, flatten_length_of_full buflen fulls hfull]; exact hint)]

/-- Outcome and final world of `Read` against the scripted environment; the
result is cut to the `int` length. -/
theorem mock_Read_reassemble_any (fuel : Nat) (w : World Mock) (h : Int)
    (fulls : List (List Byte)) (st : ViStatus) (last : List Byte)
    (rest : List (ViStatus × List Byte))
    (hfull : ∀ c ∈ fulls, c.length = 1024)
    (hr : w.st.reads = successReads fulls ++ (st, last) :: rest)
    (hal : ∀ b ∈ w.st.allocs.take (fulls.length + 1), b = true)
    (hst : st = VI_SUCCESS ∧ last.length < 1024 ∨ st = VI_SUCCESS_MAX_CNT)
    (hfuel : fulls.length < fuel) :
    Read mockEnv fuel w h
      = some (okBytes (cutToInt (fulls.flatten ++ last)),
              ⟨{ w.st with reads := rest, allocs := w.st.allocs.drop (fulls.length + 1) },
                w.log ++ [Call.malloc 1024]
                ++ roundsLog (toViUInt32 h) 1024 fulls.length 1024
                ++ [Call.viRead (toViUInt32 h) 1024]⟩) := by
  obtain ⟨f, rfl⟩ := fuel_split _ _ hfuel
  have hm : mockEnv.malloc w.st 1024 = (true, { w.st with allocs := w.st.allocs.drop 1 }) :=
    Mock.alloc_ok w.st fulls.length hal
  rw [Read_start mockEnv _ w h (by rw [hm])]
  rw [hm]
  rw [mock_reassemble (toViUInt32 h) 1024 f _ _ 1024 0 fulls st last rest hfull
    (by simpa [World.after, mockEnv] using hr)
    (by
      intro b hb
      apply hal b
      simp only [World.after, mockEnv, List.take_drop] at hb
      have := List.mem_of_mem_drop hb
      simpa [Nat.add_comm] using this)
    hst (List.length_replicate _ _) (Nat.zero_add _).symm]
  simp only [World.after, List.take_zero, List.nil_append, List.drop_drop, List.append_assoc,
    Nat.add_comm]

/-- Outcome and final world of `Read` against the scripted environment when
fewer than `2^31` bytes are received. -/
theorem mock_Read_reassemble (fuel : Nat) (w : World Mock) (h : Int)
    (fulls : List (List Byte)) (st : ViStatus) (last : List Byte)
    (rest : List (ViStatus × List Byte))
    (hfull : ∀ c ∈ fulls, c.length = 1024)
    (hr : w.st.reads = successReads fulls ++ (st, last) :: rest)
    (hal : ∀ b ∈ w.st.allocs.take (fulls.length + 1), b = true)
    (hst : st = VI_SUCCESS ∧ last.length < 1024 ∨ st = VI_SUCCESS_MAX_CNT)
    (hfuel : fulls.length < fuel)
    (hint : fulls.length * 1024 + last.length < 2147483648) :
    Read mockEnv fuel w h
      = some (okBytes (fulls.flatten ++ last),
              ⟨{ w.st with reads := rest, allocs := w.st.allocs.drop (fulls.length + 1) },
                w.log ++ [Call.malloc 1024]
                ++ roundsLog (toViUInt32 h) 1024 fulls.length 1024
                ++ [Call.viRead (toViUInt32 h) 1024]⟩) := by
  rw [mock_Read_reassemble_any fuel w h fulls st last rest hfull hr hal hst hfuel,
    cutToInt_of_lt _ (by
      rw [List.length_append, flatten_length_of_full 1024 fulls hfull]; exact hint)]

/-- Against the scripted environment the read loop always ends: with more
fuel than scripted reads it returns, and its first call is a `viRead`. -/
theorem mock_while_total (vi : ViSession) (buflen : Nat) :
    ∀ (reads : List (ViStatus × List Byte)) (fuel : Nat) (w : World Mock) (buf : List Byte)
      (bp total sum : Nat), w.st.reads = reads → reads.length < fuel →
      ∃ (ret : Ret) (w1 : World Mock) (l : List Call),
        _WriteRead_while mockEnv vi buflen fuel w buf bp total sum = some (ret, w1)
        ∧ w1.log = w.log ++ Call.viRead vi buflen :: l := by
  intro reads
  induction reads with
  | nil =>
    intro fuel w buf bp total sum hr hf
    obtain ⟨f, rfl⟩ : ∃ f, fuel = f + 1 := ⟨fuel - 1, by simp at hf; omega⟩
    have hread : mockEnv.viRead w.st vi buflen = ((VI_ERROR_TMO, []), w.st) := by
      simp [mockEnv, Mock.read, hr]
    refine ⟨_, _, [], while_fail mockEnv vi buflen f w buf bp total sum
      (by rw [hread]; exact (by decide : VI_ERROR_TMO ≠ VI_SUCCESS))
      (by rw [hread]; exact (by decide : VI_ERROR_TMO ≠ VI_SUCCESS_MAX_CNT)), ?_⟩
    simp [World.after]
  | cons r rest ih =>
    intro fuel w buf bp total sum hr hf
    obtain ⟨f, rfl⟩ : ∃ f, fuel = f + 1 := ⟨fuel - 1, by simp at hf; omega⟩
    have hf1 : rest.length < f := by simpa using hf
    have hread : mockEnv.viRead w.st vi buflen = (r, { w.st with reads := rest }) :=
      Mock.read_cons w.st r rest hr
    by_cases hfail : r.1 ≠ VI_SUCCESS ∧ r.1 ≠ VI_SUCCESS_MAX_CNT
    · refine ⟨_, _, [], while_fail mockEnv vi buflen f w buf bp total sum
        (by rw [hread]; exact hfail.1) (by rw [hread]; exact hfail.2), ?_⟩
      simp [World.after]
    · have hst : r.1 = VI_SUCCESS ∨ r.1 = VI_SUCCESS_MAX_CNT := by
        by_cases h0 : r.1 = VI_SUCCESS
        · exact Or.inl h0
        · by_cases h1 : r.1 = VI_SUCCESS_MAX_CNT
          · exact Or.inr h1
          · exact absurd ⟨h0, h1⟩ hfail
      by_cases hbr : r.2.length < buflen ∨ r.1 = VI_SUCCESS_MAX_CNT
      · refine ⟨_, _, [], while_break mockEnv vi buflen f w buf bp total sum
          (by rw [hread]; exact hst) (by rw [hread]; exact hbr), ?_⟩
        simp [World.after]
      · have hlen : ¬ r.2.length < buflen := fun h => hbr (Or.inl h)
        have hs : r.1 = VI_SUCCESS := by
          rcases hst with h0 | h1
          · exact h0
          · exact absurd (Or.inr h1) hbr
        by_cases hal : (mockEnv.realloc { w.st with reads := rest } (total + buflen)).1 = true
        · have hstep := while_continue mockEnv vi buflen f w buf bp total sum
            (by rw [hread]; exact hs) (by rw [hread]; exact hlen) (by rw [hread]; exact hal)
          obtain ⟨ret, w1, l, hrun, hlog⟩ := ih f _
            (writeAt buf bp (mockEnv.viRead w.st vi buflen).1.2 ++ List.replicate buflen 0)
            (sum + (mockEnv.viRead w.st vi buflen).1.2.length) (total + buflen)
            (sum + (mockEnv.viRead w.st vi buflen).1.2.length)
            (show ((w.after (Call.viRead vi buflen) (mockEnv.viRead w.st vi buflen).2).after
              (Call.realloc (total + buflen))
              (mockEnv.realloc (mockEnv.viRead w.st vi buflen).2 (total + buflen)).2).st.reads
                = rest by
              rw [hread]
              simp only [World.after, mockEnv]
              cases hallocs : w.st.allocs <;> simp [Mock.alloc, hallocs])
            hf1
          refine ⟨ret, w1, Call.realloc (total + buflen) :: Call.viRead vi buflen :: l, ?_, ?_⟩
          · rw [hstep, hrun]
          · rw [hlog]; simp [World.after]
        · have hal2 : (mockEnv.realloc (mockEnv.viRead w.st vi buflen).2 (total + buflen)).1
              = false := by
            rw [hread]; simpa using hal
          refine ⟨_, _, [Call.realloc (total + buflen)],
            while_nomem mockEnv vi buflen f w buf bp total sum
              (by rw [hread]; exact hs) (by rw [hread]; exact hlen) hal2, ?_⟩
          simp [World.after]

/-! ## C1: reassembly of chunked reads -/

/-- C1 (as amended): for every chunk size, when the scripted reads deliver
`k` chunks of exactly `buflen` bytes, each with status `VI_SUCCESS`, followed
by one chunk of fewer than `buflen` bytes with status `VI_SUCCESS` or
`VI_SUCCESS_MAX_CNT`, the `k * buflen + n` bytes received are fewer than
`2^31` (the number of bytes is passed to `Tcl_NewByteArrayObj` as an `int`),
and the allocations (and, for the write-read commands, the write) succeed,
then `_WriteRead` (so `WriteRead` with 1024 and `WriteReadBin` with 1000000)
and `Read` (1024) succeed and return exactly the concatenation of the `k + 1`
chunks in order; its length is the sum of the chunk lengths. -/
theorem C1_reassembly_of_success_chunks (buflen fuel : Nat) (w : World Mock) (h : Int)
    (cmd : List Byte) (fulls : List (List Byte)) (st : ViStatus) (last : List Byte)
    (rest : List (ViStatus × List Byte))
    (hfull : ∀ c ∈ fulls, c.length = buflen)
    (hlast : last.length < buflen)
    (hst : st = VI_SUCCESS ∨ st = VI_SUCCESS_MAX_CNT)
    (hr : w.st.reads = successReads fulls ++ (st, last) :: rest)
    (hal : ∀ b ∈ w.st.allocs, b = true)
    (hfuel : fulls.length < fuel)
    (hint : fulls.length * buflen + last.length < 2147483648) :
    (w.st.write = VI_SUCCESS →
      retOf (_WriteRead mockEnv buflen fuel w h cmd) = some (okBytes (fulls.flatten ++ last)))
    ∧ (w.st.write = VI_SUCCESS → buflen = 1024 →
      retOf (WriteRead mockEnv fuel w h cmd) = some (okBytes (fulls.flatten ++ last)))
    ∧ (w.st.write = VI_SUCCESS → buflen = 1000000 →
      retOf (WriteReadBin mockEnv fuel w h cmd) = some (okBytes (fulls.flatten ++ last)))
    ∧ (buflen = 1024 →
      retOf (Read mockEnv fuel w h) = some (okBytes (fulls.flatten ++ last)))
    ∧ (fulls.flatten ++ last).length = (fulls.map List.length).sum + last.length := by
  have hal1 : ∀ b ∈ w.st.allocs.take (fulls.length + 1), b = true :=
    fun b hb => hal b (List.mem_of_mem_take hb)
  have hst1 : ∀ n : Nat, n = buflen →
      (st = VI_SUCCESS ∧ last.length < n ∨ st = VI_SUCCESS_MAX_CNT) := by
    intro n hn
    subst hn
    rcases hst with h1 | h1
    · exact Or.inl ⟨h1, hlast⟩
    · exact Or.inr h1
  have key : ∀ n : Nat, n = buflen → w.st.write = VI_SUCCESS →
      retOf (_WriteRead mockEnv n fuel w h cmd) = some (okBytes (fulls.flatten ++ last)) := by
    intro n hn hwr
    rw [mock_WriteRead_reassemble n fuel w h cmd fulls st last rest hwr
      (by rw [hn]; exact hfull) hr hal1 (hst1 n hn) hfuel (by rw [hn]; exact hint)]
    rfl
  refine ⟨key buflen rfl, ?_, ?_, ?_, ?_⟩
  · intro hwr hb
    exact key 1024 hb.symm hwr
  · intro hwr hb
    exact key 1000000 hb.symm hwr
  · intro hb
    rw [mock_Read_reassemble fuel w h fulls st last rest (by rw [← hb]; exact hfull) hr hal1
      (hst1 1024 hb.symm) hfuel (by rw [← hb]; exact hint)]
    rfl
  · rw [List.length_append, List.length_flatten]

theorem C1_reassembly_of_success_chunks_witness :
    retOf (_WriteRead mockEnv 2 3
        ⟨scripted VI_SUCCESS
          [(VI_SUCCESS, [1, 2]), (VI_SUCCESS, [3, 0]), (VI_SUCCESS_MAX_CNT, [5])] [true], []⟩
        7 [42, 10])
      = some (okBytes [1, 2, 3, 0, 5]) :=
  (C1_reassembly_of_success_chunks 2 3
    ⟨scripted VI_SUCCESS
      [(VI_SUCCESS, [1, 2]), (VI_SUCCESS, [3, 0]), (VI_SUCCESS_MAX_CNT, [5])] [true], []⟩
    7 [42, 10] [[1, 2], [3, 0]] VI_SUCCESS_MAX_CNT [5] []
    (by decide) (by decide) (by decide) rfl (by decide) (by decide) (by decide)).1 rfl

/-- C1, as stated, fails: a first chunk of exactly 1024 bytes reported with
the status `VI_SUCCESS_MAX_CNT`, followed by a short chunk, makes `WriteRead`
stop after the first chunk and return only its 1024 bytes, not the
concatenation of both chunks. -/
theorem C1_counterexample :
    retOf (WriteRead mockEnv 2
        ⟨scripted VI_SUCCESS
          [(VI_SUCCESS_MAX_CNT, List.replicate 1024 1), (VI_SUCCESS, [2])] [], []⟩ 7 [42, 10])
      = some (okBytes (List.replicate 1024 1))
    ∧ retOf (WriteRead mockEnv 2
        ⟨scripted VI_SUCCESS
          [(VI_SUCCESS_MAX_CNT, List.replicate 1024 1), (VI_SUCCESS, [2])] [], []⟩ 7 [42, 10])
      ≠ some (okBytes (List.replicate 1024 1 ++ [2])) := by
  have hrun : retOf (WriteRead mockEnv 2
        ⟨scripted VI_SUCCESS
          [(VI_SUCCESS_MAX_CNT, List.replicate 1024 1), (VI_SUCCESS, [2])] [], []⟩ 7 [42, 10])
      = some (okBytes (List.replicate 1024 1)) := by
    unfold WriteRead
    rw [mock_WriteRead_reassemble 1024 2
      ⟨scripted VI_SUCCESS
        [(VI_SUCCESS_MAX_CNT, List.replicate 1024 1), (VI_SUCCESS, [2])] [], []⟩
      7 [42, 10] [] VI_SUCCESS_MAX_CNT
      (List.replicate 1024 1) [(VI_SUCCESS, [2])] rfl (fun c hc => nomatch hc) rfl
      (fun b hb => absurd hb (List.not_mem_nil b)) (Or.inr rfl) (by decide)
      (by rw [List.length_replicate]; decide)]
    rfl
  refine ⟨hrun, ?_⟩
  rw [hrun]
  intro hEq
  have hb : List.replicate 1024 (1 : Byte) = List.replicate 1024 1 ++ [2] :=
    okBytes_inj (Option.some.inj hEq)
  have hl := congrArg List.length hb
  rw [List.length_append, List.length_replicate] at hl
  exact absurd hl (by decide)

/-! ## C2: when the read loop goes on -/

theorem readsIn_append (a b : List Call) : readsIn (a ++ b) = readsIn a + readsIn b := by
  simp [readsIn, List.countP_append]

theorem readsIn_roundsLog (vi : ViSession) (buflen : Nat) :
    ∀ (k total : Nat), readsIn (roundsLog vi buflen k total) = k := by
  intro k
  induction k with
  | zero => intro total; rfl
  | succ n ih =>
    intro total
    have := ih (total + buflen)
    simp only [readsIn] at this
    simp [roundsLog, readsIn, List.countP_cons, Call.isRead, this]

/-- The rule by which one round of the loop stops or goes on, against the
scripted environment (shared by the statements on the loop). -/
theorem mock_round_rule (vi : ViSession) (buflen fuel : Nat) (w : World Mock) (buf : List Byte)
    (bp total sum : Nat) (st : ViStatus) (data : List Byte) (rest : List (ViStatus × List Byte))
    (hr : w.st.reads = (st, data) :: rest)
    (hst : st = VI_SUCCESS ∨ st = VI_SUCCESS_MAX_CNT)
    (hcount : data.length ≤ buflen)
    (hal : ∀ b ∈ w.st.allocs.take 1, b = true)
    (hfuel : rest.length + 1 < fuel) :
    ∃ (ret : Ret) (w1 : World Mock),
      _WriteRead_while mockEnv vi buflen fuel w buf bp total sum = some (ret, w1)
      ∧ (readsIn w.log + 2 ≤ readsIn w1.log ↔ (data.length = buflen ∧ st = VI_SUCCESS))
      ∧ (data.length < buflen ∨ st = VI_SUCCESS_MAX_CNT →
          w1.log = w.log ++ [Call.viRead vi buflen] ∧ ret.code = TclCode.TCL_OK) := by
  obtain ⟨f, rfl⟩ : ∃ f, fuel = f + 1 := ⟨fuel - 1, by omega⟩
  have hf : rest.length < f := by omega
  have hne : VI_SUCCESS_MAX_CNT ≠ VI_SUCCESS := by decide
  have hread : mockEnv.viRead w.st vi buflen = ((st, data), { w.st with reads := rest }) :=
    Mock.read_cons w.st _ _ hr
  by_cases hbr : data.length < buflen ∨ st = VI_SUCCESS_MAX_CNT
  · refine ⟨_, _, while_break mockEnv vi buflen f w buf bp total sum
      (by rw [hread]; exact hst) (by rw [hread]; exact hbr), ?_, ?_⟩
    · have hno : ¬ (data.length = buflen ∧ st = VI_SUCCESS) := by
        rintro ⟨h1, h2⟩
        rcases hbr with h | h
        · omega
        · rw [h] at h2; exact hne h2
      simp only [World.after, readsIn_append, hno, iff_false]
      simp [readsIn, Call.isRead]
    · intro _
      exact ⟨rfl, rfl⟩
  · have hlen : ¬ data.length < buflen := fun h => hbr (Or.inl h)
    have hs : st = VI_SUCCESS := by
      rcases hst with h0 | h1
      · exact h0
      · exact absurd (Or.inr h1) hbr
    have halloc : mockEnv.realloc { w.st with reads := rest } (total + buflen)
        = (true, { w.st with reads := rest, allocs := w.st.allocs.drop 1 }) := by
      have := Mock.alloc_ok { w.st with reads := rest } 0 (by simpa using hal)
      simpa [mockEnv] using this
    have hstep := while_continue mockEnv vi buflen f w buf bp total sum
      (by rw [hread]; exact hs) (by rw [hread]; exact hlen) (by rw [hread, halloc])
    rw [hread, halloc] at hstep
    obtain ⟨ret, w1, l, hrun, hlog⟩ := mock_while_total vi buflen rest f
      ((w.after (Call.viRead vi buflen) { w.st with reads := rest }).after
        (Call.realloc (total + buflen))
        { w.st with reads := rest, allocs := w.st.allocs.drop 1 })
      (writeAt buf bp data ++ List.replicate buflen 0) (sum + data.length) (total + buflen)
      (sum + data.length) rfl hf
    refine ⟨ret, w1, by rw [hstep, hrun], ?_, fun h => absurd h hbr⟩
    have hyes : data.length = buflen ∧ st = VI_SUCCESS := ⟨by omega, hs⟩
    simp only [hyes, and_self, iff_true, hlog, World.after, readsIn_append]
    simp [readsIn, List.countP_cons, Call.isRead]
    omega

/-- C2 (as amended): after a read that returned `n ≤ buflen` bytes with a
non-failure status (and with the growth of the buffer succeeding), the loop
of `_WriteRead` and of `Read` issues a further read if and only if
`n = buflen` and the status is the plain `VI_SUCCESS`; it stops, with exactly
that one read and a successful return, when `n < buflen` or when the status
is `VI_SUCCESS_MAX_CNT`.  Scenario: three chunks of exactly 1,000,000 bytes
reported with `VI_SUCCESS`, then a 500-byte chunk with `VI_SUCCESS`, make
`WriteReadBin` perform four reads and return the 3,000,500-byte
concatenation in order. -/
theorem C2_loop_goes_on_iff_full_chunk_with_VI_SUCCESS (vi : ViSession) (buflen fuel : Nat)
    (w : World Mock) (buf : List Byte) (bp total sum : Nat) (st : ViStatus) (data : List Byte)
    (rest : List (ViStatus × List Byte))
    (hr : w.st.reads = (st, data) :: rest)
    (hst : st = VI_SUCCESS ∨ st = VI_SUCCESS_MAX_CNT)
    (hcount : data.length ≤ buflen)
    (hal : ∀ b ∈ w.st.allocs.take 1, b = true)
    (hfuel : rest.length + 1 < fuel) :
    (∃ (ret : Ret) (w1 : World Mock),
      _WriteRead_while mockEnv vi buflen fuel w buf bp total sum = some (ret, w1)
      ∧ Read_while mockEnv vi buflen fuel w buf bp total sum = some (ret, w1)
      ∧ (readsIn w.log + 2 ≤ readsIn w1.log ↔ (data.length = buflen ∧ st = VI_SUCCESS))
      ∧ (data.length < buflen ∨ st = VI_SUCCESS_MAX_CNT →
          w1.log = w.log ++ [Call.viRead vi buflen] ∧ ret.code = TclCode.TCL_OK))
    ∧ (∀ (v : World Mock) (h : Int) (cmd c1 c2 c3 c4 : List Byte)
        (more : List (ViStatus × List Byte)) (n : Nat),
        c1.length = 1000000 → c2.length = 1000000 → c3.length = 1000000 → c4.length = 500 →
        v.st.write = VI_SUCCESS →
        v.st.reads = (VI_SUCCESS, c1) :: (VI_SUCCESS, c2) :: (VI_SUCCESS, c3)
          :: (VI_SUCCESS, c4) :: more →
        (∀ b ∈ v.st.allocs, b = true) → 3 < n →
        retOf (WriteReadBin mockEnv n v h cmd) = some (okBytes (c1 ++ c2 ++ c3 ++ c4))
        ∧ (c1 ++ c2 ++ c3 ++ c4).length = 3000500
        ∧ (logOf (WriteReadBin mockEnv n v h cmd)).map readsIn = some (readsIn v.log + 4)) := by
  constructor
  · obtain ⟨ret, w1, hrun, hiff, hstop⟩ :=
      mock_round_rule vi buflen fuel w buf bp total sum st data rest hr hst hcount hal hfuel
    exact ⟨ret, w1, hrun, by rw [Read_while_eq]; exact hrun, hiff, hstop⟩
  · intro v h cmd c1 c2 c3 c4 more n h1 h2 h3 h4 hwr hreads hallocs hn
    have hrun := mock_WriteRead_reassemble 1000000 n v h cmd [c1, c2, c3] VI_SUCCESS c4 more hwr
      (by
        intro c hc
        simp only [List.mem_cons, List.mem_singleton, List.not_mem_nil, or_false] at hc
        rcases hc with rfl | rfl | rfl <;> assumption)
      (by rw [hreads]; rfl)
      (fun b hb => hallocs b (List.mem_of_mem_take hb))
      (Or.inl ⟨rfl, by rw [h4]; decide⟩) hn
      (by rw [h4]; simp only [List.length_cons, List.length_nil]; decide)
    unfold WriteReadBin
    rw [hrun]
    refine ⟨by simp [retOf, List.append_assoc], ?_, ?_⟩
    · simp only [List.length_append, h1, h2, h3, h4]
    · simp only [logOf, Option.map_some', readsIn_append, readsIn_roundsLog]
      simp [readsIn, Call.isRead]

theorem C2_loop_goes_on_iff_full_chunk_with_VI_SUCCESS_witness :
    ∃ (ret : Ret) (w1 : World Mock),
      _WriteRead_while mockEnv 7 2 3
          ⟨scripted VI_SUCCESS [(VI_SUCCESS, [1, 2]), (VI_SUCCESS, [3])] [], []⟩ [0, 0] 0 2 0
        = some (ret, w1)
      ∧ Read_while mockEnv 7 2 3
          ⟨scripted VI_SUCCESS [(VI_SUCCESS, [1, 2]), (VI_SUCCESS, [3])] [], []⟩ [0, 0] 0 2 0
        = some (ret, w1)
      ∧ (readsIn [] + 2 ≤ readsIn w1.log ↔ (([1, 2] : List Byte).length = 2
          ∧ VI_SUCCESS = VI_SUCCESS))
      ∧ (([1, 2] : List Byte).length < 2 ∨ VI_SUCCESS = VI_SUCCESS_MAX_CNT →
          w1.log = [] ++ [Call.viRead 7 2] ∧ ret.code = TclCode.TCL_OK) :=
  (C2_loop_goes_on_iff_full_chunk_with_VI_SUCCESS 7 2 3
    ⟨scripted VI_SUCCESS [(VI_SUCCESS, [1, 2]), (VI_SUCCESS, [3])] [], []⟩ [0, 0] 0 2 0
    VI_SUCCESS [1, 2] [(VI_SUCCESS, [3])] rfl (Or.inl rfl) (by decide)
    (fun b hb => absurd hb (List.not_mem_nil b)) (by decide)).1

/-- C2, as stated, fails on its own scenario: with three chunks of exactly
1,000,000 bytes reported with `VI_SUCCESS_MAX_CNT` and then a 500-byte chunk
with `VI_SUCCESS`, `WriteReadBin` performs one read only and returns the
1,000,000 bytes of the first chunk, not the 3,000,500-byte concatenation. -/
theorem C2_counterexample :
    retOf (WriteReadBin mockEnv 5
        ⟨scripted VI_SUCCESS
          [(VI_SUCCESS_MAX_CNT, List.replicate 1000000 1),
           (VI_SUCCESS_MAX_CNT, List.replicate 1000000 2),
           (VI_SUCCESS_MAX_CNT, List.replicate 1000000 3),
           (VI_SUCCESS, List.replicate 500 4)] [], []⟩ 7 [42, 10])
      = some (okBytes (List.replicate 1000000 1))
    ∧ logOf (WriteReadBin mockEnv 5
        ⟨scripted VI_SUCCESS
          [(VI_SUCCESS_MAX_CNT, List.replicate 1000000 1),
           (VI_SUCCESS_MAX_CNT, List.replicate 1000000 2),
           (VI_SUCCESS_MAX_CNT, List.replicate 1000000 3),
           (VI_SUCCESS, List.replicate 500 4)] [], []⟩ 7 [42, 10])
      = some [Call.malloc 1000000, Call.viWrite 7 [42, 10] 2, Call.viRead 7 1000000]
    ∧ (List.replicate 1000000 (1 : Byte)).length ≠ 3000500 := by
  have hrun := mock_WriteRead_reassemble 1000000 5
    ⟨scripted VI_SUCCESS
      [(VI_SUCCESS_MAX_CNT, List.replicate 1000000 1),
       (VI_SUCCESS_MAX_CNT, List.replicate 1000000 2),
       (VI_SUCCESS_MAX_CNT, List.replicate 1000000 3),
       (VI_SUCCESS, List.replicate 500 4)] [], []⟩
    7 [42, 10] [] VI_SUCCESS_MAX_CNT (List.replicate 1000000 1)
    [(VI_SUCCESS_MAX_CNT, List.replicate 1000000 2),
     (VI_SUCCESS_MAX_CNT, List.replicate 1000000 3),
     (VI_SUCCESS, List.replicate 500 4)]
    rfl (fun c hc => nomatch hc) rfl
    (fun b hb => absurd hb (List.not_mem_nil b)) (Or.inr rfl) (by decide)
    (by rw [List.length_replicate]; decide)
  unfold WriteReadBin
  rw [hrun]
  refine ⟨rfl, rfl, ?_⟩
  rw [List.length_replicate]
  decide

/-! ## C3: a single short chunk -/

/-- The command `_WriteRead` against the scripted environment, up to the
round after `fulls.length` full chunks with status `VI_SUCCESS`. -/
theorem mock_WriteRead_rounds (buflen fuel : Nat) (w : World Mock) (h : Int) (cmd : List Byte)
    (fulls : List (List Byte)) (tail : List (ViStatus × List Byte))
    (hwr : w.st.write = VI_SUCCESS)
    (hfull : ∀ c ∈ fulls, c.length = buflen)
    (hr : w.st.reads = successReads fulls ++ tail)
    (hal : ∀ b ∈ w.st.allocs.take (fulls.length + 1), b = true) :
    ∃ buf1 : List Byte,
      buf1.length = buflen + fulls.length * buflen ∧
      buf1.take (fulls.length * buflen) = fulls.flatten ∧
      _WriteRead mockEnv buflen (fulls.length + fuel) w h cmd
        = _WriteRead_while mockEnv (toViUInt32 h) buflen fuel
            ⟨{ w.st with reads := tail, allocs := w.st.allocs.drop (fulls.length + 1) },
              w.log ++ [Call.malloc buflen,
                Call.viWrite (toViUInt32 h) (cmd.take (toViUInt32 (Int.ofNat (strlen cmd))))
                  (toViUInt32 (Int.ofNat (strlen cmd)))]
              ++ roundsLog (toViUInt32 h) buflen fulls.length buflen⟩
            buf1 (fulls.length * buflen) (buflen + fulls.length * buflen)
            (fulls.length * buflen) := by
  have hm : mockEnv.malloc w.st buflen = (true, { w.st with allocs := w.st.allocs.drop 1 }) :=
    Mock.alloc_ok w.st fulls.length hal
  obtain ⟨buf1, hl1, ht1, hrun⟩ := mock_full_rounds (toViUInt32 h) buflen tail fuel fulls
    ((w.after (Call.malloc buflen) { w.st with allocs := w.st.allocs.drop 1 }).after
      (Call.viWrite (toViUInt32 h) (cmd.take (toViUInt32 (Int.ofNat (strlen cmd))))
        (toViUInt32 (Int.ofNat (strlen cmd))))
      { w.st with allocs := w.st.allocs.drop 1 })
    (List.replicate buflen 0) buflen 0 hfull
    (by simpa [World.after] using hr)
    (by
      intro b hb
      apply hal b
      simp only [World.after, List.take_drop] at hb
      have := List.mem_of_mem_drop hb
      simpa [Nat.add_comm] using this)
    (List.length_replicate _ _) (Nat.zero_add _).symm
  refine ⟨buf1, hl1, by simpa using ht1, ?_⟩
  rw [_WriteRead_start mockEnv buflen _ w h cmd (by rw [hm]) (by rw [hm]; exact hwr)]
  rw [hm]
  simp only [Nat.zero_add] at hrun
  have hw : mockEnv.viWrite { w.st with allocs := w.st.allocs.drop 1 } (toViUInt32 h)
      (cmd.take (toViUInt32 (Int.ofNat (strlen cmd)))) (toViUInt32 (Int.ofNat (strlen cmd)))
      = (w.st.write, { w.st with allocs := w.st.allocs.drop 1 }) := rfl
  rw [hw, hrun]
  simp only [World.after, List.drop_drop, List.append_assoc, Nat.add_comm, List.singleton_append]

/-- The command `Read` against the scripted environment, up to the round
after `fulls.length` full chunks with status `VI_SUCCESS`. -/
theorem mock_Read_rounds (fuel : Nat) (w : World Mock) (h : Int)
    (fulls : List (List Byte)) (tail : List (ViStatus × List Byte))
    (hfull : ∀ c ∈ fulls, c.length = 1024)
    (hr : w.st.reads = successReads fulls ++ tail)
    (hal : ∀ b ∈ w.st.allocs.take (fulls.length + 1), b = true) :
    ∃ buf1 : List Byte,
      buf1.length = 1024 + fulls.length * 1024 ∧
      buf1.take (fulls.length * 1024) = fulls.flatten ∧
      Read mockEnv (fulls.length + fuel) w h
        = _WriteRead_while mockEnv (toViUInt32 h) 1024 fuel
            ⟨{ w.st with reads := tail, allocs := w.st.allocs.drop (fulls.length + 1) },
              w.log ++ [Call.malloc 1024] ++ roundsLog (toViUInt32 h) 1024 fulls.length 1024⟩
            buf1 (fulls.length * 1024) (1024 + fulls.length * 1024)
            (fulls.length * 1024) := by
  have hm : mockEnv.malloc w.st 1024 = (true, { w.st with allocs := w.st.allocs.drop 1 }) :=
    Mock.alloc_ok w.st fulls.length hal
  obtain ⟨buf1, hl1, ht1, hrun⟩ := mock_full_rounds (toViUInt32 h) 1024 tail fuel fulls
    (w.after (Call.malloc 1024) { w.st with allocs := w.st.allocs.drop 1 })
    (List.replicate 1024 0) 1024 0 hfull
    (by simpa [World.after] using hr)
    (by
      intro b hb
      apply hal b
      simp only [World.after, List.take_drop] at hb
      have := List.mem_of_mem_drop hb
      simpa [Nat.add_comm] using this)
    (List.length_replicate _ _) (Nat.zero_add _).symm
  refine ⟨buf1, hl1, ?_, ?_⟩
  · simp only [Nat.zero_add, List.take_zero, List.nil_append] at ht1
    exact ht1
  · rw [Read_start mockEnv _ w h (by rw [hm])]
    rw [hm]
    simp only [Nat.zero_add] at hrun
    rw [hrun]
    simp only [World.after, List.drop_drop, List.append_assoc, Nat.add_comm]

/-- C4: for every `k ≥ 1` (here `k = fulls.length + 1`), when the `k`-th
scripted read, after `k - 1` full chunks with status `VI_SUCCESS`, reports a
status `s` that is neither `VI_SUCCESS` nor `VI_SUCCESS_MAX_CNT`, the command
(`_WriteRead` with any chunk size, `Read`) issues exactly those `k` reads and
returns `TCL_ERROR` with the text "VISA read error: " followed by `s`; the
result is a string object, never a byte array: neither the chunks gathered
so far nor the bytes `data` of the failing read are returned. -/
theorem C4_read_failure_returns_no_bytes (buflen fuel : Nat) (w : World Mock) (h : Int)
    (cmd : List Byte) (fulls : List (List Byte)) (s : ViStatus) (data : List Byte)
    (rest : List (ViStatus × List Byte))
    (hfull : ∀ c ∈ fulls, c.length = buflen)
    (hr : w.st.reads = successReads fulls ++ (s, data) :: rest)
    (hal : ∀ b ∈ w.st.allocs, b = true)
    (hs1 : s ≠ VI_SUCCESS) (hs2 : s ≠ VI_SUCCESS_MAX_CNT)
    (hfuel : fulls.length < fuel) :
    (w.st.write = VI_SUCCESS →
      retOf (_WriteRead mockEnv buflen fuel w h cmd) = some (statusError "VISA read error: " s)
      ∧ (logOf (_WriteRead mockEnv buflen fuel w h cmd)).map readsIn
          = some (readsIn w.log + (fulls.length + 1)))
    ∧ (buflen = 1024 →
      retOf (Read mockEnv fuel w h) = some (statusError "VISA read error: " s)
      ∧ (logOf (Read mockEnv fuel w h)).map readsIn
          = some (readsIn w.log + (fulls.length + 1)))
    ∧ (statusError "VISA read error: " s).code = TclCode.TCL_ERROR
    ∧ (∀ bytes : List Byte,
        (statusError "VISA read error: " s).result ≠ TclObj.newByteArrayObj bytes) := by
  obtain ⟨f, rfl⟩ := fuel_split _ _ hfuel
  have hal1 : ∀ b ∈ w.st.allocs.take (fulls.length + 1), b = true :=
    fun b hb => hal b (List.mem_of_mem_take hb)
  refine ⟨?_, ?_, rfl, ?_⟩
  · intro hwr
    obtain ⟨buf1, _, _, hrun⟩ := mock_WriteRead_rounds buflen (f + 1) w h cmd fulls
      ((s, data) :: rest) hwr hfull hr hal1
    rw [hrun, while_fail mockEnv (toViUInt32 h) buflen f _ buf1 _ _ _
      (by simpa [mockEnv, Mock.read] using hs1) (by simpa [mockEnv, Mock.read] using hs2)]
    refine ⟨by simp [retOf, mockEnv, Mock.read], ?_⟩
    simp only [logOf, Option.map_some', World.after, readsIn_append, readsIn_roundsLog]
    simp [readsIn, Call.isRead]
    omega
  · intro hb
    subst hb
    obtain ⟨buf1, _, _, hrun⟩ := mock_Read_rounds (f + 1) w h fulls
      ((s, data) :: rest) hfull hr hal1
    rw [hrun, while_fail mockEnv (toViUInt32 h) 1024 f _ buf1 _ _ _
      (by simpa [mockEnv, Mock.read] using hs1) (by simpa [mockEnv, Mock.read] using hs2)]
    refine ⟨by simp [retOf, mockEnv, Mock.read], ?_⟩
    simp only [logOf, Option.map_some', World.after, readsIn_append, readsIn_roundsLog]
    simp [readsIn, Call.isRead]
    omega
  · intro bytes hEq
    simp [statusError] at hEq

theorem C4_read_failure_returns_no_bytes_witness :
    retOf (_WriteRead mockEnv 2 3
        ⟨scripted VI_SUCCESS [(VI_SUCCESS, [1, 2]), (VI_ERROR_TMO, [3])] [], []⟩ 7 [42])
      = some ⟨TclCode.TCL_ERROR, TclObj.newStringObj "VISA read error: -1073807339"⟩
    ∧ (logOf (_WriteRead mockEnv 2 3
        ⟨scripted VI_SUCCESS [(VI_SUCCESS, [1, 2]), (VI_ERROR_TMO, [3])] [], []⟩ 7 [42])).map
          readsIn
      = some 2 :=
  (C4_read_failure_returns_no_bytes 2 3
    ⟨scripted VI_SUCCESS [(VI_SUCCESS, [1, 2]), (VI_ERROR_TMO, [3])] [], []⟩ 7 [42]
    [[1, 2]] VI_ERROR_TMO [3] [] (by decide) rfl (fun b hb => absurd hb (List.not_mem_nil b))
    (by decide) (by decide) (by decide)).1 rfl

/-! ## C5: write, then read -/

/-- C5: in `_WriteRead` with any chunk size (`WriteRead` is the instance
1024, `WriteReadBin` the instance 1000000), for every command and every
environment in which the initial allocation succeeded: when `viWrite` returns
a status `s` other than `VI_SUCCESS`, the command returns `TCL_ERROR` with
the text "VISA write error: " followed by `s`, and the calls made are the
allocation and that one write, no read; when `viWrite` returns `VI_SUCCESS`,
the command is exactly the read loop with that chunk size, started on an
empty buffer of `buflen` bytes in the world after the write. -/
theorem C5_failed_write_never_reads (E : Env σ) (buflen fuel : Nat) (w : World σ) (h : Int)
    (cmd : List Byte) (s : ViStatus) (s1 : σ)
    (hm : (E.malloc w.st buflen).1 = true)
    (hw : E.viWrite (E.malloc w.st buflen).2 (toViUInt32 h)
        (cmd.take (toViUInt32 (Int.ofNat (strlen cmd)))) (toViUInt32 (Int.ofNat (strlen cmd)))
      = (s, s1)) :
    (s ≠ VI_SUCCESS →
      _WriteRead E buflen fuel w h cmd
        = some (statusError "VISA write error: " s,
            ⟨s1, w.log ++ [Call.malloc buflen,
              Call.viWrite (toViUInt32 h) (cmd.take (toViUInt32 (Int.ofNat (strlen cmd))))
                (toViUInt32 (Int.ofNat (strlen cmd)))]⟩))
    ∧ (s = VI_SUCCESS →
      _WriteRead E buflen fuel w h cmd
        = _WriteRead_while E (toViUInt32 h) buflen fuel
            ⟨s1, w.log ++ [Call.malloc buflen,
              Call.viWrite (toViUInt32 h) (cmd.take (toViUInt32 (Int.ofNat (strlen cmd))))
                (toViUInt32 (Int.ofNat (strlen cmd)))]⟩
            (List.replicate buflen 0) 0 buflen 0)
    ∧ WriteRead E fuel w h cmd = _WriteRead E 1024 fuel w h cmd
    ∧ WriteReadBin E fuel w h cmd = _WriteRead E 1000000 fuel w h cmd := by
  refine ⟨?_, ?_, rfl, rfl⟩
  · intro hs
    have hwst : (w.after (Call.malloc buflen) (E.malloc w.st buflen).2).st
        = (E.malloc w.st buflen).2 := rfl
    simp only [_WriteRead, hm, hwst, hw, Bool.true_eq_false, if_false, ne_eq, hs,
      not_false_eq_true, if_true, World.after, List.append_assoc, List.singleton_append]
  · intro hs
    rw [_WriteRead_start E buflen fuel w h cmd hm (by rw [hw]; exact hs), hw]
    simp only [World.after, List.append_assoc, List.singleton_append]

theorem C5_failed_write_never_reads_witness :
    _WriteRead mockEnv 1024 9
        ⟨scripted VI_ERROR_TMO [(VI_SUCCESS, [1, 2, 3])] [], []⟩ 7 [42, 82, 83, 84, 10]
      = some (⟨TclCode.TCL_ERROR, TclObj.newStringObj "VISA write error: -1073807339"⟩,
          ⟨scripted VI_ERROR_TMO [(VI_SUCCESS, [1, 2, 3])] [],
            [Call.malloc 1024, Call.viWrite 7 [42, 82, 83, 84, 10] 5]⟩) :=
  (C5_failed_write_never_reads mockEnv 1024 9
    ⟨scripted VI_ERROR_TMO [(VI_SUCCESS, [1, 2, 3])] [], []⟩ 7 [42, 82, 83, 84, 10]
    VI_ERROR_TMO (scripted VI_ERROR_TMO [(VI_SUCCESS, [1, 2, 3])] []) rfl rfl).1 (by decide)

/-! ## C6: the identification query -/

/-- A round of the loop of `Idn` whose read reports a status other than
`VI_SUCCESS` ends the command with the read error. -/
theorem Idn_fail (E : Env σ) (vi : ViSession) (buflen fuel : Nat) (w : World σ)
    (response : List Byte) (h1 : (E.viRead w.st vi buflen).1.1 ≠ VI_SUCCESS) :
    Idn_while E vi buflen (fuel + 1) w response
      = some (statusError "VISA read error: " (E.viRead w.st vi buflen).1.1,
              w.after (Call.viRead vi buflen) (E.viRead w.st vi buflen).2) := by
  simp [Idn_while, h1]

/-- A round of the loop of `Idn` whose read is short, with status
`VI_SUCCESS`, returns the bytes of that read. -/
theorem Idn_break (E : Env σ) (vi : ViSession) (buflen fuel : Nat) (w : World σ)
    (response : List Byte) (h1 : (E.viRead w.st vi buflen).1.1 = VI_SUCCESS)
    (h2 : (E.viRead w.st vi buflen).1.2.length < buflen) :
    Idn_while E vi buflen (fuel + 1) w response
      = some (okBytes (E.viRead w.st vi buflen).1.2,
              w.after (Call.viRead vi buflen) (E.viRead w.st vi buflen).2) := by
  have hb := result_bytes response (E.viRead w.st vi buflen).1.2 0 (Nat.zero_le _)
  simp only [Nat.zero_add, List.take_zero, List.nil_append] at hb
  simp only [Idn_while, h1, ne_eq, not_true_eq_false, if_false, h2, if_true, hb, okBytes]

/-- A round of the loop of `Idn` whose read fills the array, with status
`VI_SUCCESS`, goes on to the next round with the same array. -/
theorem Idn_continue (E : Env σ) (vi : ViSession) (buflen fuel : Nat) (w : World σ)
    (response : List Byte) (h1 : (E.viRead w.st vi buflen).1.1 = VI_SUCCESS)
    (h2 : ¬ (E.viRead w.st vi buflen).1.2.length < buflen) :
    Idn_while E vi buflen (fuel + 1) w response
      = Idn_while E vi buflen fuel
          (w.after (Call.viRead vi buflen) (E.viRead w.st vi buflen).2)
          (writeAt response 0 (E.viRead w.st vi buflen).1.2) := by
  rw [Idn_while]
  simp only [h1, ne_eq, not_true_eq_false, if_false, h2]

/-- The loop of `Idn` against the scripted environment: after full chunks
with status `VI_SUCCESS` and a short chunk with status `VI_SUCCESS`, the
bytes of the short chunk alone are returned, after one read per chunk. -/
theorem mock_Idn_while (vi : ViSession) (buflen fuel : Nat) (last : List Byte)
    (rest : List (ViStatus × List Byte)) (hlast : last.length < buflen) :
    ∀ (fulls : List (List Byte)) (w : World Mock) (response : List Byte),
      (∀ c ∈ fulls, c.length = buflen) →
      w.st.reads = successReads fulls ++ (VI_SUCCESS, last) :: rest →
      Idn_while mockEnv vi buflen (fulls.length + (fuel + 1)) w response
        = some (okBytes last,
            ⟨{ w.st with reads := rest },
              w.log ++ List.replicate (fulls.length + 1) (Call.viRead vi buflen)⟩) := by
  intro fulls
  induction fulls with
  | nil =>
    intro w response _ hr
    have hread : mockEnv.viRead w.st vi buflen
        = ((VI_SUCCESS, last), { w.st with reads := rest }) :=
      Mock.read_cons w.st _ _ (by simpa [successReads] using hr)
    have e : ([] : List (List Byte)).length + (fuel + 1) = fuel + 1 := by simp
    rw [e, Idn_break mockEnv vi buflen fuel w response (by rw [hread]) (by rw [hread]; exact hlast),
      hread]
    simp [World.after]
  | cons c cs ih =>
    intro w response hfull hr
    have hc : c.length = buflen := hfull c (by simp)
    have hread : mockEnv.viRead w.st vi buflen
        = ((VI_SUCCESS, c), { w.st with reads := successReads cs ++ (VI_SUCCESS, last) :: rest }) :=
      Mock.read_cons w.st _ _ (by simpa [successReads] using hr)
    have e : (c :: cs).length + (fuel + 1) = (cs.length + (fuel + 1)) + 1 := by
      simp only [List.length_cons]; omega
    rw [e, Idn_continue mockEnv vi buflen _ w response (by rw [hread])
      (by rw [hread]; simp [hc]), hread]
    rw [ih _ _ (fun d hd => hfull d (by simp [hd])) (by simp [World.after])]
    simp [World.after, List.replicate_succ]

/-- C6: for every `m ≥ 0` (here `m = fulls.length`), when the write succeeds
and the scripted reads deliver `m` chunks of exactly 1024 bytes and then one
chunk of fewer than 1024 bytes, all with status `VI_SUCCESS`, the command
`Idn` writes the 6 bytes of "*IDN?\n", performs `m + 1` reads of up to 1024
bytes, and returns exactly the bytes of the last chunk, none of the earlier
ones. -/
theorem C6_Idn_returns_last_chunk_only (fuel : Nat) (w : World Mock) (h : Int)
    (fulls : List (List Byte)) (last : List Byte) (rest : List (ViStatus × List Byte))
    (hwr : w.st.write = VI_SUCCESS)
    (hfull : ∀ c ∈ fulls, c.length = 1024)
    (hlast : last.length < 1024)
    (hr : w.st.reads = successReads fulls ++ (VI_SUCCESS, last) :: rest)
    (hfuel : fulls.length < fuel) :
    retOf (Idn mockEnv fuel w h) = some (okBytes last)
    ∧ logOf (Idn mockEnv fuel w h)
        = some (w.log ++ Call.viWrite (toViUInt32 h) [42, 73, 68, 78, 63, 10] 6
            :: List.replicate (fulls.length + 1) (Call.viRead (toViUInt32 h) 1024)) := by
  obtain ⟨f, rfl⟩ := fuel_split _ _ hfuel
  have hcount : toViUInt32 (Int.ofNat (strlen idnQuery)) = 6 := by decide
  have htake : idnQuery.take 6 = [42, 73, 68, 78, 63, 10] := by decide
  have hw : mockEnv.viWrite w.st (toViUInt32 h) [42, 73, 68, 78, 63, 10] 6 = (w.st.write, w.st) :=
    rfl
  simp only [Idn, hcount, htake, hw, hwr, ne_eq, not_true_eq_false, if_false]
  rw [mock_Idn_while (toViUInt32 h) 1024 f last rest hlast fulls _ _ hfull
    (by simpa [World.after] using hr)]
  exact ⟨rfl, by simp [logOf, World.after]⟩

/-- C6, scenario: one successful read delivering the 18 bytes of
"ACME,MODEL,SN,1.0\n" makes `Idn` return exactly those 18 bytes. -/
theorem C6_Idn_returns_last_chunk_only_witness :
    retOf (Idn mockEnv 1
        ⟨scripted VI_SUCCESS
          [(VI_SUCCESS,
            [65, 67, 77, 69, 44, 77, 79, 68, 69, 76, 44, 83, 78, 44, 49, 46, 48, 10])] [], []⟩ 7)
      = some (okBytes [65, 67, 77, 69, 44, 77, 79, 68, 69, 76, 44, 83, 78, 44, 49, 46, 48, 10])
    ∧ logOf (Idn mockEnv 1
        ⟨scripted VI_SUCCESS
          [(VI_SUCCESS,
            [65, 67, 77, 69, 44, 77, 79, 68, 69, 76, 44, 83, 78, 44, 49, 46, 48, 10])] [], []⟩ 7)
      = some ([] ++ Call.viWrite (toViUInt32 7) [42, 73, 68, 78, 63, 10] 6
            :: List.replicate (([] : List (List Byte)).length + 1)
                (Call.viRead (toViUInt32 7) 1024)) :=
  C6_Idn_returns_last_chunk_only 1
    ⟨scripted VI_SUCCESS
      [(VI_SUCCESS,
        [65, 67, 77, 69, 44, 77, 79, 68, 69, 76, 44, 83, 78, 44, 49, 46, 48, 10])] [], []⟩ 7
    [] [65, 67, 77, 69, 44, 77, 79, 68, 69, 76, 44, 83, 78, 44, 49, 46, 48, 10] []
    rfl (fun c hc => nomatch hc) (by decide) rfl (by decide)

/-! ## C7: which statuses count as success outside the read loop -/

/-- C7 (as amended): in every command outside the chunked read loop, the
status of a VISA call is compared with `VI_SUCCESS` alone: the command goes
on (or returns `TCL_OK`) when the status is `VI_SUCCESS`, and returns
`TCL_ERROR` with the status in its error text for every other status,
`VI_SUCCESS_MAX_CNT` included.  This holds for `GetResourceManager`,
`OpenResource` (open and clear), `CloseResource`, `Stb`, `Write`,
`SetAttribute`, `GetAttribute`, `SetTimeout`, `GetTimeout`, and for the write
and the reads of `Idn`. -/
theorem C7_only_VI_SUCCESS_counts_as_success (E : Env σ) (w : World σ) (h rm : Int)
    (uri cmd response : List Byte) (attr value timeout : Int) (fuel : Nat) :
    (((E.viOpenDefaultRM w.st).1.1 = VI_SUCCESS →
        (GetResourceManager E w).1.code = TclCode.TCL_OK)
      ∧ ((E.viOpenDefaultRM w.st).1.1 ≠ VI_SUCCESS →
        (GetResourceManager E w).1 = statusError "VISA Error: " (E.viOpenDefaultRM w.st).1.1))
    ∧ (((E.viOpen w.st (toViUInt32 rm) uri).1.1 = VI_SUCCESS →
        (E.viClear (E.viOpen w.st (toViUInt32 rm) uri).2
          (E.viOpen w.st (toViUInt32 rm) uri).1.2).1 = VI_SUCCESS →
        (OpenResource E w rm uri).1.code = TclCode.TCL_OK)
      ∧ ((E.viOpen w.st (toViUInt32 rm) uri).1.1 ≠ VI_SUCCESS →
        (OpenResource E w rm uri).1
          = statusError "VISA Error: " (E.viOpen w.st (toViUInt32 rm) uri).1.1)
      ∧ ((E.viOpen w.st (toViUInt32 rm) uri).1.1 = VI_SUCCESS →
        (E.viClear (E.viOpen w.st (toViUInt32 rm) uri).2
          (E.viOpen w.st (toViUInt32 rm) uri).1.2).1 ≠ VI_SUCCESS →
        (OpenResource E w rm uri).1
          = statusError "VISA Error: "
              (E.viClear (E.viOpen w.st (toViUInt32 rm) uri).2
                (E.viOpen w.st (toViUInt32 rm) uri).1.2).1))
    ∧ (((E.viClose w.st (toViUInt32 h)).1 = VI_SUCCESS →
        (CloseResource E w h).1.code = TclCode.TCL_OK)
      ∧ ((E.viClose w.st (toViUInt32 h)).1 ≠ VI_SUCCESS →
        (CloseResource E w h).1 = statusError "VISA Error: " (E.viClose w.st (toViUInt32 h)).1))
    ∧ (((E.viReadSTB w.st (toViUInt32 h)).1.1 = VI_SUCCESS →
        (Stb E w h).1.code = TclCode.TCL_OK)
      ∧ ((E.viReadSTB w.st (toViUInt32 h)).1.1 ≠ VI_SUCCESS →
        (Stb E w h).1 = statusError "VISA Error: " (E.viReadSTB w.st (toViUInt32 h)).1.1))
    ∧ (((E.viWrite w.st (toViUInt32 h) (cmd.take (toViUInt32 (Int.ofNat (strlen cmd))))
          (toViUInt32 (Int.ofNat (strlen cmd)))).1 = VI_SUCCESS →
        (Write E w h cmd).1.code = TclCode.TCL_OK)
      ∧ ((E.viWrite w.st (toViUInt32 h) (cmd.take (toViUInt32 (Int.ofNat (strlen cmd))))
          (toViUInt32 (Int.ofNat (strlen cmd)))).1 ≠ VI_SUCCESS →
        (Write E w h cmd).1
          = statusError "VISA Error: "
              (E.viWrite w.st (toViUInt32 h) (cmd.take (toViUInt32 (Int.ofNat (strlen cmd))))
                (toViUInt32 (Int.ofNat (strlen cmd)))).1))
    ∧ (((E.viSetAttribute w.st (toViUInt32 h) (toViUInt32 attr) (toViAttrState value)).1
          = VI_SUCCESS →
        (SetAttribute E w h attr value).1.code = TclCode.TCL_OK)
      ∧ ((E.viSetAttribute w.st (toViUInt32 h) (toViUInt32 attr) (toViAttrState value)).1
          ≠ VI_SUCCESS →
        (SetAttribute E w h attr value).1
          = statusError "VISA set attribute error: "
              (E.viSetAttribute w.st (toViUInt32 h) (toViUInt32 attr) (toViAttrState value)).1))
    ∧ (((E.viGetAttribute w.st (toViUInt32 h) (toViUInt32 attr)).1.1 = VI_SUCCESS →
        (GetAttribute E w h attr).1.code = TclCode.TCL_OK)
      ∧ ((E.viGetAttribute w.st (toViUInt32 h) (toViUInt32 attr)).1.1 ≠ VI_SUCCESS →
        (GetAttribute E w h attr).1
          = statusError "VISA get attribute error: "
              (E.viGetAttribute w.st (toViUInt32 h) (toViUInt32 attr)).1.1))
    ∧ (((E.viSetAttribute w.st (toViUInt32 h) VI_ATTR_TMO_VALUE (toViAttrState timeout)).1
          = VI_SUCCESS →
        (SetTimeout E w h timeout).1.code = TclCode.TCL_OK)
      ∧ ((E.viSetAttribute w.st (toViUInt32 h) VI_ATTR_TMO_VALUE (toViAttrState timeout)).1
          ≠ VI_SUCCESS →
        (SetTimeout E w h timeout).1
          = statusError "VISA set timeout error: "
              (E.viSetAttribute w.st (toViUInt32 h) VI_ATTR_TMO_VALUE (toViAttrState timeout)).1))
    ∧ (((E.viGetAttribute w.st (toViUInt32 h) VI_ATTR_TMO_VALUE).1.1 = VI_SUCCESS →
        (GetTimeout E w h).1.code = TclCode.TCL_OK)
      ∧ ((E.viGetAttribute w.st (toViUInt32 h) VI_ATTR_TMO_VALUE).1.1 ≠ VI_SUCCESS →
        (GetTimeout E w h).1
          = statusError "VISA get timeout error: "
              (E.viGetAttribute w.st (toViUInt32 h) VI_ATTR_TMO_VALUE).1.1))
    ∧ (((E.viWrite w.st (toViUInt32 h) [42, 73, 68, 78, 63, 10] 6).1 = VI_SUCCESS →
        Idn E fuel w h
          = Idn_while E (toViUInt32 h) 1024 fuel
              (w.after (Call.viWrite (toViUInt32 h) [42, 73, 68, 78, 63, 10] 6)
                (E.viWrite w.st (toViUInt32 h) [42, 73, 68, 78, 63, 10] 6).2)
              (List.replicate 1024 0))
      ∧ ((E.viWrite w.st (toViUInt32 h) [42, 73, 68, 78, 63, 10] 6).1 ≠ VI_SUCCESS →
        retOf (Idn E fuel w h)
          = some (statusError "VISA write error: "
              (E.viWrite w.st (toViUInt32 h) [42, 73, 68, 78, 63, 10] 6).1))
      ∧ ((E.viRead w.st (toViUInt32 h) 1024).1.1 ≠ VI_SUCCESS →
        retOf (Idn_while E (toViUInt32 h) 1024 (fuel + 1) w response)
          = some (statusError "VISA read error: " (E.viRead w.st (toViUInt32 h) 1024).1.1))) := by
  have hcount : toViUInt32 (Int.ofNat (strlen idnQuery)) = 6 := by decide
  have htake : idnQuery.take 6 = [42, 73, 68, 78, 63, 10] := by decide
  refine ⟨⟨?_, ?_⟩, ⟨?_, ?_, ?_⟩, ⟨?_, ?_⟩, ⟨?_, ?_⟩, ⟨?_, ?_⟩, ⟨?_, ?_⟩, ⟨?_, ?_⟩, ⟨?_, ?_⟩,
    ⟨?_, ?_⟩, ⟨?_, ?_, ?_⟩⟩
  · intro h1; simp only [GetResourceManager, h1, if_true]
  · intro h1; simp only [GetResourceManager, h1, if_false]
  · intro h1 h2
    simp only [OpenResource, h1, ne_eq, not_true_eq_false, if_false, World.after, h2, if_true]
  · intro h1; simp only [OpenResource, ne_eq, h1, not_false_eq_true, if_true]
  · intro h1 h2
    simp only [OpenResource, h1, ne_eq, not_true_eq_false, if_false, World.after, h2]
  · intro h1; simp only [CloseResource, h1, if_true]
  · intro h1; simp only [CloseResource, h1, if_false]
  · intro h1; simp only [Stb, h1, if_true]
  · intro h1; simp only [Stb, h1, if_false]
  · intro h1; simp only [Write, h1, if_true]
  · intro h1; simp only [Write, h1, if_false]
  · intro h1; simp only [SetAttribute, h1, ne_eq, not_true_eq_false, if_false]
  · intro h1; simp only [SetAttribute, ne_eq, h1, not_false_eq_true, if_true]
  · intro h1; simp only [GetAttribute, h1, ne_eq, not_true_eq_false, if_false]
  · intro h1; simp only [GetAttribute, ne_eq, h1, not_false_eq_true, if_true]
  · intro h1; simp only [SetTimeout, h1, ne_eq, not_true_eq_false, if_false]
  · intro h1; simp only [SetTimeout, ne_eq, h1, not_false_eq_true, if_true]
  · intro h1; simp only [GetTimeout, h1, ne_eq, not_true_eq_false, if_false]
  · intro h1; simp only [GetTimeout, ne_eq, h1, not_false_eq_true, if_true]
  · intro h1
    simp only [Idn, hcount, htake, h1, ne_eq, not_true_eq_false, if_false]
  · intro h1
    simp only [Idn, hcount, htake, ne_eq, h1, not_false_eq_true, if_true, retOf, Option.map_some']
  · intro h1
    rw [Idn_fail E (toViUInt32 h) 1024 fuel w response h1]
    rfl

/-- C7, as stated, fails: when `viWrite` returns `VI_SUCCESS_MAX_CNT`, the
command `Write` returns `TCL_ERROR` with the text "VISA Error: 1073676294";
likewise `CloseResource` fails when `viClose` returns that status. -/
theorem C7_counterexample :
    (Write mockEnv ⟨scripted VI_SUCCESS_MAX_CNT [] [], []⟩ 7 [42, 82, 83, 84, 10]).1
      = ⟨TclCode.TCL_ERROR, TclObj.newStringObj "VISA Error: 1073676294"⟩
    ∧ (CloseResource mockEnv
        ⟨{ scripted VI_SUCCESS [] [] with close := VI_SUCCESS_MAX_CNT }, []⟩ 7).1
      = ⟨TclCode.TCL_ERROR, TclObj.newStringObj "VISA Error: 1073676294"⟩ := by
  decide

theorem C7_only_VI_SUCCESS_counts_as_success_witness :
    (Write mockEnv ⟨scripted VI_SUCCESS_MAX_CNT [] [], []⟩ 7 [42, 10]).1
      = statusError "VISA Error: "
          (mockEnv.viWrite (scripted VI_SUCCESS_MAX_CNT [] []) (toViUInt32 7)
            (([42, 10] : List Byte).take (toViUInt32 (Int.ofNat (strlen [42, 10]))))
            (toViUInt32 (Int.ofNat (strlen [42, 10])))).1 :=
  (C7_only_VI_SUCCESS_counts_as_success mockEnv ⟨scripted VI_SUCCESS_MAX_CNT [] [], []⟩
    7 1 [] [42, 10] [] 0 0 0 1).2.2.2.2.1.2 (by decide)

/-! ## C8: opening a session -/

/-- C8: for every resource-manager handle, address and environment, with
`viOpen` giving status `so` and handle `hdl`, and `viClear` on `hdl` (in the
state after the open) giving status `sc`: `OpenResource` returns a handle if
and only if `so` and `sc` are both `VI_SUCCESS`, and the handle returned is
`hdl`; if the open fails, `viClear` is never called and the error text
carries `so`; if the open succeeds and the clear fails, the command returns
`TCL_ERROR` with the text carrying `sc` and no handle. -/
theorem C8_OpenResource_open_then_clear (E : Env σ) (w : World σ) (rm : Int) (uri : List Byte)
    (so sc : ViStatus) (hdl : ViSession) (s1 s2 : σ)
    (hopen : E.viOpen w.st (toViUInt32 rm) uri = ((so, hdl), s1))
    (hclear : E.viClear s1 hdl = (sc, s2)) :
    ((∃ v : Int, (OpenResource E w rm uri).1 = ⟨TclCode.TCL_OK, TclObj.newLongObj v⟩)
        ↔ (so = VI_SUCCESS ∧ sc = VI_SUCCESS))
    ∧ ((OpenResource E w rm uri).1.code = TclCode.TCL_OK ↔ (so = VI_SUCCESS ∧ sc = VI_SUCCESS))
    ∧ (so = VI_SUCCESS → sc = VI_SUCCESS →
        OpenResource E w rm uri
          = (⟨TclCode.TCL_OK, TclObj.newLongObj (Int.ofNat hdl)⟩,
              ⟨s2, w.log ++ [Call.viOpen (toViUInt32 rm) uri, Call.viClear hdl]⟩))
    ∧ (so ≠ VI_SUCCESS →
        OpenResource E w rm uri
          = (statusError "VISA Error: " so, ⟨s1, w.log ++ [Call.viOpen (toViUInt32 rm) uri]⟩))
    ∧ (so = VI_SUCCESS → sc ≠ VI_SUCCESS →
        OpenResource E w rm uri
          = (statusError "VISA Error: " sc,
              ⟨s2, w.log ++ [Call.viOpen (toViUInt32 rm) uri, Call.viClear hdl]⟩)) := by
  have hok : so = VI_SUCCESS → sc = VI_SUCCESS →
      OpenResource E w rm uri
        = (⟨TclCode.TCL_OK, TclObj.newLongObj (Int.ofNat hdl)⟩,
            ⟨s2, w.log ++ [Call.viOpen (toViUInt32 rm) uri, Call.viClear hdl]⟩) := by
    intro h1 h2
    simp only [OpenResource, hopen, h1, ne_eq, not_true_eq_false, if_false, World.after, hclear,
      h2, if_true, List.append_assoc, List.singleton_append]
  have hfo : so ≠ VI_SUCCESS →
      OpenResource E w rm uri
        = (statusError "VISA Error: " so, ⟨s1, w.log ++ [Call.viOpen (toViUInt32 rm) uri]⟩) := by
    intro h1
    simp only [OpenResource, hopen, ne_eq, h1, not_false_eq_true, if_true, World.after]
  have hfc : so = VI_SUCCESS → sc ≠ VI_SUCCESS →
      OpenResource E w rm uri
        = (statusError "VISA Error: " sc,
            ⟨s2, w.log ++ [Call.viOpen (toViUInt32 rm) uri, Call.viClear hdl]⟩) := by
    intro h1 h2
    simp only [OpenResource, hopen, h1, ne_eq, not_true_eq_false, if_false, World.after, hclear,
      h2, List.append_assoc, List.singleton_append]
  have hcode : (OpenResource E w rm uri).1.code = TclCode.TCL_OK
      ↔ (so = VI_SUCCESS ∧ sc = VI_SUCCESS) := by
    constructor
    · intro hc
      by_cases h1 : so = VI_SUCCESS
      · by_cases h2 : sc = VI_SUCCESS
        · exact ⟨h1, h2⟩
        · rw [hfc h1 h2] at hc
          exact absurd hc (by simp [statusError])
      · rw [hfo h1] at hc
        exact absurd hc (by simp [statusError])
    · rintro ⟨h1, h2⟩
      rw [hok h1 h2]
  refine ⟨?_, hcode, hok, hfo, hfc⟩
  constructor
  · rintro ⟨v, hv⟩
    exact hcode.1 (by rw [hv])
  · rintro ⟨h1, h2⟩
    exact ⟨Int.ofNat hdl, by rw [hok h1 h2]⟩

theorem C8_OpenResource_open_then_clear_witness :
    OpenResource mockEnv ⟨{ scripted VI_SUCCESS [] [] with clear := VI_ERROR_TMO }, []⟩ 1
        [71, 80, 73, 66]
      = (statusError "VISA Error: " VI_ERROR_TMO,
          ⟨{ scripted VI_SUCCESS [] [] with clear := VI_ERROR_TMO },
            [] ++ [Call.viOpen (toViUInt32 1) [71, 80, 73, 66], Call.viClear 2]⟩) :=
  (C8_OpenResource_open_then_clear mockEnv
    ⟨{ scripted VI_SUCCESS [] [] with clear := VI_ERROR_TMO }, []⟩ 1 [71, 80, 73, 66]
    VI_SUCCESS VI_ERROR_TMO 2
    { scripted VI_SUCCESS [] [] with clear := VI_ERROR_TMO }
    { scripted VI_SUCCESS [] [] with clear := VI_ERROR_TMO } rfl rfl).2.2.2.2 rfl (by decide)

/-! ## C9: the timeout attribute -/

theorem timeout_value_roundtrip (millis : Int) (h0 : 0 ≤ millis) (h1 : millis < 2147483648) :
    toLong (toInt64 (Int.ofNat (toViAttrState millis))) = millis := by
  unfold toLong toInt64 toViAttrState
  have e : Int.ofNat (millis % 18446744073709551616).toNat = millis := by
    show ((millis % 18446744073709551616).toNat : Int) = millis
    omega
  rw [e]
  omega

/-- C9: against the scripted environment, which stores and retrieves
attribute values, for every session handle and every timeout `millis` with
`0 ≤ millis < 2^31`, `SetTimeout` succeeds and the `GetTimeout` that follows
returns exactly `millis`; the two commands address the same session with the
same attribute `VI_ATTR_TMO_VALUE`. -/
theorem C9_timeout_roundtrip (w : World Mock) (h millis : Int)
    (h0 : 0 ≤ millis) (h1 : millis < 2147483648) :
    (SetTimeout mockEnv w h millis).1 = ⟨TclCode.TCL_OK, TclObj.unset⟩
    ∧ (GetTimeout mockEnv (SetTimeout mockEnv w h millis).2 h).1
        = ⟨TclCode.TCL_OK, TclObj.newLongObj millis⟩
    ∧ (GetTimeout mockEnv (SetTimeout mockEnv w h millis).2 h).2.log
        = w.log ++ [Call.viSetAttribute (toViUInt32 h) VI_ATTR_TMO_VALUE millis.toNat,
            Call.viGetAttribute (toViUInt32 h) VI_ATTR_TMO_VALUE] := by
  have hv : toViAttrState millis = millis.toNat := by
    unfold toViAttrState
    congr 1
    omega
  have hl := timeout_value_roundtrip millis h0 h1
  refine ⟨?_, ?_, ?_⟩
  · simp [SetTimeout, mockEnv]
  · simp only [GetTimeout, SetTimeout, mockEnv, World.after, Mock.getAttr, List.lookup_cons,
      beq_self_eq_true, ne_eq, not_true_eq_false, if_false, hl]
  · simp [GetTimeout, SetTimeout, mockEnv, World.after, Mock.getAttr, hv]

theorem C9_timeout_roundtrip_witness :
    (GetTimeout mockEnv (SetTimeout mockEnv ⟨scripted VI_SUCCESS [] [], []⟩ 7 5000).2 7).1
      = ⟨TclCode.TCL_OK, TclObj.newLongObj 5000⟩ :=
  (C9_timeout_roundtrip ⟨scripted VI_SUCCESS [] [], []⟩ 7 5000 (by decide) (by decide)).2.1

/-! ## C10: the bytes handed to `viWrite` -/

theorem strlen_of_no_zero (cmd : List Byte) (hz : ∀ b ∈ cmd, b ≠ 0) : strlen cmd = cmd.length := by
  unfold strlen
  have : cmd.takeWhile (fun b => b != 0) = cmd := by
    rw [List.takeWhile_eq_self_iff]
    intro b hb
    simpa using hz b hb
  rw [this]

theorem toViUInt32_of_lt (n : Nat) (h : n < 4294967296) : toViUInt32 (Int.ofNat n) = n := by
  unfold toViUInt32
  show ((n : Int) % 4294967296).toNat = n
  omega

/-- The buffer and the count `Write` and `_WriteRead` pass to `viWrite`, for
a command without zero byte and shorter than `2^32` bytes. -/
theorem write_args (cmd : List Byte) (hz : ∀ b ∈ cmd, b ≠ 0) (hlen : cmd.length < 4294967296) :
    toViUInt32 (Int.ofNat (strlen cmd)) = cmd.length
    ∧ cmd.take (toViUInt32 (Int.ofNat (strlen cmd))) = cmd := by
  have h1 : toViUInt32 (Int.ofNat (strlen cmd)) = cmd.length := by
    rw [strlen_of_no_zero cmd hz, toViUInt32_of_lt _ hlen]
  exact ⟨h1, by rw [h1, List.take_length]⟩

/-- What `Write` and `_WriteRead` do with the memory at `cmd` when it holds
no zero byte before its end (and fewer than `2^32` bytes): `viWrite` is
handed exactly these bytes and their number. -/
theorem write_of_no_zero (E : Env σ) (buflen fuel : Nat)
    (w : World σ) (h : Int) (cmd : List Byte)
    (hz : ∀ b ∈ cmd, b ≠ 0) (hlen : cmd.length < 4294967296) :
    (Write E w h cmd).2
        = ⟨(E.viWrite w.st (toViUInt32 h) cmd cmd.length).2,
            w.log ++ [Call.viWrite (toViUInt32 h) cmd cmd.length]⟩
    ∧ ((E.malloc w.st buflen).1 = true →
        _WriteRead E buflen fuel w h cmd
          = if (E.viWrite (E.malloc w.st buflen).2 (toViUInt32 h) cmd cmd.length).1 ≠ VI_SUCCESS
            then
              some (statusError "VISA write error: "
                  (E.viWrite (E.malloc w.st buflen).2 (toViUInt32 h) cmd cmd.length).1,
                ⟨(E.viWrite (E.malloc w.st buflen).2 (toViUInt32 h) cmd cmd.length).2,
                  w.log ++ [Call.malloc buflen, Call.viWrite (toViUInt32 h) cmd cmd.length]⟩)
            else
              _WriteRead_while E (toViUInt32 h) buflen fuel
                ⟨(E.viWrite (E.malloc w.st buflen).2 (toViUInt32 h) cmd cmd.length).2,
                  w.log ++ [Call.malloc buflen, Call.viWrite (toViUInt32 h) cmd cmd.length]⟩
                (List.replicate buflen 0) 0 buflen 0) := by
  obtain ⟨hc, _⟩ := write_args cmd hz hlen
  constructor
  · simp only [Write, hc, List.take_length]
    split <;> rfl
  · intro hm
    have hwst : (w.after (Call.malloc buflen) (E.malloc w.st buflen).2).st
        = (E.malloc w.st buflen).2 := rfl
    simp only [_WriteRead, hm, hwst, hc, List.take_length, Bool.true_eq_false, if_false,
      World.after, List.append_assoc, List.singleton_append]

set_option maxRecDepth 100000 in
theorem utf8OfByte_ne_zero_fin : ∀ v : Fin 256, ∀ y ∈ utf8OfByte (UInt8.ofNat v.val), y ≠ 0 := by
  decide

/-- No byte of the string representation of a character is zero. -/
theorem utf8OfByte_ne_zero (b x : Byte) (hx : x ∈ utf8OfByte b) : x ≠ 0 := by
  have hb : UInt8.ofNat b.toNat = b := by
    cases b with
    | mk v => simp [UInt8.ofNat, UInt8.toNat]
  have key := utf8OfByte_ne_zero_fin ⟨b.toNat, UInt8.toNat_lt b⟩ x
  simp only [hb] at key
  exact key hx

/-- A byte in 1..127 is its own string representation. -/
theorem utf8OfByte_ascii (b : Byte) (h0 : b ≠ 0) (h1 : b < 128) : utf8OfByte b = [b] := by
  unfold utf8OfByte
  rw [if_neg h0, if_pos h1]

theorem Tcl_GetString_ne_zero (command : List Byte) : ∀ x ∈ Tcl_GetString command, x ≠ 0 := by
  intro x hx
  unfold Tcl_GetString at hx
  obtain ⟨b, _, hb⟩ := List.mem_flatMap.1 hx
  exact utf8OfByte_ne_zero b x hb

/-- The string representation of a command of bytes in 1..127 is the command. -/
theorem Tcl_GetString_ascii (command : List Byte)
    (ha : ∀ b ∈ command, b ≠ 0 ∧ b < 128) : Tcl_GetString command = command := by
  induction command with
  | nil => rfl
  | cons c cs ih =>
    have hc := ha c (List.mem_cons_self c cs)
    have hcs : ∀ b ∈ cs, b ≠ 0 ∧ b < 128 := fun b hb => ha b (List.mem_cons_of_mem c hb)
    have ih1 : Tcl_GetString cs = cs := ih hcs
    unfold Tcl_GetString at ih1 ⊢
    rw [List.flatMap_cons, utf8OfByte_ascii c hc.1 hc.2, ih1]
    rfl

/-- C10 (as amended): for every command argument whose bytes are all in
1..127 (and which is shorter than `2^32` bytes), `Write` and the write of
`_WriteRead` (so of `WriteRead` and `WriteReadBin`) hand to `viWrite` exactly
the bytes of the command and their number: nothing is appended, dropped or
altered.  For every command argument, with any bytes, what is handed to
`viWrite` is its string representation `Tcl_GetString command` and the
number of bytes of that. -/
theorem C10_write_sends_ascii_command_verbatim (E : Env σ) (buflen fuel : Nat)
    (w : World σ) (h : Int) (command : List Byte)
    (hlen : (Tcl_GetString command).length < 4294967296) :
    ((∀ b ∈ command, b ≠ 0 ∧ b < 128) →
      (Write_objv E w h command).2
          = ⟨(E.viWrite w.st (toViUInt32 h) command command.length).2,
              w.log ++ [Call.viWrite (toViUInt32 h) command command.length]⟩
      ∧ ((E.malloc w.st buflen).1 = true →
          _WriteRead_objv E buflen fuel w h command
            = if (E.viWrite (E.malloc w.st buflen).2 (toViUInt32 h) command
                  command.length).1 ≠ VI_SUCCESS
              then
                some (statusError "VISA write error: "
                    (E.viWrite (E.malloc w.st buflen).2 (toViUInt32 h) command
                      command.length).1,
                  ⟨(E.viWrite (E.malloc w.st buflen).2 (toViUInt32 h) command
                      command.length).2,
                    w.log ++ [Call.malloc buflen,
                      Call.viWrite (toViUInt32 h) command command.length]⟩)
              else
                _WriteRead_while E (toViUInt32 h) buflen fuel
                  ⟨(E.viWrite (E.malloc w.st buflen).2 (toViUInt32 h) command
                      command.length).2,
                    w.log ++ [Call.malloc buflen,
                      Call.viWrite (toViUInt32 h) command command.length]⟩
                  (List.replicate buflen 0) 0 buflen 0))
    ∧ (Write_objv E w h command).2.log
        = w.log ++ [Call.viWrite (toViUInt32 h) (Tcl_GetString command)
            (Tcl_GetString command).length]
    ∧ ((E.malloc w.st buflen).1 = true →
        (E.viWrite (E.malloc w.st buflen).2 (toViUInt32 h) (Tcl_GetString command)
          (Tcl_GetString command).length).1 ≠ VI_SUCCESS →
        logOf (_WriteRead_objv E buflen fuel w h command)
          = some (w.log ++ [Call.malloc buflen,
              Call.viWrite (toViUInt32 h) (Tcl_GetString command)
                (Tcl_GetString command).length])) := by
  have hgen := write_of_no_zero E buflen fuel w h (Tcl_GetString command)
    (Tcl_GetString_ne_zero command) hlen
  refine ⟨?_, ?_, ?_⟩
  · intro ha
    have he := Tcl_GetString_ascii command ha
    rw [he] at hgen
    unfold Write_objv _WriteRead_objv
    rw [he]
    exact hgen
  · unfold Write_objv
    rw [hgen.1]
  · intro hm hw
    unfold _WriteRead_objv
    rw [hgen.2 hm, if_pos hw]
    rfl

theorem C10_write_sends_ascii_command_verbatim_witness :
    (Write_objv mockEnv ⟨scripted VI_SUCCESS [] [], []⟩ 7 [42, 82, 83, 84, 10]).2
      = ⟨(mockEnv.viWrite (scripted VI_SUCCESS [] []) (toViUInt32 7) [42, 82, 83, 84, 10]
            ([42, 82, 83, 84, 10] : List Byte).length).2,
          [] ++ [Call.viWrite (toViUInt32 7) [42, 82, 83, 84, 10]
            ([42, 82, 83, 84, 10] : List Byte).length]⟩ :=
  ((C10_write_sends_ascii_command_verbatim mockEnv 1024 1 ⟨scripted VI_SUCCESS [] [], []⟩ 7
    [42, 82, 83, 84, 10] (by decide)).1 (by decide)).1

/-- C10, as stated, fails for a command with a zero byte or a byte above
127: the string representation that `Tcl_GetString` gives holds two bytes for
each of them.  The three bytes 65, 0, 66 reach `viWrite` as the four bytes
65, 192, 128, 66 with count 4, and the three bytes 42, 255, 10 as the four
bytes 42, 195, 191, 10 with count 4, from `Write` and from `_WriteRead`. -/
theorem C10_counterexample :
    (Write_objv mockEnv ⟨scripted VI_SUCCESS [] [], []⟩ 7 [65, 0, 66]).2.log
      = [Call.viWrite 7 [65, 192, 128, 66] 4]
    ∧ (Write_objv mockEnv ⟨scripted VI_SUCCESS [] [], []⟩ 7 [42, 255, 10]).2.log
      = [Call.viWrite 7 [42, 195, 191, 10] 4]
    ∧ logOf (_WriteRead_objv mockEnv 4 1 ⟨scripted VI_SUCCESS [(VI_SUCCESS, [1])] [], []⟩ 7
        [65, 0, 66])
      = some [Call.malloc 4, Call.viWrite 7 [65, 192, 128, 66] 4, Call.viRead 7 4] := by
  decide

/-! ## C11: failure of an allocation -/

/-- The "Out of memory" result differs from the error result of a failed
VISA call, whatever the status, when the label starts with another letter
than `O`. -/
theorem outOfMemory_ne_statusError (label : String) (s : ViStatus) (c : Char) (cs : List Char)
    (hl : label.data = c :: cs) (hc : c ≠ 'O') : outOfMemory ≠ statusError label s := by
  intro hEq
  unfold outOfMemory statusError snprintf STATUS_TXT_LEN at hEq
  injection hEq with _ h2
  injection h2 with h3
  have h4 := congrArg String.data h3
  rw [String.data_append, hl] at h4
  simp only [List.cons_append, Nat.add_one_sub_one, List.take_succ_cons] at h4
  injection h4 with h6 _
  exact hc h6.symm

/-- The text of the error result of a failed VISA call starts with the first
character of its label. -/
theorem statusError_text (label : String) (s : ViStatus) (c : Char) (cs : List Char)
    (hl : label.data = c :: cs) :
    statusError label s
      = ⟨TclCode.TCL_ERROR,
          TclObj.newStringObj (String.mk (c :: (cs ++ (toString s).data).take 98))⟩ := by
  unfold statusError snprintf STATUS_TXT_LEN
  rw [String.data_append, hl]
  rfl

/-- C11: in `_WriteRead` (any chunk size) and in `Read`, for every
environment: when the initial `malloc` fails the command returns `TCL_ERROR`
with the text "Out of memory" and has made no VISA call; when the `realloc`
that grows the block by `buflen` fails, the command returns `TCL_ERROR` with
"Out of memory" and the `realloc` is its last call, no read follows.  That
result is no byte array, and it differs from the error result of a failed
VISA call for every status and every error label of the commands; the text
of a failed read or write starts with `V`. -/
theorem C11_allocation_failure_is_out_of_memory (E : Env σ) (vi : ViSession)
    (buflen fuel : Nat) (w : World σ) (h : Int) (cmd buf : List Byte) (bp total sum : Nat)
    (s : ViStatus) :
    ((E.malloc w.st buflen).1 = false →
      _WriteRead E buflen fuel w h cmd
        = some (⟨TclCode.TCL_ERROR, TclObj.newStringObj "Out of memory"⟩,
            ⟨(E.malloc w.st buflen).2, w.log ++ [Call.malloc buflen]⟩))
    ∧ ((E.malloc w.st 1024).1 = false →
      Read E fuel w h
        = some (⟨TclCode.TCL_ERROR, TclObj.newStringObj "Out of memory"⟩,
            ⟨(E.malloc w.st 1024).2, w.log ++ [Call.malloc 1024]⟩))
    ∧ ((E.viRead w.st vi buflen).1.1 = VI_SUCCESS →
      ¬ (E.viRead w.st vi buflen).1.2.length < buflen →
      (E.realloc (E.viRead w.st vi buflen).2 (total + buflen)).1 = false →
      _WriteRead_while E vi buflen (fuel + 1) w buf bp total sum
        = some (⟨TclCode.TCL_ERROR, TclObj.newStringObj "Out of memory"⟩,
            ⟨(E.realloc (E.viRead w.st vi buflen).2 (total + buflen)).2,
              w.log ++ [Call.viRead vi buflen, Call.realloc (total + buflen)]⟩)
      ∧ Read_while E vi buflen (fuel + 1) w buf bp total sum
        = some (⟨TclCode.TCL_ERROR, TclObj.newStringObj "Out of memory"⟩,
            ⟨(E.realloc (E.viRead w.st vi buflen).2 (total + buflen)).2,
              w.log ++ [Call.viRead vi buflen, Call.realloc (total + buflen)]⟩))
    ∧ ((⟨TclCode.TCL_ERROR, TclObj.newStringObj "Out of memory"⟩ : Ret)
          ≠ statusError "VISA Error: " s
      ∧ (⟨TclCode.TCL_ERROR, TclObj.newStringObj "Out of memory"⟩ : Ret)
          ≠ statusError "VISA write error: " s
      ∧ (⟨TclCode.TCL_ERROR, TclObj.newStringObj "Out of memory"⟩ : Ret)
          ≠ statusError "VISA read error: " s
      ∧ (⟨TclCode.TCL_ERROR, TclObj.newStringObj "Out of memory"⟩ : Ret)
          ≠ statusError "VISA set attribute error: " s
      ∧ (⟨TclCode.TCL_ERROR, TclObj.newStringObj "Out of memory"⟩ : Ret)
          ≠ statusError "VISA get attribute error: " s
      ∧ (⟨TclCode.TCL_ERROR, TclObj.newStringObj "Out of memory"⟩ : Ret)
          ≠ statusError "VISA set timeout error: " s
      ∧ (⟨TclCode.TCL_ERROR, TclObj.newStringObj "Out of memory"⟩ : Ret)
          ≠ statusError "VISA get timeout error: " s)
    ∧ (∀ bytes : List Byte,
        (⟨TclCode.TCL_ERROR, TclObj.newStringObj "Out of memory"⟩ : Ret) ≠ okBytes bytes
        ∧ TclObj.newStringObj "Out of memory" ≠ TclObj.newByteArrayObj bytes)
    ∧ statusError "VISA read error: " s
        = ⟨TclCode.TCL_ERROR, TclObj.newStringObj
            (String.mk ('V' :: ("ISA read error: ".data ++ (toString s).data).take 98))⟩
    ∧ statusError "VISA write error: " s
        = ⟨TclCode.TCL_ERROR, TclObj.newStringObj
            (String.mk ('V' :: ("ISA write error: ".data ++ (toString s).data).take 98))⟩ := by
  have hV : ('V' : Char) ≠ 'O' := by decide
  refine ⟨?_, ?_, ?_, ⟨?_, ?_, ?_, ?_, ?_, ?_, ?_⟩, ?_, statusError_text _ s 'V' _ rfl,
    statusError_text _ s 'V' _ rfl⟩
  · intro hm
    simp only [_WriteRead, hm, if_true, World.after, outOfMemory]
  · intro hm
    simp only [Read, hm, if_true, World.after, outOfMemory]
  · intro h1 h2 h3
    have hrun := while_nomem E vi buflen fuel w buf bp total sum h1 h2 h3
    refine ⟨?_, ?_⟩
    · rw [hrun]
      simp only [World.after, List.append_assoc, List.singleton_append, outOfMemory]
    · rw [Read_while_eq, hrun]
      simp only [World.after, List.append_assoc, List.singleton_append, outOfMemory]
  · exact outOfMemory_ne_statusError _ s 'V' _ rfl hV
  · exact outOfMemory_ne_statusError _ s 'V' _ rfl hV
  · exact outOfMemory_ne_statusError _ s 'V' _ rfl hV
  · exact outOfMemory_ne_statusError _ s 'V' _ rfl hV
  · exact outOfMemory_ne_statusError _ s 'V' _ rfl hV
  · exact outOfMemory_ne_statusError _ s 'V' _ rfl hV
  · exact outOfMemory_ne_statusError _ s 'V' _ rfl hV
  · intro bytes
    constructor
    · intro hEq
      have hcode := congrArg Ret.code hEq
      exact absurd hcode (by simp [okBytes])
    · intro hEq
      exact TclObj.noConfusion hEq

theorem C11_allocation_failure_is_out_of_memory_witness :
    _WriteRead_while mockEnv 7 2 (0 + 1)
        ⟨scripted VI_SUCCESS [(VI_SUCCESS, [1, 2]), (VI_SUCCESS, [3])] [false], []⟩ [0, 0] 0 2 0
      = some (⟨TclCode.TCL_ERROR, TclObj.newStringObj "Out of memory"⟩,
          ⟨(mockEnv.realloc (mockEnv.viRead
              (scripted VI_SUCCESS [(VI_SUCCESS, [1, 2]), (VI_SUCCESS, [3])] [false]) 7 2).2
              (2 + 2)).2,
            [] ++ [Call.viRead 7 2, Call.realloc (2 + 2)]⟩) :=
  ((C11_allocation_failure_is_out_of_memory mockEnv 7 2 0
    ⟨scripted VI_SUCCESS [(VI_SUCCESS, [1, 2]), (VI_SUCCESS, [3])] [false], []⟩ 7 [] [0, 0]
    0 2 0 0).2.2.1 rfl (by decide) rfl).1

/-! ## C12: attribute values -/

theorem toInt64_toViAttrState (i : Int) (h0 : -2147483648 ≤ i) (h1 : i < 2147483648) :
    toInt64 (Int.ofNat (toViAttrState i)) = i := by
  unfold toInt64 toViAttrState
  have e : Int.ofNat (i % 18446744073709551616).toNat = i % 18446744073709551616 := by
    show ((i % 18446744073709551616).toNat : Int) = i % 18446744073709551616
    omega
  rw [e]
  omega

theorem toInt64_idem (x : Int) : toInt64 (toInt64 x) = toInt64 x := by
  unfold toInt64
  omega

theorem toInt_of_int (v : Int) (h0 : -2147483648 ≤ v) (h1 : v < 2147483648) : toInt v = v := by
  unfold toInt
  omega

/-- C12 (as amended): the value of `SetAttribute` passes through a C `int`.
For every environment, attribute id and value `v` that the conversion to
`int` accepts, giving the `int` `i` (so `-2^31 ≤ i < 2^31`), `SetAttribute`
hands to `viSetAttribute` exactly `i` converted to the unsigned 64-bit
`ViAttrState` (the 64 bits are those of the signed value `i`; for `0 ≤ i`
the number `i` itself); `GetAttribute` returns exactly the signed 64-bit
value the transport reports; hence against the storing environment
`SetAttribute` followed by `GetAttribute` returns `i`, which is `v` for every
`v` of the `int` range, with the conversion of either source file. -/
theorem C12_attribute_value_passes_through_an_int (getInt : Int → Except String Int)
    (E : Env σ) (w : World σ) (h id v attr i : Int)
    (hid : getInt id = Except.ok attr) (hv : getInt v = Except.ok i)
    (hi0 : -2147483648 ≤ i) (hi1 : i < 2147483648) :
    (SetAttribute_objv getInt E w h id v).2.log
        = w.log ++ [Call.viSetAttribute (toViUInt32 h) (toViUInt32 attr) (toViAttrState i)]
    ∧ toInt64 (Int.ofNat (toViAttrState i)) = i
    ∧ (0 ≤ i → toViAttrState i = i.toNat)
    ∧ ((E.viGetAttribute w.st (toViUInt32 h) (toViUInt32 attr)).1.1 = VI_SUCCESS →
        (GetAttribute_objv getInt E w h id).1
          = ⟨TclCode.TCL_OK, TclObj.newLongObj
              (toInt64 (Int.ofNat (E.viGetAttribute w.st (toViUInt32 h) (toViUInt32 attr)).1.2))⟩)
    ∧ (∀ m : World Mock,
        (SetAttribute_objv getInt mockEnv m h id v).1 = ⟨TclCode.TCL_OK, TclObj.unset⟩
        ∧ (GetAttribute_objv getInt mockEnv (SetAttribute_objv getInt mockEnv m h id v).2 h id).1
          = ⟨TclCode.TCL_OK, TclObj.newLongObj i⟩)
    ∧ (-2147483648 ≤ v → v < 2147483648 →
        Tcl_GetIntFromObj v = Except.ok v ∧ atolInt v = Except.ok v) := by
  have hrt := toInt64_toViAttrState i hi0 hi1
  have hrt2 : toInt64 i = i := by unfold toInt64; omega
  refine ⟨?_, hrt, ?_, ?_, ?_, ?_⟩
  · simp only [SetAttribute_objv, hid, hv, SetAttribute, World.after]
    split <;> rfl
  · intro h0
    unfold toViAttrState
    have e : i % 18446744073709551616 = i := by omega
    rw [e]
  · intro hs
    simp only [GetAttribute_objv, hid, GetAttribute, hs, ne_eq, not_true_eq_false, if_false,
      toLong, toInt64_idem]
  · intro m
    constructor
    · simp only [SetAttribute_objv, hid, hv, SetAttribute, mockEnv, ne_eq, not_true_eq_false,
        if_false]
    · simp only [GetAttribute_objv, SetAttribute_objv, hid, hv, GetAttribute, SetAttribute,
        mockEnv, World.after, Mock.getAttr, List.lookup_cons, beq_self_eq_true, ne_eq,
        not_true_eq_false, if_false, toLong, toInt64_idem, hrt, hrt2]
  · intro h0 h1
    constructor
    · have hno : ¬ (v > 4294967295 ∨ v < -4294967295) := by omega
      simp only [Tcl_GetIntFromObj, hno, if_false, toInt_of_int v h0 h1]
    · have ha : atol v = v := by
        unfold atol
        rw [if_neg (by omega), if_neg (by omega)]
      simp only [atolInt, ha, toInt_of_int v h0 h1]

theorem C12_attribute_value_passes_through_an_int_witness :
    (GetAttribute_objv Tcl_GetIntFromObj mockEnv
        (SetAttribute_objv Tcl_GetIntFromObj mockEnv ⟨scripted VI_SUCCESS [] [], []⟩
          7 1073676314 (-3)).2 7 1073676314).1
      = ⟨TclCode.TCL_OK, TclObj.newLongObj (-3)⟩ :=
  ((C12_attribute_value_passes_through_an_int Tcl_GetIntFromObj mockEnv
    ⟨scripted VI_SUCCESS [] [], []⟩ 7 1073676314 (-3) 1073676314 (-3)
    (by unfold Tcl_GetIntFromObj; rw [if_neg (by decide)]; exact congrArg Except.ok (by decide))
    (by unfold Tcl_GetIntFromObj; rw [if_neg (by decide)]; exact congrArg Except.ok (by decide))
    (by decide) (by decide)).2.2.2.2.1 ⟨scripted VI_SUCCESS [] [], []⟩).2

/-- C12, as stated, fails for values outside the `int` range.  With the
conversion of `src/generic/rsvisa.cpp` the value `2^40` is refused and
`viSetAttribute` is never called; with the conversion of `src/tclrsvisa.cpp`
the value `2^32 + 5` reaches `viSetAttribute` as `5`, and the `GetAttribute`
that follows returns `5`. -/
theorem C12_counterexample :
    (SetAttribute_objv Tcl_GetIntFromObj mockEnv ⟨scripted VI_SUCCESS [] [], []⟩
        7 1073676314 1099511627776).1
      = ⟨TclCode.TCL_ERROR, TclObj.newStringObj "integer value too large to represent"⟩
    ∧ (SetAttribute_objv Tcl_GetIntFromObj mockEnv ⟨scripted VI_SUCCESS [] [], []⟩
        7 1073676314 1099511627776).2.log = []
    ∧ (SetAttribute_objv atolInt mockEnv ⟨scripted VI_SUCCESS [] [], []⟩
        7 1073676314 4294967301).2.log
      = [Call.viSetAttribute 7 1073676314 5]
    ∧ (GetAttribute_objv atolInt mockEnv
        (SetAttribute_objv atolInt mockEnv ⟨scripted VI_SUCCESS [] [], []⟩
          7 1073676314 4294967301).2 7 1073676314).1
      = ⟨TclCode.TCL_OK, TclObj.newLongObj 5⟩ := by
  decide

/-! ## C13: the size of the block -/

/-- One round that goes on, from a block of `(k + 1) * buflen` bytes with the
read pointer at `k * buflen`: the next round has a block of
`(k + 2) * buflen` bytes, the read pointer at `(k + 1) * buflen`, and the
bytes stored before are still there, followed by the chunk just read. -/
theorem while_grow (E : Env σ) (vi : ViSession) (buflen fuel k : Nat) (w : World σ)
    (buf : List Byte)
    (hcap : buf.length = (k + 1) * buflen)
    (hst : (E.viRead w.st vi buflen).1.1 = VI_SUCCESS)
    (hfull : (E.viRead w.st vi buflen).1.2.length = buflen)
    (hal : (E.realloc (E.viRead w.st vi buflen).2 ((k + 2) * buflen)).1 = true) :
    ∃ buf1 : List Byte,
      buf1.length = (k + 2) * buflen
      ∧ buf1.take (k * buflen) = buf.take (k * buflen)
      ∧ buf1.take ((k + 1) * buflen) = buf.take (k * buflen) ++ (E.viRead w.st vi buflen).1.2
      ∧ _WriteRead_while E vi buflen (fuel + 1) w buf (k * buflen) ((k + 1) * buflen)
            (k * buflen)
          = _WriteRead_while E vi buflen fuel
              ⟨(E.realloc (E.viRead w.st vi buflen).2 ((k + 2) * buflen)).2,
                w.log ++ [Call.viRead vi buflen, Call.realloc ((k + 2) * buflen)]⟩
              buf1 ((k + 1) * buflen) ((k + 2) * buflen) ((k + 1) * buflen) := by
  have e1 : (k + 1) * buflen + buflen = (k + 2) * buflen := by ring
  have e2 : k * buflen + buflen = (k + 1) * buflen := by ring
  have hoff : k * buflen ≤ buf.length := by rw [hcap, ← e2]; exact Nat.le_add_right _ _
  have hwl : (writeAt buf (k * buflen) (E.viRead w.st vi buflen).1.2).length = buf.length :=
    writeAt_length _ _ _ (by rw [hfull, e2, hcap])
  have hwa : writeAt buf (k * buflen) (E.viRead w.st vi buflen).1.2
      = buf.take (k * buflen) ++ (E.viRead w.st vi buflen).1.2 := by
    have ht := writeAt_take buf (E.viRead w.st vi buflen).1.2 (k * buflen) hoff
    rw [← ht, List.take_of_length_le]
    rw [hwl, hfull, e2, hcap]
  have hpl : (buf.take (k * buflen) ++ (E.viRead w.st vi buflen).1.2).length
      = (k + 1) * buflen := by
    rw [← hwa, hwl, hcap]
  have hstep := while_continue E vi buflen fuel w buf (k * buflen) ((k + 1) * buflen)
    (k * buflen) hst (by rw [hfull]; exact Nat.lt_irrefl _) (by rw [e1]; exact hal)
  rw [hfull, e1, e2] at hstep
  refine ⟨writeAt buf (k * buflen) (E.viRead w.st vi buflen).1.2 ++ List.replicate buflen 0,
    ?_, ?_, ?_, ?_⟩
  · rw [List.length_append, hwl, hcap, List.length_replicate, e1]
  · rw [hwa, List.append_assoc, List.take_append_of_le_length (by
      rw [List.length_take]; exact Nat.le_min.2 ⟨Nat.le_refl _, hoff⟩)]
    rw [List.take_take, Nat.min_self]
  · rw [hwa, ← hpl, List.take_left]
  · rw [hstep]
    simp only [World.after, List.append_assoc, List.singleton_append]

/-- A round that leaves the loop gives the index `sum` of `buf[sum] = 0;`
and the size of the block at that moment. -/
theorem exit_break (E : Env σ) (vi : ViSession) (buflen fuel : Nat) (w : World σ)
    (total sum : Nat)
    (hst : (E.viRead w.st vi buflen).1.1 = VI_SUCCESS
      ∨ (E.viRead w.st vi buflen).1.1 = VI_SUCCESS_MAX_CNT)
    (hbr : (E.viRead w.st vi buflen).1.2.length < buflen
      ∨ (E.viRead w.st vi buflen).1.1 = VI_SUCCESS_MAX_CNT) :
    _WriteRead_while_exit E vi buflen (fuel + 1) w total sum
      = some (sum + (E.viRead w.st vi buflen).1.2.length, total) := by
  have hnf : ¬ ((E.viRead w.st vi buflen).1.1 ≠ VI_SUCCESS
      ∧ (E.viRead w.st vi buflen).1.1 ≠ VI_SUCCESS_MAX_CNT) := by
    rcases hst with h | h <;> simp [h]
  simp only [_WriteRead_while_exit, if_neg hnf, if_pos hbr]

/-- A round that goes on, observed at the terminating zero. -/
theorem exit_continue (E : Env σ) (vi : ViSession) (buflen fuel : Nat) (w : World σ)
    (total sum : Nat)
    (hst : (E.viRead w.st vi buflen).1.1 = VI_SUCCESS)
    (hlen : ¬ (E.viRead w.st vi buflen).1.2.length < buflen)
    (hal : (E.realloc (E.viRead w.st vi buflen).2 (total + buflen)).1 = true) :
    _WriteRead_while_exit E vi buflen (fuel + 1) w total sum
      = _WriteRead_while_exit E vi buflen fuel
          ((w.after (Call.viRead vi buflen) (E.viRead w.st vi buflen).2).after
            (Call.realloc (total + buflen))
            (E.realloc (E.viRead w.st vi buflen).2 (total + buflen)).2)
          (total + buflen) (sum + (E.viRead w.st vi buflen).1.2.length) := by
  have hne : VI_SUCCESS ≠ VI_SUCCESS_MAX_CNT := by decide
  have hnf : ¬ ((E.viRead w.st vi buflen).1.1 ≠ VI_SUCCESS
      ∧ (E.viRead w.st vi buflen).1.1 ≠ VI_SUCCESS_MAX_CNT) := by simp [hst]
  have hnb : ¬ ((E.viRead w.st vi buflen).1.2.length < buflen
      ∨ (E.viRead w.st vi buflen).1.1 = VI_SUCCESS_MAX_CNT) := by
    rw [hst]; simp [hlen, hne]
  have hw : (w.after (Call.viRead vi buflen) (E.viRead w.st vi buflen).2).st
      = (E.viRead w.st vi buflen).2 := rfl
  simp only [_WriteRead_while_exit, if_neg hnf, if_neg hnb, hw, hal]
  simp

/-- A round that ends the loop, observed at its read. -/
theorem reads_stop (E : Env σ) (vi : ViSession) (buflen fuel : Nat) (w : World σ)
    (bp total sum : Nat)
    (hend : ((E.viRead w.st vi buflen).1.1 ≠ VI_SUCCESS
        ∧ (E.viRead w.st vi buflen).1.1 ≠ VI_SUCCESS_MAX_CNT)
      ∨ (E.viRead w.st vi buflen).1.2.length < buflen
      ∨ (E.viRead w.st vi buflen).1.1 = VI_SUCCESS_MAX_CNT) :
    _WriteRead_while_reads E vi buflen (fuel + 1) w bp total sum = some [(bp, total)] := by
  by_cases hf : (E.viRead w.st vi buflen).1.1 ≠ VI_SUCCESS
      ∧ (E.viRead w.st vi buflen).1.1 ≠ VI_SUCCESS_MAX_CNT
  · simp only [_WriteRead_while_reads, if_pos hf]
  · simp only [_WriteRead_while_reads, if_neg hf, if_pos (hend.resolve_left hf)]

/-- A round that goes on, observed at its read. -/
theorem reads_continue (E : Env σ) (vi : ViSession) (buflen fuel : Nat) (w : World σ)
    (bp total sum : Nat)
    (hst : (E.viRead w.st vi buflen).1.1 = VI_SUCCESS)
    (hlen : ¬ (E.viRead w.st vi buflen).1.2.length < buflen)
    (hal : (E.realloc (E.viRead w.st vi buflen).2 (total + buflen)).1 = true) :
    _WriteRead_while_reads E vi buflen (fuel + 1) w bp total sum
      = (_WriteRead_while_reads E vi buflen fuel
          ((w.after (Call.viRead vi buflen) (E.viRead w.st vi buflen).2).after
            (Call.realloc (total + buflen))
            (E.realloc (E.viRead w.st vi buflen).2 (total + buflen)).2)
          (sum + (E.viRead w.st vi buflen).1.2.length) (total + buflen)
          (sum + (E.viRead w.st vi buflen).1.2.length)).map (fun l => (bp, total) :: l) := by
  have hne : VI_SUCCESS ≠ VI_SUCCESS_MAX_CNT := by decide
  have hnf : ¬ ((E.viRead w.st vi buflen).1.1 ≠ VI_SUCCESS
      ∧ (E.viRead w.st vi buflen).1.1 ≠ VI_SUCCESS_MAX_CNT) := by simp [hst]
  have hnb : ¬ ((E.viRead w.st vi buflen).1.2.length < buflen
      ∨ (E.viRead w.st vi buflen).1.1 = VI_SUCCESS_MAX_CNT) := by
    rw [hst]; simp [hlen, hne]
  have hw : (w.after (Call.viRead vi buflen) (E.viRead w.st vi buflen).2).st
      = (E.viRead w.st vi buflen).2 := rfl
  simp only [_WriteRead_while_reads, if_neg hnf, if_neg hnb, hw, hal]
  simp

/-- A round whose `realloc` fails, observed at its read. -/
theorem reads_nomem (E : Env σ) (vi : ViSession) (buflen fuel : Nat) (w : World σ)
    (bp total sum : Nat)
    (hst : (E.viRead w.st vi buflen).1.1 = VI_SUCCESS)
    (hlen : ¬ (E.viRead w.st vi buflen).1.2.length < buflen)
    (hal : (E.realloc (E.viRead w.st vi buflen).2 (total + buflen)).1 = false) :
    _WriteRead_while_reads E vi buflen (fuel + 1) w bp total sum = some [(bp, total)] := by
  have hne : VI_SUCCESS ≠ VI_SUCCESS_MAX_CNT := by decide
  have hnf : ¬ ((E.viRead w.st vi buflen).1.1 ≠ VI_SUCCESS
      ∧ (E.viRead w.st vi buflen).1.1 ≠ VI_SUCCESS_MAX_CNT) := by simp [hst]
  have hnb : ¬ ((E.viRead w.st vi buflen).1.2.length < buflen
      ∨ (E.viRead w.st vi buflen).1.1 = VI_SUCCESS_MAX_CNT) := by
    rw [hst]; simp [hlen, hne]
  have hw : (w.after (Call.viRead vi buflen) (E.viRead w.st vi buflen).2).st
      = (E.viRead w.st vi buflen).2 := rfl
  simp only [_WriteRead_while_reads, if_neg hnf, if_neg hnb, hw, hal, if_true]

/-- In every environment whose reads deliver at most `buflen` bytes, a run of
the loop entered with the read pointer at `k * buflen` in a block of
`(k + 1) * buflen` bytes makes its read number `j + 1` with the pointer at
`(k + j) * buflen` in a block of `(k + j + 1) * buflen` bytes. -/
theorem reads_invariant (E : Env σ) (vi : ViSession) (buflen : Nat)
    (hcount : ∀ s : σ, (E.viRead s vi buflen).1.2.length ≤ buflen) :
    ∀ (fuel : Nat) (w : World σ) (k : Nat) (l : List (Nat × Nat)),
      _WriteRead_while_reads E vi buflen fuel w (k * buflen) ((k + 1) * buflen) (k * buflen)
        = some l →
      l = (List.range l.length).map (fun j => ((k + j) * buflen, (k + j + 1) * buflen)) := by
  intro fuel
  induction fuel with
  | zero =>
    intro w k l hrun
    simp [_WriteRead_while_reads] at hrun
  | succ f ih =>
    intro w k l hrun
    have hone : ∀ l : List (Nat × Nat), [(k * buflen, (k + 1) * buflen)] = l →
        l = (List.range l.length).map (fun j => ((k + j) * buflen, (k + j + 1) * buflen)) := by
      intro l hl
      subst hl
      rw [List.length_singleton, show List.range 1 = [0] from rfl]
      simp
    by_cases hend : ((E.viRead w.st vi buflen).1.1 ≠ VI_SUCCESS
          ∧ (E.viRead w.st vi buflen).1.1 ≠ VI_SUCCESS_MAX_CNT)
        ∨ (E.viRead w.st vi buflen).1.2.length < buflen
        ∨ (E.viRead w.st vi buflen).1.1 = VI_SUCCESS_MAX_CNT
    · rw [reads_stop E vi buflen f w _ _ _ hend] at hrun
      exact hone l (Option.some.inj hrun)
    · have hlen : ¬ (E.viRead w.st vi buflen).1.2.length < buflen :=
        fun hx => hend (Or.inr (Or.inl hx))
      have hnm : ¬ (E.viRead w.st vi buflen).1.1 = VI_SUCCESS_MAX_CNT :=
        fun hx => hend (Or.inr (Or.inr hx))
      have hst : (E.viRead w.st vi buflen).1.1 = VI_SUCCESS := by
        by_contra hne
        exact hend (Or.inl ⟨hne, hnm⟩)
      have hfull : (E.viRead w.st vi buflen).1.2.length = buflen :=
        Nat.le_antisymm (hcount w.st) (Nat.le_of_not_lt hlen)
      by_cases hal : (E.realloc (E.viRead w.st vi buflen).2 ((k + 1) * buflen + buflen)).1 = true
      · rw [reads_continue E vi buflen f w _ _ _ hst hlen hal, hfull] at hrun
        have e1 : k * buflen + buflen = (k + 1) * buflen := by ring
        have e2 : (k + 1) * buflen + buflen = (k + 1 + 1) * buflen := by ring
        rw [e1, e2] at hrun
        cases hrec : _WriteRead_while_reads E vi buflen f
            ((w.after (Call.viRead vi buflen) (E.viRead w.st vi buflen).2).after
              (Call.realloc ((k + 1 + 1) * buflen))
              (E.realloc (E.viRead w.st vi buflen).2 ((k + 1 + 1) * buflen)).2)
            ((k + 1) * buflen) ((k + 1 + 1) * buflen) ((k + 1) * buflen) with
        | none =>
          rw [hrec] at hrun
          exact absurd hrun (by simp)
        | some l1 =>
          rw [hrec] at hrun
          have hl : (k * buflen, (k + 1) * buflen) :: l1 = l := Option.some.inj hrun
          have h1 := ih _ (k + 1) l1 hrec
          subst hl
          rw [List.length_cons, List.range_succ_eq_map, List.map_cons, List.map_map]
          have hf : ((fun j => ((k + j) * buflen, (k + j + 1) * buflen)) ∘ Nat.succ)
              = (fun j => ((k + 1 + j) * buflen, (k + 1 + j + 1) * buflen)) := by
            funext j
            simp only [Function.comp, Nat.succ_eq_add_one]
            exact Prod.ext (by simp only []; ring) (by simp only []; ring)
          rw [hf, ← h1]
          simp
      · have hal2 : (E.realloc (E.viRead w.st vi buflen).2 ((k + 1) * buflen + buflen)).1
            = false := by simpa using hal
        rw [reads_nomem E vi buflen f w _ _ _ hst hlen hal2] at hrun
        exact hone l (Option.some.inj hrun)

/-- The calls of the rounds that go on, written out: the round number `j`
(from 0) reads and then asks `realloc` for `total + (j + 1) * buflen` bytes. -/
theorem roundsLog_eq (vi : ViSession) (buflen : Nat) :
    ∀ (k total : Nat), roundsLog vi buflen k total
      = (List.range k).flatMap
          (fun j => [Call.viRead vi buflen, Call.realloc (total + (j + 1) * buflen)]) := by
  intro k
  induction k with
  | zero => intro total; rfl
  | succ k ih =>
    intro total
    rw [roundsLog, ih (total + buflen), List.range_succ_eq_map, List.flatMap_cons,
      List.flatMap_map]
    have hf : (fun j => [Call.viRead vi buflen, Call.realloc (total + buflen + (j + 1) * buflen)])
        = (fun j => [Call.viRead vi buflen, Call.realloc (total + (j + 1 + 1) * buflen)]) := by
      funext j
      have e : total + buflen + (j + 1) * buflen = total + (j + 1 + 1) * buflen := by ring
      rw [e]
    rw [hf]
    simp

/-- The block and the read pointer at each scripted read, and the index of
the terminating zero: after `j` full chunks the read pointer is `j * buflen`
further and the block `j * buflen` larger. -/
theorem mock_observed_rounds (vi : ViSession) (buflen : Nat) (st : ViStatus) (last : List Byte)
    (rest : List (ViStatus × List Byte)) (fuel : Nat)
    (hend : (st ≠ VI_SUCCESS ∧ st ≠ VI_SUCCESS_MAX_CNT) ∨ last.length < buflen
      ∨ st = VI_SUCCESS_MAX_CNT) :
    ∀ (fulls : List (List Byte)) (w : World Mock) (total sum : Nat),
      (∀ c ∈ fulls, c.length = buflen) →
      w.st.reads = successReads fulls ++ (st, last) :: rest →
      (∀ b ∈ w.st.allocs.take fulls.length, b = true) →
      _WriteRead_while_reads mockEnv vi buflen (fulls.length + (fuel + 1)) w sum total sum
        = some ((List.range (fulls.length + 1)).map
            (fun j => (sum + j * buflen, total + j * buflen)))
      ∧ (st = VI_SUCCESS ∨ st = VI_SUCCESS_MAX_CNT →
        _WriteRead_while_exit mockEnv vi buflen (fulls.length + (fuel + 1)) w total sum
          = some (sum + fulls.length * buflen + last.length, total + fulls.length * buflen)) := by
  intro fulls
  induction fulls with
  | nil =>
    intro w total sum _ hr _
    have hread : mockEnv.viRead w.st vi buflen = ((st, last), { w.st with reads := rest }) :=
      Mock.read_cons w.st _ _ (by simpa [successReads] using hr)
    constructor
    · have hstep := reads_stop mockEnv vi buflen fuel w sum total sum (by rw [hread]; exact hend)
      simp only [List.length_nil, Nat.zero_add]
      rw [hstep, show List.range 1 = [0] from rfl]
      simp
    · intro hok
      have hbr : last.length < buflen ∨ st = VI_SUCCESS_MAX_CNT := by
        rcases hend with h | h
        · rcases hok with h0 | h0
          · exact absurd h0 h.1
          · exact absurd h0 h.2
        · exact h
      have hstep := exit_break mockEnv vi buflen fuel w total sum (by rw [hread]; exact hok)
        (by rw [hread]; exact hbr)
      rw [hread] at hstep
      simp only [List.length_nil, Nat.zero_add, Nat.zero_mul, Nat.add_zero]
      exact hstep
  | cons c cs ih =>
    intro w total sum hfull hr hal
    have hc : c.length = buflen := hfull c (by simp)
    have hcs : ∀ d ∈ cs, d.length = buflen := fun d hd => hfull d (by simp [hd])
    have hread : mockEnv.viRead w.st vi buflen
        = ((VI_SUCCESS, c), { w.st with reads := successReads cs ++ (st, last) :: rest }) :=
      Mock.read_cons w.st _ _ (by simpa [successReads] using hr)
    have halloc : mockEnv.realloc { w.st with reads := successReads cs ++ (st, last) :: rest }
          (total + buflen)
        = (true, { w.st with reads := successReads cs ++ (st, last) :: rest,
                              allocs := w.st.allocs.drop 1 }) := by
      have := Mock.alloc_ok { w.st with reads := successReads cs ++ (st, last) :: rest } cs.length
        (by simpa using hal)
      simpa [mockEnv] using this
    have e3 : (c :: cs).length + (fuel + 1) = (cs.length + (fuel + 1)) + 1 := by
      simp only [List.length_cons]; omega
    obtain ⟨ih1, ih2⟩ := ih
      ((w.after (Call.viRead vi buflen)
          { w.st with reads := successReads cs ++ (st, last) :: rest }).after
        (Call.realloc (total + buflen))
        { w.st with reads := successReads cs ++ (st, last) :: rest,
                    allocs := w.st.allocs.drop 1 })
      (total + buflen) (sum + buflen)
      hcs (by simp [World.after])
      (by
        intro b hb
        apply hal b
        simp only [World.after, List.take_drop] at hb
        have := List.mem_of_mem_drop hb
        simpa [Nat.add_comm] using this)
    constructor
    · have hstep := reads_continue mockEnv vi buflen (cs.length + (fuel + 1)) w sum total sum
        (by rw [hread]) (by rw [hread]; simp [hc]) (by rw [hread, halloc])
      rw [hread, halloc] at hstep
      simp only [hc] at hstep
      rw [e3, hstep, ih1]
      simp only [Option.map_some', List.length_cons]
      rw [List.range_succ_eq_map (cs.length + 1), List.map_cons, List.map_map]
      have hf : ((fun j => (sum + j * buflen, total + j * buflen)) ∘ Nat.succ)
          = (fun j => (sum + buflen + j * buflen, total + buflen + j * buflen)) := by
        funext j
        simp only [Function.comp, Nat.succ_eq_add_one]
        exact Prod.ext (by simp only []; ring) (by simp only []; ring)
      rw [hf]
      simp
    · intro hok
      have hstep := exit_continue mockEnv vi buflen (cs.length + (fuel + 1)) w total sum
        (by rw [hread]) (by rw [hread]; simp [hc]) (by rw [hread, halloc])
      rw [hread, halloc] at hstep
      simp only [hc] at hstep
      rw [e3, hstep, ih2 hok]
      have e4 : sum + buflen + cs.length * buflen = sum + (c :: cs).length * buflen := by
        simp only [List.length_cons]; ring
      have e5 : total + buflen + cs.length * buflen = total + (c :: cs).length * buflen := by
        simp only [List.length_cons]; ring
      rw [e4, e5]

/-- C13: the block of the chunked reader (`_WriteRead` with any chunk size,
`Read` with 1024) against the scripted environment, when the reads deliver
`k` chunks of exactly `buflen` bytes with status `VI_SUCCESS` and then a
chunk of fewer than `buflen` bytes that ends the loop, and the allocations
succeed.  The loop is entered with a block of `buflen` bytes and the read
pointer at offset 0.  The calls are: the `malloc` of `buflen` bytes, then
for each round `j` that goes on (from 0) a read followed by the `realloc` to
`(j + 2) * buflen` bytes, one chunk more than before, then the last read.  At
read number `j + 1` the read pointer is at offset `j * buflen` of a block of
`(j + 1) * buflen` bytes.  The terminating zero is stored at index
`k * buflen + n` of the block of `(k + 1) * buflen` bytes, and (for fewer
than `2^31` bytes) the result holds all chunks in order: the bytes stored
before a growth are still there.  In every environment whose reads deliver
at most `buflen` bytes, and however a run ends, its read number `j + 1` is
made with the read pointer at `j * buflen` in a block of `(j + 1) * buflen`
bytes. -/
theorem C13_block_size_is_multiple_of_chunk_size (buflen fuel : Nat) (v : World Mock)
    (h : Int) (cmd : List Byte) (fulls : List (List Byte)) (st : ViStatus) (last : List Byte)
    (rest : List (ViStatus × List Byte)) (E : Env σ) (vi : ViSession)
    (hfull : ∀ c ∈ fulls, c.length = buflen)
    (hlast : last.length < buflen)
    (hst : st = VI_SUCCESS ∨ st = VI_SUCCESS_MAX_CNT)
    (hr : v.st.reads = successReads fulls ++ (st, last) :: rest)
    (hal : ∀ b ∈ v.st.allocs, b = true)
    (hfuel : fulls.length < fuel) :
    (v.st.write = VI_SUCCESS →
      _WriteRead mockEnv buflen fuel v h cmd
          = _WriteRead_while mockEnv (toViUInt32 h) buflen fuel
              ⟨{ v.st with allocs := v.st.allocs.drop 1 },
                v.log ++ [Call.malloc buflen,
                  Call.viWrite (toViUInt32 h) (cmd.take (toViUInt32 (Int.ofNat (strlen cmd))))
                    (toViUInt32 (Int.ofNat (strlen cmd)))]⟩
              (List.replicate buflen 0) 0 buflen 0
      ∧ logOf (_WriteRead mockEnv buflen fuel v h cmd)
          = some (v.log ++ [Call.malloc buflen,
              Call.viWrite (toViUInt32 h) (cmd.take (toViUInt32 (Int.ofNat (strlen cmd))))
                (toViUInt32 (Int.ofNat (strlen cmd)))]
            ++ (List.range fulls.length).flatMap
                (fun j => [Call.viRead (toViUInt32 h) buflen, Call.realloc ((j + 2) * buflen)])
            ++ [Call.viRead (toViUInt32 h) buflen])
      ∧ _WriteRead_while_reads mockEnv (toViUInt32 h) buflen fuel
            ⟨{ v.st with allocs := v.st.allocs.drop 1 },
              v.log ++ [Call.malloc buflen,
                Call.viWrite (toViUInt32 h) (cmd.take (toViUInt32 (Int.ofNat (strlen cmd))))
                  (toViUInt32 (Int.ofNat (strlen cmd)))]⟩ 0 buflen 0
          = some ((List.range (fulls.length + 1)).map (fun j => (j * buflen, (j + 1) * buflen)))
      ∧ _WriteRead_while_exit mockEnv (toViUInt32 h) buflen fuel
            ⟨{ v.st with allocs := v.st.allocs.drop 1 },
              v.log ++ [Call.malloc buflen,
                Call.viWrite (toViUInt32 h) (cmd.take (toViUInt32 (Int.ofNat (strlen cmd))))
                  (toViUInt32 (Int.ofNat (strlen cmd)))]⟩ buflen 0
          = some (fulls.length * buflen + last.length, (fulls.length + 1) * buflen)
      ∧ (fulls.length * buflen + last.length < 2147483648 →
          retOf (_WriteRead mockEnv buflen fuel v h cmd)
            = some (okBytes (fulls.flatten ++ last))))
    ∧ (buflen = 1024 →
      Read mockEnv fuel v h
          = Read_while mockEnv (toViUInt32 h) 1024 fuel
              ⟨{ v.st with allocs := v.st.allocs.drop 1 }, v.log ++ [Call.malloc 1024]⟩
              (List.replicate 1024 0) 0 1024 0
      ∧ logOf (Read mockEnv fuel v h)
          = some (v.log ++ [Call.malloc 1024]
            ++ (List.range fulls.length).flatMap
                (fun j => [Call.viRead (toViUInt32 h) 1024, Call.realloc ((j + 2) * 1024)])
            ++ [Call.viRead (toViUInt32 h) 1024])
      ∧ _WriteRead_while_reads mockEnv (toViUInt32 h) 1024 fuel
            ⟨{ v.st with allocs := v.st.allocs.drop 1 }, v.log ++ [Call.malloc 1024]⟩ 0 1024 0
          = some ((List.range (fulls.length + 1)).map (fun j => (j * 1024, (j + 1) * 1024)))
      ∧ _WriteRead_while_exit mockEnv (toViUInt32 h) 1024 fuel
            ⟨{ v.st with allocs := v.st.allocs.drop 1 }, v.log ++ [Call.malloc 1024]⟩ 1024 0
          = some (fulls.length * 1024 + last.length, (fulls.length + 1) * 1024)
      ∧ (fulls.length * 1024 + last.length < 2147483648 →
          retOf (Read mockEnv fuel v h) = some (okBytes (fulls.flatten ++ last))))
    ∧ ((∀ s : σ, (E.viRead s vi buflen).1.2.length ≤ buflen) →
      ∀ (n : Nat) (w : World σ) (l : List (Nat × Nat)),
        _WriteRead_while_reads E vi buflen n w 0 buflen 0 = some l →
        l = (List.range l.length).map (fun j => (j * buflen, (j + 1) * buflen))) := by
  have hal1 : ∀ b ∈ v.st.allocs.take (fulls.length + 1), b = true :=
    fun b hb => hal b (List.mem_of_mem_take hb)
  have hal2 : ∀ b ∈ (v.st.allocs.drop 1).take fulls.length, b = true :=
    fun b hb => hal b (List.mem_of_mem_drop (List.mem_of_mem_take hb))
  have hm : mockEnv.malloc v.st buflen = (true, { v.st with allocs := v.st.allocs.drop 1 }) :=
    Mock.alloc_ok v.st fulls.length hal1
  have hend : (st ≠ VI_SUCCESS ∧ st ≠ VI_SUCCESS_MAX_CNT) ∨ last.length < buflen
      ∨ st = VI_SUCCESS_MAX_CNT := Or.inr (Or.inl hlast)
  have hst1 : st = VI_SUCCESS ∧ last.length < buflen ∨ st = VI_SUCCESS_MAX_CNT := by
    rcases hst with h1 | h1
    · exact Or.inl ⟨h1, hlast⟩
    · exact Or.inr h1
  have hflat : ∀ vi : ViSession, roundsLog vi buflen fulls.length buflen
      = (List.range fulls.length).flatMap
          (fun j => [Call.viRead vi buflen, Call.realloc ((j + 2) * buflen)]) := by
    intro vi
    rw [roundsLog_eq]
    congr 1
    funext j
    have e : buflen + (j + 1) * buflen = (j + 2) * buflen := by ring
    rw [e]
  have hmap : (List.range (fulls.length + 1)).map (fun j => (0 + j * buflen, buflen + j * buflen))
      = (List.range (fulls.length + 1)).map (fun j => (j * buflen, (j + 1) * buflen)) := by
    congr 1
    funext j
    exact Prod.ext (by simp only []; ring) (by simp only []; ring)
  have hobs : ∀ w0 : World Mock, w0.st = { v.st with allocs := v.st.allocs.drop 1 } →
      _WriteRead_while_reads mockEnv (toViUInt32 h) buflen fuel w0 0 buflen 0
          = some ((List.range (fulls.length + 1)).map (fun j => (j * buflen, (j + 1) * buflen)))
      ∧ _WriteRead_while_exit mockEnv (toViUInt32 h) buflen fuel w0 buflen 0
          = some (fulls.length * buflen + last.length, (fulls.length + 1) * buflen) := by
    intro w0 hw0
    obtain ⟨f, rfl⟩ := fuel_split _ _ hfuel
    obtain ⟨h1, h2⟩ := mock_observed_rounds (toViUInt32 h) buflen st last rest f hend fulls w0
      buflen 0 hfull (by rw [hw0]; exact hr) (by rw [hw0]; exact hal2)
    refine ⟨by rw [h1, hmap], ?_⟩
    rw [h2 hst]
    have e1 : 0 + fulls.length * buflen + last.length = fulls.length * buflen + last.length := by
      omega
    have e2 : buflen + fulls.length * buflen = (fulls.length + 1) * buflen := by ring
    rw [e1, e2]
  refine ⟨?_, ?_, ?_⟩
  rotate_left 2
  · intro hcount n w l hrun
    have h0 := reads_invariant E vi buflen hcount n w 0 l
      (by simpa only [Nat.zero_mul, Nat.zero_add, Nat.one_mul] using hrun)
    rw [h0]
    simp only [List.length_map, List.length_range, Nat.zero_add]
  · intro hwr
    have hrun := mock_WriteRead_reassemble_any buflen fuel v h cmd fulls st last rest hwr hfull hr
      hal1 hst1 hfuel
    obtain ⟨ho1, ho2⟩ := hobs
      ⟨{ v.st with allocs := v.st.allocs.drop 1 },
        v.log ++ [Call.malloc buflen,
          Call.viWrite (toViUInt32 h) (cmd.take (toViUInt32 (Int.ofNat (strlen cmd))))
            (toViUInt32 (Int.ofNat (strlen cmd)))]⟩ rfl
    refine ⟨?_, ?_, ho1, ho2, ?_⟩
    · rw [_WriteRead_start mockEnv buflen fuel v h cmd (by rw [hm]) (by rw [hm]; exact hwr), hm]
      simp [World.after, mockEnv]
    · rw [hrun, ← hflat]
      rfl
    · intro hint
      rw [mock_WriteRead_reassemble buflen fuel v h cmd fulls st last rest hwr hfull hr
        hal1 hst1 hfuel hint]
      rfl
  · intro hb
    subst hb
    have hrun := mock_Read_reassemble_any fuel v h fulls st last rest hfull hr hal1 hst1 hfuel
    obtain ⟨ho1, ho2⟩ := hobs
      ⟨{ v.st with allocs := v.st.allocs.drop 1 }, v.log ++ [Call.malloc 1024]⟩ rfl
    refine ⟨?_, ?_, ho1, ho2, ?_⟩
    · rw [Read_start mockEnv fuel v h (by rw [hm]), hm, Read_while_eq]
      rfl
    · rw [hrun, ← hflat]
      rfl
    · intro hint
      rw [mock_Read_reassemble fuel v h fulls st last rest hfull hr hal1 hst1 hfuel hint]
      rfl

theorem C13_block_size_is_multiple_of_chunk_size_witness :
    logOf (_WriteRead mockEnv 2 3
        ⟨scripted VI_SUCCESS
          [(VI_SUCCESS, [1, 2]), (VI_SUCCESS, [3, 4]), (VI_SUCCESS, [5])] [], []⟩ 7 [42])
      = some ([] ++ [Call.malloc 2,
          Call.viWrite (toViUInt32 7) (([42] : List Byte).take (toViUInt32 (Int.ofNat (strlen [42]))))
            (toViUInt32 (Int.ofNat (strlen [42])))]
        ++ (List.range ([[1, 2], [3, 4]] : List (List Byte)).length).flatMap
            (fun j => [Call.viRead (toViUInt32 7) 2, Call.realloc ((j + 2) * 2)])
        ++ [Call.viRead (toViUInt32 7) 2])
    ∧ _WriteRead_while_reads mockEnv (toViUInt32 7) 2 3
          ⟨{ scripted VI_SUCCESS
                [(VI_SUCCESS, [1, 2]), (VI_SUCCESS, [3, 4]), (VI_SUCCESS, [5])] [] with
              allocs := ([] : List Bool).drop 1 },
            [] ++ [Call.malloc 2,
              Call.viWrite (toViUInt32 7)
                (([42] : List Byte).take (toViUInt32 (Int.ofNat (strlen [42]))))
                (toViUInt32 (Int.ofNat (strlen [42])))]⟩ 0 2 0
        = some ((List.range (([[1, 2], [3, 4]] : List (List Byte)).length + 1)).map
            (fun j => (j * 2, (j + 1) * 2))) :=
  have hall := (C13_block_size_is_multiple_of_chunk_size 2 3
    ⟨scripted VI_SUCCESS
      [(VI_SUCCESS, [1, 2]), (VI_SUCCESS, [3, 4]), (VI_SUCCESS, [5])] [], []⟩ 7 [42]
    [[1, 2], [3, 4]] VI_SUCCESS [5] [] mockEnv 7 (by decide) (by decide) (Or.inl rfl) rfl
    (fun b hb => absurd hb (List.not_mem_nil b)) (by decide)).1 rfl
  ⟨hall.2.1, hall.2.2.1⟩

/-! ## C14: one loop behind `Read` and `_WriteRead` -/

/-- The calls logged before the loop is entered do not influence it: its run
is the run from an empty log, with the earlier calls put in front. -/
theorem while_log_shift (E : Env σ) (vi : ViSession) (buflen : Nat) :
    ∀ (fuel : Nat) (s : σ) (log : List Call) (buf : List Byte) (bp total sum : Nat),
      _WriteRead_while E vi buflen fuel ⟨s, log⟩ buf bp total sum
        = (_WriteRead_while E vi buflen fuel ⟨s, []⟩ buf bp total sum).map
            (fun r => (r.1, ⟨r.2.st, log ++ r.2.log⟩)) := by
  intro fuel
  induction fuel with
  | zero => intros; rfl
  | succ n ih =>
    intro s log buf bp total sum
    by_cases hfail : (E.viRead s vi buflen).1.1 ≠ VI_SUCCESS
        ∧ (E.viRead s vi buflen).1.1 ≠ VI_SUCCESS_MAX_CNT
    · rw [while_fail E vi buflen n ⟨s, log⟩ buf bp total sum hfail.1 hfail.2,
        while_fail E vi buflen n ⟨s, []⟩ buf bp total sum hfail.1 hfail.2]
      rfl
    · have hst : (E.viRead s vi buflen).1.1 = VI_SUCCESS
          ∨ (E.viRead s vi buflen).1.1 = VI_SUCCESS_MAX_CNT := by
        by_cases h0 : (E.viRead s vi buflen).1.1 = VI_SUCCESS
        · exact Or.inl h0
        · by_cases h1 : (E.viRead s vi buflen).1.1 = VI_SUCCESS_MAX_CNT
          · exact Or.inr h1
          · exact absurd ⟨h0, h1⟩ hfail
      by_cases hbr : (E.viRead s vi buflen).1.2.length < buflen
          ∨ (E.viRead s vi buflen).1.1 = VI_SUCCESS_MAX_CNT
      · rw [while_break E vi buflen n ⟨s, log⟩ buf bp total sum hst hbr,
          while_break E vi buflen n ⟨s, []⟩ buf bp total sum hst hbr]
        rfl
      · have hlen : ¬ (E.viRead s vi buflen).1.2.length < buflen := fun h => hbr (Or.inl h)
        have hs : (E.viRead s vi buflen).1.1 = VI_SUCCESS := by
          rcases hst with h0 | h1
          · exact h0
          · exact absurd (Or.inr h1) hbr
        by_cases hal : (E.realloc (E.viRead s vi buflen).2 (total + buflen)).1 = true
        · rw [while_continue E vi buflen n ⟨s, log⟩ buf bp total sum hs hlen hal,
            while_continue E vi buflen n ⟨s, []⟩ buf bp total sum hs hlen hal]
          simp only [World.after]
          rw [ih _ (log ++ [Call.viRead vi buflen] ++ [Call.realloc (total + buflen)]),
            ih _ ([] ++ [Call.viRead vi buflen] ++ [Call.realloc (total + buflen)])]
          rw [Option.map_map]
          congr 1
          funext r
          simp [List.append_assoc]
        · have hal2 : (E.realloc (E.viRead s vi buflen).2 (total + buflen)).1 = false := by
            simpa using hal
          rw [while_nomem E vi buflen n ⟨s, log⟩ buf bp total sum hs hlen hal2,
            while_nomem E vi buflen n ⟨s, []⟩ buf bp total sum hs hlen hal2]
          simp [World.after]

/-- The commands `Read` and `WriteRead` against the scripted environment,
with a successful write, expressed through one run of the loop from an empty
log (when the allocation succeeds). -/
theorem mock_Read_WriteRead_runs (fuel : Nat) (w : World Mock) (h : Int) (cmd : List Byte)
    (hwr : w.st.write = VI_SUCCESS) :
    (Read mockEnv fuel w h = some (outOfMemory, ⟨w.st.alloc.2, w.log ++ [Call.malloc 1024]⟩)
      ∧ WriteRead mockEnv fuel w h cmd
          = some (outOfMemory, ⟨w.st.alloc.2, w.log ++ [Call.malloc 1024]⟩))
    ∨ (∃ X : Option (Ret × World Mock),
        Read mockEnv fuel w h
          = X.map (fun r => (r.1, ⟨r.2.st, w.log ++ [Call.malloc 1024] ++ r.2.log⟩))
        ∧ WriteRead mockEnv fuel w h cmd
          = X.map (fun r => (r.1, ⟨r.2.st,
              w.log ++ [Call.malloc 1024,
                Call.viWrite (toViUInt32 h) (cmd.take (toViUInt32 (Int.ofNat (strlen cmd))))
                  (toViUInt32 (Int.ofNat (strlen cmd)))] ++ r.2.log⟩))) := by
  have hmal : mockEnv.malloc w.st 1024 = w.st.alloc := rfl
  by_cases hm : w.st.alloc.1 = true
  · right
    refine ⟨_WriteRead_while mockEnv (toViUInt32 h) 1024 fuel ⟨w.st.alloc.2, []⟩
      (List.replicate 1024 0) 0 1024 0, ?_, ?_⟩
    · rw [Read_start mockEnv fuel w h (by rw [hmal]; exact hm), hmal]
      exact while_log_shift mockEnv (toViUInt32 h) 1024 fuel w.st.alloc.2
        (w.log ++ [Call.malloc 1024]) _ 0 1024 0
    · unfold WriteRead
      have hw : mockEnv.viWrite w.st.alloc.2 (toViUInt32 h)
          (cmd.take (toViUInt32 (Int.ofNat (strlen cmd)))) (toViUInt32 (Int.ofNat (strlen cmd)))
          = (w.st.alloc.2.write, w.st.alloc.2) := rfl
      have hwr2 : w.st.alloc.2.write = VI_SUCCESS := by
        rw [← hwr]
        unfold Mock.alloc
        split <;> rfl
      rw [_WriteRead_start mockEnv 1024 fuel w h cmd (by rw [hmal]; exact hm)
        (by rw [hmal, hw]; exact hwr2), hmal, hw]
      have hl : w.log ++ [Call.malloc 1024,
            Call.viWrite (toViUInt32 h) (cmd.take (toViUInt32 (Int.ofNat (strlen cmd))))
              (toViUInt32 (Int.ofNat (strlen cmd)))]
          = w.log ++ [Call.malloc 1024]
            ++ [Call.viWrite (toViUInt32 h) (cmd.take (toViUInt32 (Int.ofNat (strlen cmd))))
              (toViUInt32 (Int.ofNat (strlen cmd)))] := by
        rw [List.append_assoc]; rfl
      rw [hl]
      exact while_log_shift mockEnv (toViUInt32 h) 1024 fuel w.st.alloc.2 _ _ 0 1024 0
  · left
    have hm2 : w.st.alloc.1 = false := by simpa using hm
    constructor
    · simp only [Read, World.after, hmal, hm2, if_true]
    · simp only [WriteRead, _WriteRead, World.after, hmal, hm2, if_true]

theorem drop_after_front (l p r : List Call) (n : Nat) (hn : n = l.length + p.length) :
    (l ++ p ++ r).drop n = r := by
  subst hn
  rw [← List.length_append, List.drop_left]

/-- C14: `Read` and `_WriteRead` run the same loop: their two copies of it
are the same function, for every environment.  Against every scripted
environment (every script of read results and of allocation outcomes) whose
write succeeds, `Read` and `WriteRead` (both with chunks of 1024 bytes)
return the same result or the same failure, make the same reads in the same
order, make the same calls after the allocation (and the write), and leave
the same scripts behind.  `WriteRead` and `WriteReadBin` are `_WriteRead`
with 1024 and with 1000000. -/
theorem C14_Read_and_WriteRead_run_the_same_loop (E : Env σ) (vi : ViSession) (buflen fuel : Nat)
    (w0 : World σ) (buf : List Byte) (bp total sum : Nat)
    (w : World Mock) (h : Int) (cmd : List Byte) (hwr : w.st.write = VI_SUCCESS) :
    Read_while E vi buflen fuel w0 buf bp total sum
        = _WriteRead_while E vi buflen fuel w0 buf bp total sum
    ∧ retOf (Read mockEnv fuel w h) = retOf (WriteRead mockEnv fuel w h cmd)
    ∧ (logOf (Read mockEnv fuel w h)).map (List.filter Call.isRead)
        = (logOf (WriteRead mockEnv fuel w h cmd)).map (List.filter Call.isRead)
    ∧ (logOf (Read mockEnv fuel w h)).map (List.drop (w.log.length + 1))
        = (logOf (WriteRead mockEnv fuel w h cmd)).map (List.drop (w.log.length + 2))
    ∧ (Read mockEnv fuel w h).map (fun r => r.2.st)
        = (WriteRead mockEnv fuel w h cmd).map (fun r => r.2.st)
    ∧ WriteRead E fuel w0 h cmd = _WriteRead E 1024 fuel w0 h cmd
    ∧ WriteReadBin E fuel w0 h cmd = _WriteRead E 1000000 fuel w0 h cmd := by
  refine ⟨Read_while_eq E vi buflen fuel w0 buf bp total sum, ?_, ?_, ?_, ?_, rfl, rfl⟩
  all_goals
    rcases mock_Read_WriteRead_runs fuel w h cmd hwr with ⟨h1, h2⟩ | ⟨X, h1, h2⟩
  · rw [h1, h2]
  · rw [h1, h2]
    cases X <;> rfl
  · rw [h1, h2]
  · rw [h1, h2]
    cases X with
    | none => rfl
    | some r =>
      simp only [logOf, Option.map_some', List.filter_append, Option.some.injEq]
      simp [Call.isRead]
  · rw [h1, h2]
    simp only [logOf, Option.map_some', Option.some.injEq]
    rw [List.drop_of_length_le (by simp), List.drop_of_length_le (by simp)]
  · rw [h1, h2]
    cases X with
    | none => rfl
    | some r =>
      simp only [logOf, Option.map_some', Option.some.injEq]
      exact (drop_after_front w.log [Call.malloc 1024] r.2.log _ rfl).trans
        (drop_after_front w.log [Call.malloc 1024, _] r.2.log _ rfl).symm
  · rw [h1, h2]
  · rw [h1, h2]
    cases X <;> rfl

theorem C14_Read_and_WriteRead_run_the_same_loop_witness :
    retOf (Read mockEnv 3
        ⟨scripted VI_SUCCESS [(VI_SUCCESS, List.replicate 1024 1), (VI_SUCCESS, [2])] [], []⟩ 7)
      = retOf (WriteRead mockEnv 3
        ⟨scripted VI_SUCCESS [(VI_SUCCESS, List.replicate 1024 1), (VI_SUCCESS, [2])] [], []⟩ 7
        [42, 10]) :=
  (C14_Read_and_WriteRead_run_the_same_loop mockEnv 7 1024 3
    ⟨scripted VI_SUCCESS [] [], []⟩ [] 0 0 0
    ⟨scripted VI_SUCCESS [(VI_SUCCESS, List.replicate 1024 1), (VI_SUCCESS, [2])] [], []⟩ 7
    [42, 10] rfl).2.1

/-! ## C15: what the read loop returns -/

/-- The loops of `Read` and of `_WriteRead` in `src/tclrsvisa.cpp` are the
same function. -/
theorem tclrsvisa_Read_while_eq (E : Env σ) (moved : Nat → Bool) (vi : ViSession)
    (buflen : Nat) :
    ∀ (fuel : Nat) (w : World σ) (buf : List Byte) (bp : Option Nat) (total sum : Nat),
      Tclrsvisa.Read_while E moved vi buflen fuel w buf bp total sum
        = Tclrsvisa._WriteRead_while E moved vi buflen fuel w buf bp total sum := by
  intro fuel
  induction fuel with
  | zero =>
    intro w buf bp total sum
    cases bp <;> rfl
  | succ f ih =>
    intro w buf bp total sum
    cases bp with
    | none => rfl
    | some off => simp only [Tclrsvisa.Read_while, Tclrsvisa._WriteRead_while, ih]

/-- A round entered with `bp` left behind by a `realloc` that moved the block. -/
theorem tclrsvisa_while_dangling (E : Env σ) (moved : Nat → Bool) (vi : ViSession)
    (buflen fuel : Nat) (w : World σ) (buf : List Byte) (total sum : Nat) :
    Tclrsvisa._WriteRead_while E moved vi buflen (fuel + 1) w buf none total sum
      = some (Outcome.undefinedBehaviour w) := by
  simp only [Tclrsvisa._WriteRead_while]

/-- A round that leaves the loop with `sum` at the size of the block: the
terminating zero is stored outside the block. -/
theorem tclrsvisa_while_break_outside (E : Env σ) (moved : Nat → Bool) (vi : ViSession)
    (buflen fuel : Nat) (w : World σ) (buf : List Byte) (off total sum : Nat)
    (hst : (E.viRead w.st vi buflen).1.1 = VI_SUCCESS
      ∨ (E.viRead w.st vi buflen).1.1 = VI_SUCCESS_MAX_CNT)
    (hbr : (E.viRead w.st vi buflen).1.2.length < buflen
      ∨ (E.viRead w.st vi buflen).1.1 = VI_SUCCESS_MAX_CNT)
    (hout : ¬ sum + (E.viRead w.st vi buflen).1.2.length < total) :
    Tclrsvisa._WriteRead_while E moved vi buflen (fuel + 1) w buf (some off) total sum
      = some (Outcome.undefinedBehaviour
          (w.after (Call.viRead vi buflen) (E.viRead w.st vi buflen).2)) := by
  have hnf : ¬ ((E.viRead w.st vi buflen).1.1 ≠ VI_SUCCESS
      ∧ (E.viRead w.st vi buflen).1.1 ≠ VI_SUCCESS_MAX_CNT) := by
    rcases hst with h | h <;> simp [h]
  simp only [Tclrsvisa._WriteRead_while, if_neg hnf, if_pos hbr, if_neg hout]

/-- The index of the terminating zero never exceeds the size of the block
when no read delivers more than `buflen` bytes, and lies inside the block
when, in addition, no read that fills the chunk reports
`VI_SUCCESS_MAX_CNT`. -/
theorem exit_index_bound (E : Env σ) (vi : ViSession) (buflen : Nat)
    (hcount : ∀ s : σ, (E.viRead s vi buflen).1.2.length ≤ buflen) :
    ∀ (fuel : Nat) (w : World σ) (total sum i n : Nat), sum + buflen = total →
      _WriteRead_while_exit E vi buflen fuel w total sum = some (i, n) →
      i ≤ n ∧ ((∀ s : σ, (E.viRead s vi buflen).1.1 = VI_SUCCESS_MAX_CNT →
        (E.viRead s vi buflen).1.2.length < buflen) → i < n) := by
  intro fuel
  induction fuel with
  | zero =>
    intro w total sum i n _ hrun
    simp [_WriteRead_while_exit] at hrun
  | succ f ih =>
    intro w total sum i n htot hrun
    have hc := hcount w.st
    by_cases hfail : (E.viRead w.st vi buflen).1.1 ≠ VI_SUCCESS
        ∧ (E.viRead w.st vi buflen).1.1 ≠ VI_SUCCESS_MAX_CNT
    · simp only [_WriteRead_while_exit, if_pos hfail] at hrun
      exact absurd hrun (by simp)
    · by_cases hbr : (E.viRead w.st vi buflen).1.2.length < buflen
          ∨ (E.viRead w.st vi buflen).1.1 = VI_SUCCESS_MAX_CNT
      · simp only [_WriteRead_while_exit, if_neg hfail, if_pos hbr, Option.some.injEq,
          Prod.mk.injEq] at hrun
        obtain ⟨h1, h2⟩ := hrun
        refine ⟨by omega, fun hmax => ?_⟩
        have hlt : (E.viRead w.st vi buflen).1.2.length < buflen := by
          rcases hbr with h | h
          · exact h
          · exact hmax w.st h
        omega
      · by_cases hal : (E.realloc (E.viRead w.st vi buflen).2 (total + buflen)).1 = false
        · simp only [_WriteRead_while_exit, if_neg hfail, if_neg hbr, World.after, hal,
            if_true] at hrun
          exact absurd hrun (by simp)
        · simp only [_WriteRead_while_exit, if_neg hfail, if_neg hbr, World.after, hal,
            if_false] at hrun
          have hlen : ¬ (E.viRead w.st vi buflen).1.2.length < buflen :=
            fun hlt => hbr (Or.inl hlt)
          exact ih _ _ _ i n (by omega) hrun

/-- In `Idn` the index of the terminating zero lies inside the array. -/
theorem Idn_exit_index_bound (E : Env σ) (vi : ViSession) (buflen : Nat) :
    ∀ (fuel : Nat) (w : World σ) (i n : Nat),
      Idn_while_exit E vi buflen fuel w = some (i, n) → i < n ∧ n = buflen := by
  intro fuel
  induction fuel with
  | zero =>
    intro w i n hrun
    simp [Idn_while_exit] at hrun
  | succ f ih =>
    intro w i n hrun
    by_cases hfail : (E.viRead w.st vi buflen).1.1 ≠ VI_SUCCESS
    · simp only [Idn_while_exit, if_pos hfail] at hrun
      exact absurd hrun (by simp)
    · by_cases hlt : (E.viRead w.st vi buflen).1.2.length < buflen
      · simp only [Idn_while_exit, if_neg hfail, if_pos hlt, Option.some.injEq,
          Prod.mk.injEq] at hrun
        obtain ⟨h1, h2⟩ := hrun
        exact ⟨by omega, h2.symm⟩
      · simp only [Idn_while_exit, if_neg hfail, if_neg hlt] at hrun
        exact ih _ i n hrun

/-- The observed loop follows the loop of the commands: it gives an index
exactly when the command returns a byte array. -/
theorem exit_iff_returns_bytes (E : Env σ) (vi : ViSession) (buflen : Nat) :
    ∀ (fuel : Nat) (w : World σ) (buf : List Byte) (bp total sum : Nat),
      (∃ i n : Nat, _WriteRead_while_exit E vi buflen fuel w total sum = some (i, n))
      ↔ (∃ (b : List Byte) (w1 : World σ),
          _WriteRead_while E vi buflen fuel w buf bp total sum = some (okBytes b, w1)) := by
  intro fuel
  induction fuel with
  | zero =>
    intro w buf bp total sum
    simp [_WriteRead_while_exit, _WriteRead_while]
  | succ f ih =>
    intro w buf bp total sum
    by_cases hfail : (E.viRead w.st vi buflen).1.1 ≠ VI_SUCCESS
        ∧ (E.viRead w.st vi buflen).1.1 ≠ VI_SUCCESS_MAX_CNT
    · rw [while_fail E vi buflen f w buf bp total sum hfail.1 hfail.2]
      simp only [_WriteRead_while_exit, if_pos hfail]
      constructor
      · rintro ⟨i, n, hx⟩
        exact absurd hx (by simp)
      · rintro ⟨b, w1, hx⟩
        have hcode := congrArg (fun r => r.1.code) (Option.some.inj hx)
        exact absurd hcode (by simp [statusError, okBytes])
    · have hst : (E.viRead w.st vi buflen).1.1 = VI_SUCCESS
          ∨ (E.viRead w.st vi buflen).1.1 = VI_SUCCESS_MAX_CNT := by
        by_cases h0 : (E.viRead w.st vi buflen).1.1 = VI_SUCCESS
        · exact Or.inl h0
        · by_cases h1 : (E.viRead w.st vi buflen).1.1 = VI_SUCCESS_MAX_CNT
          · exact Or.inr h1
          · exact absurd ⟨h0, h1⟩ hfail
      by_cases hbr : (E.viRead w.st vi buflen).1.2.length < buflen
          ∨ (E.viRead w.st vi buflen).1.1 = VI_SUCCESS_MAX_CNT
      · rw [while_break E vi buflen f w buf bp total sum hst hbr,
          exit_break E vi buflen f w total sum hst hbr]
        exact ⟨fun _ => ⟨_, _, rfl⟩, fun _ => ⟨_, _, rfl⟩⟩
      · have hlen : ¬ (E.viRead w.st vi buflen).1.2.length < buflen := fun h => hbr (Or.inl h)
        have hs : (E.viRead w.st vi buflen).1.1 = VI_SUCCESS := by
          rcases hst with h0 | h1
          · exact h0
          · exact absurd (Or.inr h1) hbr
        by_cases hal : (E.realloc (E.viRead w.st vi buflen).2 (total + buflen)).1 = true
        · rw [while_continue E vi buflen f w buf bp total sum hs hlen hal]
          simp only [_WriteRead_while_exit, if_neg hfail, if_neg hbr, World.after, hal,
            Bool.true_eq_false, if_false]
          exact ih _ _ _ _ _
        · have hal2 : (E.realloc (E.viRead w.st vi buflen).2 (total + buflen)).1 = false := by
            simpa using hal
          rw [while_nomem E vi buflen f w buf bp total sum hs hlen hal2]
          simp only [_WriteRead_while_exit, if_neg hfail, if_neg hbr, World.after, hal2, if_true]
          constructor
          · rintro ⟨i, n, hx⟩
            exact absurd hx (by simp)
          · rintro ⟨b, w1, hx⟩
            have hcode := congrArg (fun r => r.1.code) (Option.some.inj hx)
            exact absurd hcode (by simp [outOfMemory, okBytes])

/-- C16, at the failing input: a first read that delivers exactly 1024 bytes
with status `VI_SUCCESS_MAX_CNT` makes `WriteRead` leave its loop
successfully, without growing the block of 1024 bytes, and return the 1024
bytes; the index `sum` of `buf[sum] = 0;` is then 1024, the size of the
block, not less. -/
theorem C16_terminating_zero_at_block_size :
    WriteRead mockEnv 1
        ⟨scripted VI_SUCCESS [(VI_SUCCESS_MAX_CNT, List.replicate 1024 1)] [], []⟩ 7 [42, 10]
      = _WriteRead_while mockEnv 7 1024 1
          ⟨scripted VI_SUCCESS [(VI_SUCCESS_MAX_CNT, List.replicate 1024 1)] [],
            [Call.malloc 1024, Call.viWrite 7 [42, 10] 2]⟩
          (List.replicate 1024 0) 0 1024 0
    ∧ retOf (WriteRead mockEnv 1
        ⟨scripted VI_SUCCESS [(VI_SUCCESS_MAX_CNT, List.replicate 1024 1)] [], []⟩ 7 [42, 10])
      = some (okBytes (List.replicate 1024 1))
    ∧ logOf (WriteRead mockEnv 1
        ⟨scripted VI_SUCCESS [(VI_SUCCESS_MAX_CNT, List.replicate 1024 1)] [], []⟩ 7 [42, 10])
      = some [Call.malloc 1024, Call.viWrite 7 [42, 10] 2, Call.viRead 7 1024]
    ∧ _WriteRead_while_exit mockEnv 7 1024 1
          ⟨scripted VI_SUCCESS [(VI_SUCCESS_MAX_CNT, List.replicate 1024 1)] [],
            [Call.malloc 1024, Call.viWrite 7 [42, 10] 2]⟩ 1024 0
      = some (1024, 1024)
    ∧ ¬ ((1024 : Nat) < 1024) := by
  have hrun := mock_WriteRead_reassemble 1024 1
    ⟨scripted VI_SUCCESS [(VI_SUCCESS_MAX_CNT, List.replicate 1024 1)] [], []⟩
    7 [42, 10] [] VI_SUCCESS_MAX_CNT (List.replicate 1024 1) [] rfl (fun c hc => nomatch hc) rfl
    (fun b hb => absurd hb (List.not_mem_nil b)) (Or.inr rfl) (by decide)
    (by rw [List.length_replicate]; decide)
  have hexit := exit_break mockEnv 7 1024 0
    ⟨scripted VI_SUCCESS [(VI_SUCCESS_MAX_CNT, List.replicate 1024 1)] [],
      [Call.malloc 1024, Call.viWrite 7 [42, 10] 2]⟩ 1024 0 (Or.inr rfl) (Or.inr rfl)
  have hread : (mockEnv.viRead
      (scripted VI_SUCCESS [(VI_SUCCESS_MAX_CNT, List.replicate 1024 1)] []) 7 1024).1.2
      = List.replicate 1024 1 := rfl
  refine ⟨?_, ?_, ?_, ?_, by decide⟩
  · unfold WriteRead
    exact _WriteRead_start mockEnv 1024 1
      ⟨scripted VI_SUCCESS [(VI_SUCCESS_MAX_CNT, List.replicate 1024 1)] [], []⟩ 7 [42, 10]
      rfl rfl
  · unfold WriteRead
    rw [hrun]; rfl
  · unfold WriteRead
    rw [hrun]; rfl
  · rw [hexit, hread, List.length_replicate]

end Rsvisa
